import Mathlib

/-!
# Repair engine of the storage SDK (`zboxcore/sdk/repairworker.go`)

A shallow embedding of the repair tree walk: `processRepair`, `iterateDir`,
`repairFile`, `getLocalPath`, `checkFileExists` and `checkForCancel`.

The walk is sequential code that talks to the outside world through four
allocation methods (`ListDir`, `RepairRequired`, `DownloadFile`, `RepairFile`),
through `os.Stat`, and through the caller's callbacks.  The outside world is a
record of answer functions (`Env`); each answer may depend on everything that
happened before (the trace so far).  Every call the walk makes and every
callback it invokes is appended to a trace, so statements such as "no further
network call is issued" are statements about that trace.

Modelling decisions, all visible in the definitions below:

* `isRepairCanceled` is written by the caller's goroutine.  It changes only
  while one of the four allocation methods is in flight: every answer carries
  a `cancel` bit, and when it is set the flag becomes true and the trace gets a
  `cancelSignalled` mark right after the call.
* `DownloadFile` / `RepairFile` are asynchronous; `repairFile` blocks on
  `wg.Wait()` and then reads `statusCB.success`.  A transfer answer says how
  the transfer ends: with a `Completed` or with an `Error` event delivered to
  the wrapper.  Only these two wrapper methods release the wait, and both call
  the wrapped callback first; with a non-nil callback the flag read after the
  wait is the one the answer carries, with a nil callback the wait is never
  released and the run has `status = Status.halted`.
* A nil-pointer dereference is a Go run-time panic; a run that panicked has
  `status = Status.panicked` and executes nothing further except deferred
  calls.
* `iterateDir` recurses into listings fetched from the remote side, which the
  walk does not control; the recursion depth is bounded by a fuel argument and
  running out of it is reported as `Status.outOfFuel`.
* `filesRepaired` is a Go `int` that counts files; it is a natural number here
  (the counter starts at zero and cannot reach the word size).
* `r.listDir` and the entries of `Children` are taken to be non-nil.
* The wrapper `RepairStatusCB` is embedded on its own, method by method; a
  method reports what it does to the outside (calls on the wrapped callback,
  `cb.wg.Done()`) as a list of effects.

Two further sections model the diff engine and the collaborator fan-out from
the specification, since their implementation is not among the sources.
-/

namespace Repair

/-- The value of `ListResult.Type`.  The walk only distinguishes
`fileref.DIRECTORY`, `fileref.FILE` and everything else (the `default:`
branch of the switch). -/
inductive RefType where
  | FILE
  | DIRECTORY
  | other (tag : String)
  deriving DecidableEq, Repr

/-- Remote tree node `ListResult`: the fields the walk reads
(`Type`, `Path`, `Children`). -/
inductive ListResult where
  | mk (type : RefType) (path : String) (children : List ListResult)

/-- Field `Type` of a node. -/
def ListResult.Type_ : ListResult → RefType
  | .mk t _ _ => t

/-- Field `Path` of a node. -/
def ListResult.Path : ListResult → String
  | .mk _ p _ => p

/-- Field `Children` of a node. -/
def ListResult.Children : ListResult → List ListResult
  | .mk _ _ cs => cs

/-- What the walk does that is visible from outside, in the order it
happens.  Calls on the allocation carry their answer. -/
inductive Event where
  /-- Call `a.ListDir(path)`: `found` says a non-nil listing came back,
  `err` that the error was non-nil. -/
  | ListDir (path : String) (found : Bool) (err : Bool)
  /-- Call `a.RepairRequired(path)`. -/
  | RepairRequired (path : String) (required : Bool) (err : Bool)
  /-- Call `a.DownloadFile(localPath, remotePath, statusCB)` with the answer
  it got: `err` says the call returned an error, `success` how the transfer
  ends (meaningful when `err` is false). -/
  | DownloadFile (localPath remotePath : String) (err : Bool) (success : Bool)
  /-- Call `a.RepairFile(localPath, remotePath, statusCB)`, likewise. -/
  | RepairFile (localPath remotePath : String) (err : Bool) (success : Bool)
  /-- Call `r.statusCB.RepairCompleted(filesRepaired)`. -/
  | RepairCompleted (filesRepaired : Nat)
  /-- Call `r.completedCallback()`. -/
  | completedCallback
  /-- The caller set `isRepairCanceled` while the preceding call was in
  flight. -/
  | cancelSignalled
  deriving DecidableEq, Repr

/-- Answer of `a.ListDir`: the returned pointer (`none` is nil), whether the
returned error is non-nil, and whether cancellation was signalled meanwhile. -/
structure ListDirResp where
  listing : Option ListResult
  err : Bool
  cancel : Bool

/-- Answer of `a.RepairRequired`: the `repairRequired` result, whether the
error is non-nil, and whether cancellation was signalled meanwhile. -/
structure RepairRequiredResp where
  required : Bool
  err : Bool
  cancel : Bool

/-- Answer of `a.DownloadFile` / `a.RepairFile`: whether the call returned an
error; otherwise `success` says whether the transfer ends with a `Completed`
event (true) or an `Error` event (false) delivered to the wrapper, which is
the value of `statusCB.success` when `wg.Wait()` returns. -/
structure TransferResp where
  err : Bool
  success : Bool
  cancel : Bool

/-- The outside world of one repair run.  Each answer may depend on the trace
so far.  `Stat` is `os.Stat`: `none` is an error, `some isDir` a file info. -/
structure Env where
  ListDir : List Event → String → ListDirResp
  RepairRequired : List Event → String → RepairRequiredResp
  DownloadFile : List Event → String → String → TransferResp
  RepairFile : List Event → String → String → TransferResp
  Stat : List Event → String → Option Bool

/-- The request `RepairRequest`.  `statusCB` and `completedCallback` record
whether the field is non-nil. -/
structure RepairRequest where
  listDir : ListResult
  isRepairCanceled : Bool
  localRootPath : String
  statusCB : Bool
  completedCallback : Bool
  filesRepaired : Nat

/-- How a (part of a) run ended.  `halted` is a run stuck in `wg.Wait()`
(lines 143, 164): the wait is released only by the wrapper methods
`Completed` and `Error`, and with a nil wrapped callback both panic before
they reach `wg.Done()`, in whatever goroutine delivers the event. -/
inductive Status where
  | ok
  | panicked
  | outOfFuel
  | halted
  deriving DecidableEq, Repr

/-- A run in progress: the request, everything observed so far, and whether
the code is still executing normally. -/
structure Run where
  r : RepairRequest
  trace : List Event
  status : Status

/-- Append one observation. -/
def Run.emit (s : Run) (e : Event) : Run :=
  { s with trace := s.trace ++ [e] }

/-- A call on the allocation completed: record it, and if the caller signalled
cancellation meanwhile, set the flag and mark the moment. -/
def Run.call (s : Run) (e : Event) (cancel : Bool) : Run :=
  if cancel then
    { s with r := { s.r with isRepairCanceled := true },
             trace := s.trace ++ [e, Event.cancelSignalled] }
  else
    { s with trace := s.trace ++ [e] }

/-- The run never gets past the wait it is in. -/
def Run.halt (s : Run) : Run :=
  { s with status := Status.halted }

/-- Source `checkForCancel` (lines 189-198). -/
def checkForCancel (s : Run) : Bool × Run :=
  if s.r.isRepairCanceled then
    if s.r.statusCB then
      (true, s.emit (Event.RepairCompleted s.r.filesRepaired))
    else
      (true, s)
  else
    (false, s)

/-- Source `getLocalPath` (lines 177-179). -/
def getLocalPath (r : RepairRequest) (file : ListResult) : String :=
  r.localRootPath ++ file.Path

/-- Source `checkFileExists` (lines 181-187), over the answer of `os.Stat`. -/
def checkFileExists (stat : Option Bool) : Bool :=
  match stat with
  | none => false
  | some isDir => !isDir

/-- Lines 153-171 of `repairFile`: the cancel check, the `RepairFile` call,
the wait and the increment.  The wait (line 164) is reached when the call
returned no error; the wrapper handed to the call wraps `r.statusCB`
(lines 125-128), and with a nil `r.statusCB` the wait is never released. -/
def repairFileUpload (a : Env) (file : ListResult) (localPath : String) (s : Run) : Run :=
  match checkForCancel s with
  | (true, s1) => s1
  | (false, s1) =>
    let resp := a.RepairFile s1.trace localPath file.Path
    let s2 := s1.call (Event.RepairFile localPath file.Path resp.err resp.success) resp.cancel
    if resp.err then s2
    else if !s2.r.statusCB then s2.halt
    else if !resp.success then s2
    else { s2 with r := { s2.r with filesRepaired := s2.r.filesRepaired + 1 } }

/-- Source `repairFile` (lines 110-175).  The wrapper `statusCB` is local to
one call and wraps `r.statusCB` (lines 125-128); line 150 resets its flag
after a successful download, and the flag read after the second wait
(line 165) is the one the `RepairFile` answer carries.  The wait after the
download (line 143) is reached when the call returned no error, and with a
nil `r.statusCB` it is never released. -/
def repairFile (a : Env) (file : ListResult) (s : Run) : Run :=
  match checkForCancel s with
  | (true, s1) => s1
  | (false, s1) =>
    let rr := a.RepairRequired s1.trace file.Path
    let s2 := s1.call (Event.RepairRequired file.Path rr.required rr.err) rr.cancel
    if rr.err then s2
    else if rr.required then
      let localPath := getLocalPath s2.r file
      if !checkFileExists (a.Stat s2.trace localPath) then
        match checkForCancel s2 with
        | (true, s3) => s3
        | (false, s3) =>
          let d := a.DownloadFile s3.trace localPath file.Path
          let s4 := s3.call (Event.DownloadFile localPath file.Path d.err d.success) d.cancel
          if d.err then s4
          else if !s4.r.statusCB then s4.halt
          else if !d.success then s4
          else repairFileUpload a file localPath s4
      else repairFileUpload a file localPath s2
    else s2

/-- The `for _, childDir := range dir.Children` loop of `iterateDir`
(lines 93-98); `visit` is the recursive call. -/
def forChildren (visit : ListResult → Run → Run) : List ListResult → Run → Run
  | [], s => s
  | childDir :: rest, s =>
    match checkForCancel s with
    | (true, s1) => s1
    | (false, s1) =>
      let s2 := visit childDir s1
      if s2.status = Status.ok then forChildren visit rest s2 else s2

/-- Source `iterateDir` (lines 82-108).  In the error branch of the listing
fetch the log statement reads `dir.Path` after `dir` was overwritten with the
pointer `ListDir` returned; with a nil pointer that is a panic.  With a nil
pointer and a nil error, ranging over `dir.Children` panics as well. -/
def iterateDir (a : Env) : Nat → ListResult → Run → Run
  | 0, _, s => { s with status := Status.outOfFuel }
  | fuel + 1, dir, s =>
    match dir.Type_ with
    | RefType.DIRECTORY =>
      if dir.Children.length = 0 then
        let resp := a.ListDir s.trace dir.Path
        let s1 := s.call (Event.ListDir dir.Path resp.listing.isSome resp.err) resp.cancel
        match resp.listing, resp.err with
        | none, true => { s1 with status := Status.panicked }
        | some _, true => s1
        | none, false => { s1 with status := Status.panicked }
        | some fetched, false => forChildren (iterateDir a fuel) fetched.Children s1
      else
        forChildren (iterateDir a fuel) dir.Children s
    | RefType.FILE => repairFile a dir s
    | RefType.other _ => s

/-- Source `processRepair` (lines 64-80).  The deferred `completedCallback`
runs when the function returns and also while a panic of the walk unwinds; a
run stuck in a wait does neither. -/
def processRepair (a : Env) (fuel : Nat) (r : RepairRequest) : Run :=
  let s0 : Run := { r := r, trace := [], status := Status.ok }
  let s3 : Run :=
    match checkForCancel s0 with
    | (true, s1) => s1
    | (false, s1) =>
      let s2 := iterateDir a fuel s1.r.listDir s1
      if s2.status = Status.ok then
        if s2.r.statusCB then s2.emit (Event.RepairCompleted s2.r.filesRepaired) else s2
      else s2
  if r.completedCallback ∧ (s3.status = Status.ok ∨ s3.status = Status.panicked) then
    s3.emit Event.completedCallback
  else s3

/-! ## Intermediate states of `repairFile`, for use in statements -/

/-- The run right after the `RepairRequired` call of `repairFile` (line 116). -/
def afterRepairRequired (a : Env) (file : ListResult) (s : Run) : Run :=
  s.call (Event.RepairRequired file.Path (a.RepairRequired s.trace file.Path).required
      (a.RepairRequired s.trace file.Path).err)
    (a.RepairRequired s.trace file.Path).cancel

/-- The run right after the `DownloadFile` call (line 138). -/
def afterDownloadFile (a : Env) (file : ListResult) (localPath : String) (s : Run) : Run :=
  s.call (Event.DownloadFile localPath file.Path (a.DownloadFile s.trace localPath file.Path).err
      (a.DownloadFile s.trace localPath file.Path).success)
    (a.DownloadFile s.trace localPath file.Path).cancel

/-- The run right after the `RepairFile` call (line 159), before the counter
is touched. -/
def afterRepairFile (a : Env) (file : ListResult) (localPath : String) (s : Run) : Run :=
  s.call (Event.RepairFile localPath file.Path (a.RepairFile s.trace localPath file.Path).err
      (a.RepairFile s.trace localPath file.Path).success)
    (a.RepairFile s.trace localPath file.Path).cancel

/-- The increment `r.filesRepaired++` (line 171). -/
def Run.countRepaired (s : Run) : Run :=
  { s with r := { s.r with filesRepaired := s.r.filesRepaired + 1 } }

/-! ## Vocabulary for statements about traces and trees -/

/-- One of the four calls on the allocation (`ListDir`, `RepairRequired`,
`DownloadFile`, `RepairFile`). -/
def Event.isNetwork : Event → Bool
  | .ListDir _ _ _ => true
  | .RepairRequired _ _ _ => true
  | .DownloadFile _ _ _ _ => true
  | .RepairFile _ _ _ _ => true
  | _ => false

/-- A `DownloadFile` call. -/
def Event.isDownloadFile : Event → Bool
  | .DownloadFile _ _ _ _ => true
  | _ => false

/-- A `RepairFile` call. -/
def Event.isRepairFile : Event → Bool
  | .RepairFile _ _ _ _ => true
  | _ => false

/-- A `RepairFile` call that returned no error and whose transfer ends with
success. -/
def Event.isRepaired : Event → Bool
  | .RepairFile _ _ false true => true
  | _ => false

/-- A `RepairCompleted` notification. -/
def Event.isRepairCompleted : Event → Bool
  | .RepairCompleted _ => true
  | _ => false

/-- The paths handed to `RepairRequired`, in call order. -/
def checkedPaths : List Event → List String
  | [] => []
  | .RepairRequired p _ _ :: t => p :: checkedPaths t
  | _ :: t => checkedPaths t

mutual
/-- The FILE nodes of a tree, depth first, children in listing order. -/
def ListResult.fileNodes : ListResult → List ListResult
  | .mk RefType.FILE p cs => [.mk RefType.FILE p cs]
  | .mk RefType.DIRECTORY _ cs => fileNodesOfList cs
  | .mk (RefType.other _) _ _ => []
/-- The FILE nodes of a list of trees, left to right. -/
def fileNodesOfList : List ListResult → List ListResult
  | [] => []
  | c :: cs => c.fileNodes ++ fileNodesOfList cs
end

mutual
/-- Number of levels of a tree. -/
def ListResult.height : ListResult → Nat
  | .mk _ _ cs => heightOfList cs + 1
/-- Largest height in a list of trees. -/
def heightOfList : List ListResult → Nat
  | [] => 0
  | c :: cs => max c.height (heightOfList cs)
end

mutual
/-- Every DIRECTORY node of the tree has a non-empty `Children` list. -/
def ListResult.childrenKnown : ListResult → Bool
  | .mk RefType.DIRECTORY _ cs => !cs.isEmpty && childrenKnownList cs
  | .mk _ _ _ => true
/-- All trees of a list have known children. -/
def childrenKnownList : List ListResult → Bool
  | [] => true
  | c :: cs => c.childrenKnown && childrenKnownList cs
end

/-- Cancellation is never signalled during a call of this world. -/
def Env.neverCancels (a : Env) : Prop :=
  (∀ t p, (a.ListDir t p).cancel = false) ∧
  (∀ t p, (a.RepairRequired t p).cancel = false) ∧
  (∀ t l p, (a.DownloadFile t l p).cancel = false) ∧
  (∀ t l p, (a.RepairFile t l p).cancel = false)

/-- The cancellation flag after the events `t`, when it was `flag` before:
it is raised by every `cancelSignalled` mark and never lowered. -/
def flagAfter (flag : Bool) (t : List Event) : Bool :=
  flag || t.any (fun e => e == Event.cancelSignalled)

/-- No call on the allocation occurs in `t` while the cancellation flag is
up; the flag is `flag` at the start of `t` and is raised by the
`cancelSignalled` marks in `t`. -/
def quietFrom : Bool → List Event → Bool
  | _, [] => true
  | flag, e :: t =>
    !(flag && e.isNetwork) && quietFrom (flag || e == Event.cancelSignalled) t

/-! ## Concrete trees, worlds and requests -/

/-- A FILE node without children. -/
def fileNode (path : String) : ListResult :=
  ListResult.mk RefType.FILE path []

/-- A DIRECTORY node. -/
def dirNode (path : String) (children : List ListResult) : ListResult :=
  ListResult.mk RefType.DIRECTORY path children

/-- A world whose answers ignore the history. -/
def constEnv (ld : ListDirResp) (rr : RepairRequiredResp) (dl up : TransferResp)
    (st : Option Bool) : Env where
  ListDir := fun _ _ => ld
  RepairRequired := fun _ _ => rr
  DownloadFile := fun _ _ _ => dl
  RepairFile := fun _ _ _ => up
  Stat := fun _ _ => st

/-- A request over `root` with a status callback, not cancelled, counter 0. -/
def freshRequest (root : ListResult) : RepairRequest where
  listDir := root
  isRepairCanceled := false
  localRootPath := "/mirror"
  statusCB := true
  completedCallback := false
  filesRepaired := 0

/-- The run state at the start of `processRepair`. -/
def startRun (r : RepairRequest) : Run :=
  { r := r, trace := [], status := Status.ok }

/-- Listing fetch that fails: nil listing, non-nil error. -/
def listDirFails : ListDirResp := { listing := none, err := true, cancel := false }

/-- Transfer that completes with the success flag set. -/
def transferOk : TransferResp := { err := false, success := true, cancel := false }

/-- Transfer whose call returns an error. -/
def transferErr : TransferResp := { err := true, success := false, cancel := false }

/-- Two files under the root directory. -/
def twoFiles : ListResult :=
  dirNode "/" [fileNode "/a.txt", fileNode "/b.txt"]

/-- A sub-directory whose children are not loaded, followed by a file. -/
def lazyDirThenFile : ListResult :=
  dirNode "/" [dirNode "/a" [], fileNode "/b.txt"]

/-- No file needs repair; cancellation is signalled during every
`RepairRequired` call. -/
def envCancelDuringCheck : Env :=
  constEnv listDirFails { required := false, err := false, cancel := true }
    transferOk transferOk none

/-- Every file needs repair and has no local copy; cancellation is signalled
during every `RepairRequired` call. -/
def envRequiredCancelDuringCheck : Env :=
  constEnv listDirFails { required := true, err := false, cancel := true }
    transferOk transferOk none

/-- Every listing fetch fails; no file needs repair; nobody cancels. -/
def envListDirFails : Env :=
  constEnv listDirFails { required := false, err := false, cancel := false }
    transferOk transferOk none

/-- Every file needs repair, has no local copy, and both transfers succeed;
nobody cancels. -/
def envAllRepaired : Env :=
  constEnv listDirFails { required := true, err := false, cancel := false }
    transferOk transferOk none

/-- Every file needs repair and has no local copy, the download call returns
an error; nobody cancels. -/
def envDownloadErr : Env :=
  constEnv listDirFails { required := true, err := false, cancel := false }
    transferErr transferOk none

/-- Every `RepairRequired` call returns an error; nobody cancels. -/
def envCheckErr : Env :=
  constEnv listDirFails { required := false, err := true, cancel := false }
    transferOk transferOk none

/-- Every file needs repair and has a local copy; cancellation is signalled
during every `RepairFile` call. -/
def envCancelDuringRepair : Env :=
  constEnv listDirFails { required := true, err := false, cancel := false }
    transferOk { err := false, success := true, cancel := true } (some false)

/-- A request that is already cancelled and has no status callback. -/
def cancelledNoCallback : RepairRequest :=
  { freshRequest twoFiles with isRepairCanceled := true, statusCB := false }

/-- A request that is already cancelled; both callbacks are set and three
files were repaired before. -/
def cancelledRequest : RepairRequest :=
  { freshRequest twoFiles with
      isRepairCanceled := true, completedCallback := true, filesRepaired := 3 }

/-- Every file needs repair and has a local copy; the repair succeeds;
nobody cancels. -/
def envLocalCopies : Env :=
  constEnv listDirFails { required := true, err := false, cancel := false }
    transferOk transferOk (some false)

/-- Every file needs repair and has no local copy; cancellation is signalled
during every `DownloadFile` call, which itself succeeds. -/
def envCancelDuringDownload : Env :=
  constEnv listDirFails { required := true, err := false, cancel := false }
    { err := false, success := true, cancel := true } transferOk none

/-- The state of `processRepair` after the walk and the final notification,
before the deferred callback, for a request that is not cancelled on entry. -/
def afterWalk (a : Env) (fuel : Nat) (r : RepairRequest) : Run :=
  if (iterateDir a fuel r.listDir (startRun r)).status = Status.ok then
    if (iterateDir a fuel r.listDir (startRun r)).r.statusCB = true then
      (iterateDir a fuel r.listDir (startRun r)).emit
        (Event.RepairCompleted (iterateDir a fuel r.listDir (startRun r)).r.filesRepaired)
    else iterateDir a fuel r.listDir (startRun r)
  else iterateDir a fuel r.listDir (startRun r)

/-- Every listing fetch returns a directory `/a` with the single file
`/a/x.txt`; no file needs repair; nobody cancels. -/
def envListsOneFile : Env :=
  constEnv { listing := some (dirNode "/a" [fileNode "/a/x.txt"]), err := false, cancel := false }
    { required := false, err := false, cancel := false } transferOk transferOk none

/-! ## The status wrapper `RepairStatusCB` -/

/-- The calls of the `StatusCallback` interface with their arguments.  A Go
`int` argument is an integer, an `error` argument is `none` for nil. -/
inductive StatusEvent where
  | CommitMetaCompleted (request response : String) (err : Option String)
  | Started (allocationId filePath : String) (op : Int) (totalBytes : Int)
  | InProgress (allocationId filePath : String) (op : Int) (completedBytes : Int)
  | RepairCompleted (filesRepaired : Int)
  | RepairCancelled
  | Completed (allocationId filePath filename mimetype : String) (size : Int) (op : Int)
  | Error (allocationID filePath : String) (op : Int) (err : Option String)
  deriving DecidableEq, Repr

/-- What a method of the wrapper does to the outside: a call on the wrapped
`statusCB` with the given arguments, or `cb.wg.Done()`. -/
inductive Effect where
  | forward (e : StatusEvent)
  | wgDone
  deriving DecidableEq, Repr

/-- The operation codes `OpDownload` and `OpCommit` the wrapper compares
with; they are declared outside repairworker.go and are parameters here. -/
structure OpCodes where
  OpDownload : Int
  OpCommit : Int

/-- The wrapper `RepairStatusCB`: `success`, `err`, and whether the wrapped
`statusCB` is non-nil.  Its `wg` always points to the wait group of the
`repairFile` call that built it (the only place that builds one). -/
structure RepairStatusCB where
  success : Bool
  err : Option String
  statusCB : Bool

/-- The outcome of one method call on the wrapper: its fields afterwards, what
it did to the outside in order, and whether it panicked. -/
structure Handled where
  cb : RepairStatusCB
  effects : List Effect
  panicked : Bool

/-- The call `cb.statusCB.X(args)`: a method call on a nil interface value
panics. -/
def RepairStatusCB.forward (cb : RepairStatusCB) (e : StatusEvent) : Handled :=
  if cb.statusCB then { cb := cb, effects := [Effect.forward e], panicked := false }
  else { cb := cb, effects := [], panicked := true }

/-- Source `CommitMetaCompleted` (lines 29-31). -/
def RepairStatusCB.CommitMetaCompleted (cb : RepairStatusCB) (request response : String)
    (err : Option String) : Handled :=
  cb.forward (StatusEvent.CommitMetaCompleted request response err)

/-- Source `Started` (lines 33-35). -/
def RepairStatusCB.Started (cb : RepairStatusCB) (allocationId filePath : String)
    (op totalBytes : Int) : Handled :=
  cb.forward (StatusEvent.Started allocationId filePath op totalBytes)

/-- Source `InProgress` (lines 37-39). -/
def RepairStatusCB.InProgress (cb : RepairStatusCB) (allocationId filePath : String)
    (op completedBytes : Int) : Handled :=
  cb.forward (StatusEvent.InProgress allocationId filePath op completedBytes)

/-- Source `RepairCompleted` of the wrapper (lines 41-43). -/
def RepairStatusCB.RepairCompleted (cb : RepairStatusCB) (filesRepaired : Int) : Handled :=
  cb.forward (StatusEvent.RepairCompleted filesRepaired)

/-- Source `RepairCancelled` (lines 45-47). -/
def RepairStatusCB.RepairCancelled (cb : RepairStatusCB) : Handled :=
  cb.forward StatusEvent.RepairCancelled

/-- Source `Completed` (lines 49-55): set `success`, forward, and for
`OpDownload` / `OpCommit` register the deferred `cb.wg.Done()`, which runs
when the method returns.  When the forwarding call panics the `defer`
statement is never reached. -/
def RepairStatusCB.Completed (ops : OpCodes) (cb : RepairStatusCB)
    (allocationId filePath filename mimetype : String) (size op : Int) : Handled :=
  let cb1 : RepairStatusCB := { cb with success := true }
  let h := cb1.forward (StatusEvent.Completed allocationId filePath filename mimetype size op)
  if h.panicked then h
  else if op = ops.OpDownload ∨ op = ops.OpCommit then
    { h with effects := h.effects ++ [Effect.wgDone] }
  else h

/-- Source `Error` (lines 57-62): clear `success`, store the error, forward,
then `cb.wg.Done()`. -/
def RepairStatusCB.Error (cb : RepairStatusCB) (allocationID filePath : String) (op : Int)
    (err : Option String) : Handled :=
  let cb1 : RepairStatusCB := { cb with success := false, err := err }
  let h := cb1.forward (StatusEvent.Error allocationID filePath op err)
  if h.panicked then h
  else { h with effects := h.effects ++ [Effect.wgDone] }

/-- Deliver one event to the wrapper: the method of that name with those
arguments. -/
def RepairStatusCB.deliver (ops : OpCodes) (cb : RepairStatusCB) : StatusEvent → Handled
  | .CommitMetaCompleted request response err => cb.CommitMetaCompleted request response err
  | .Started allocationId filePath op totalBytes => cb.Started allocationId filePath op totalBytes
  | .InProgress allocationId filePath op completedBytes =>
    cb.InProgress allocationId filePath op completedBytes
  | .RepairCompleted filesRepaired => cb.RepairCompleted filesRepaired
  | .RepairCancelled => cb.RepairCancelled
  | .Completed allocationId filePath filename mimetype size op =>
    cb.Completed ops allocationId filePath filename mimetype size op
  | .Error allocationID filePath op err => cb.Error allocationID filePath op err

/-- Deliver a sequence of events, one after the other.  The fields are the
ones each method left; an event after a panicking one reaches the wrapper only
if that panic was recovered by whoever delivers the events. -/
def RepairStatusCB.deliverAll (ops : OpCodes) (cb : RepairStatusCB)
    (events : List StatusEvent) : RepairStatusCB :=
  events.foldl (fun acc e => (acc.deliver ops e).cb) cb

/-- The wrapper `repairFile` builds (lines 125-128). -/
def newRepairStatusCB (r : RepairRequest) : RepairStatusCB :=
  { success := false, err := none, statusCB := r.statusCB }

/-- Operation codes used in the examples. -/
def sampleOps : OpCodes := { OpDownload := 1, OpCommit := 4 }

/-- A wrapper around a non-nil status callback. -/
def sampleWrapper : RepairStatusCB := { success := false, err := none, statusCB := true }

end Repair

/-!
# Diff engine (`GetAllocationDiff`)

The implementation of `GetAllocationDiff` (sync.go) is not among the sources,
only its test `sync_test.go` is; the definitions of this section follow the
specification, sections 3, 4.1 and 7.
-/

namespace Sync

/-- Modelled from the spec: the `Op` of a `FileDiff` (section 3); the type is
declared in sync.go, which is not among the sources. -/
inductive Op where
  | Upload
  | Download
  | Delete
  | Update
  | Conflict
  | Exception
  | None
  deriving DecidableEq, Repr

/-- Modelled from the spec: `FileDiff` is `{Path, Op}` (section 3); sync.go is
not among the sources. -/
structure FileDiff where
  Path : String
  Op : Op
  deriving DecidableEq, Repr

/-- Modelled from the spec: the two fatal errors of the diff (section 7);
sync.go is not among the sources. -/
inductive DiffError where
  | PathError
  | CacheFormatError
  deriving DecidableEq, Repr

/-- Modelled from the spec: what `snapshotPath` resolves to (section 4.1): a
directory, something that cannot be read, or a regular file with its
content. -/
inductive SnapshotPath where
  | directory
  | unreadable
  | regular (content : String)

/-- Modelled from the spec: what `localRoot` resolves to (section 4.1):
nothing, something that is not a directory, or a directory tree given as the
list of its paths with their content hashes. -/
inductive LocalRoot where
  | missing
  | notDirectory
  | directory (files : List (String × String))

/-- Modelled from the spec: the consensus remote state of one path (section
4.1): a hash that at least `DataShards` blobbers agree on, or a disagreement
beyond the fault tolerance. -/
inductive RemoteEntry where
  | agreed (hash : String)
  | disputed
  deriving DecidableEq, Repr

/-- Modelled from the spec: "changed since C" in the categorization table of
section 4.1; a path that is not in the cache counts as changed. -/
def changedSince (c : Option String) (h : String) : Bool :=
  match c with
  | none => true
  | some hC => h ≠ hC

/-- Modelled from the spec: the categorization table of `GetAllocationDiff`
(section 4.1), rows taken in the order given there; `l`, `r`, `c` are the
local, remote and cached state of one path, `none` for absent.  A path whose
remote state is disputed is an `Exception`.  The function is part of sync.go,
which is not among the sources. -/
def categorize (l : Option String) (r : Option RemoteEntry) (c : Option String) : Op :=
  match l, r, c with
  | _, some RemoteEntry.disputed, _ => Op.Exception
  | some _, none, none => Op.Upload
  | none, some (RemoteEntry.agreed _), none => Op.Download
  | none, some (RemoteEntry.agreed hR), some hC => if hR = hC then Op.Delete else Op.None
  | some hL, some (RemoteEntry.agreed hR), c =>
    if c.isSome ∧ changedSince c hL ∧ ¬ changedSince c hR then Op.Update
    else if c.isSome ∧ changedSince c hR ∧ ¬ changedSince c hL then Op.Download
    else if hL ≠ hR ∧ changedSince c hL ∧ changedSince c hR then Op.Conflict
    else Op.None
  | some _, none, some _ => Op.Exception
  | none, none, _ => Op.None

/-- Modelled from the spec: the entry emitted for one path; `None` is absent
from the emitted list (section 4.1). -/
def entryFor (cache : List (String × String)) (localMap : List (String × String))
    (remoteMap : List (String × RemoteEntry)) (path : String) : Option FileDiff :=
  match categorize (localMap.lookup path) (remoteMap.lookup path) (cache.lookup path) with
  | Op.None => none
  | op => some { Path := path, Op := op }

/-- Modelled from the spec: every path of the union of the three maps, once,
in lexicographic order (section 4.1, "Result ordering"). -/
def allPaths (cache : List (String × String)) (localMap : List (String × String))
    (remoteMap : List (String × RemoteEntry)) : List String :=
  ((cache.map Prod.fst ++ localMap.map Prod.fst ++ remoteMap.map Prod.fst).dedup).mergeSort
    (fun p q => decide (p ≤ q))

/-- Modelled from the spec: `GetAllocationDiff` (section 4.1); its
implementation, sync.go, is not among the sources.  `parse` reads the snapshot
format, `keepLocal` says which local paths survive `localFilters`,
`keepRemote` which remote paths are outside `remoteExcludes`; `remote` is the
consensus remote tree.  Fatal errors on the fixed inputs are returned with no
list (section 7). -/
def GetAllocationDiff (parse : String → Option (List (String × String)))
    (keepLocal keepRemote : String → Bool)
    (snapshotPath : SnapshotPath) (localRoot : LocalRoot)
    (remote : List (String × RemoteEntry)) : Except DiffError (List FileDiff) :=
  match snapshotPath with
  | SnapshotPath.directory => Except.error DiffError.CacheFormatError
  | SnapshotPath.unreadable => Except.error DiffError.CacheFormatError
  | SnapshotPath.regular content =>
    match parse content with
    | none => Except.error DiffError.CacheFormatError
    | some cache =>
      match localRoot with
      | LocalRoot.missing => Except.error DiffError.PathError
      | LocalRoot.notDirectory => Except.error DiffError.PathError
      | LocalRoot.directory files =>
        Except.ok ((allPaths cache (files.filter (fun e => keepLocal e.1))
            (remote.filter (fun e => keepRemote e.1))).filterMap
          (entryFor cache (files.filter (fun e => keepLocal e.1))
            (remote.filter (fun e => keepRemote e.1))))

/-- A toy snapshot format for the examples: the content `ok` is a cache in
which `/1.txt` has hash `H` and `/3.txt` has hash `H3`; anything else is
malformed. -/
def sampleParse (content : String) : Option (List (String × String)) :=
  if content = "ok" then some [("/1.txt", "H"), ("/3.txt", "H3")] else none

/-- Local tree of the scenario of section 8: `/1.txt` unchanged, `/3.txt`
modified. -/
def sampleLocal : LocalRoot :=
  LocalRoot.directory [("/1.txt", "H"), ("/3.txt", "H3x")]

/-- Remote tree of the scenario of section 8: both files as cached. -/
def sampleRemote : List (String × RemoteEntry) :=
  [("/1.txt", RemoteEntry.agreed "H"), ("/3.txt", RemoteEntry.agreed "H3")]

end Sync

/-!
# Collaborator fan-out

The implementation (`collaboratorworker.go`) is not among the sources, only
its test is; the definitions of this section follow the specification,
section 4.5.
-/

namespace Collaborator

/-- Modelled from the spec: the aggregate of a fan-out (section 4.5);
collaboratorworker.go is not among the sources.  One independent call is
launched for every blobber of the allocation; each reports success or failure
on the response channel; `arrival` is the order in which the calls report,
and `call` is the outcome of the per-blobber call.  The reference policy
requires every report to be a success. -/
def aggregate (call : String → Bool) (arrival : List String) : Bool :=
  (arrival.map call).all (fun ok => ok)

/-- Modelled from the spec: `UpdateCollaboratorToBlobbers` (section 4.5);
collaboratorworker.go is not among the sources.
`updateCollaboratorToBlobber` is the per-blobber call. -/
def UpdateCollaboratorToBlobbers (updateCollaboratorToBlobber : String → Bool)
    (arrival : List String) : Bool :=
  aggregate updateCollaboratorToBlobber arrival

/-- Modelled from the spec: `RemoveCollaboratorFromBlobbers`, the Remove
counterpart (section 4.5); collaboratorworker.go is not among the sources.
`removeCollaboratorFromBlobber` is the per-blobber call. -/
def RemoveCollaboratorFromBlobbers (removeCollaboratorFromBlobber : String → Bool)
    (arrival : List String) : Bool :=
  aggregate removeCollaboratorFromBlobber arrival

/-- The four blobbers of the scenario of section 8. -/
def fourBlobbers : List String := ["b1", "b2", "b3", "b4"]

/-- The per-blobber call of the scenario of section 8: the endpoint of `b3`
is not configured and answers 500. -/
def oneUnconfigured (blobber : String) : Bool :=
  blobber ≠ "b3"

end Collaborator

namespace Repair

/-- A request without a status callback, not cancelled. -/
def requestNoCallback : RepairRequest :=
  { freshRequest twoFiles with statusCB := false }

/-- Every file needs repair and a directory occupies its local mirror path;
both transfers succeed; nobody cancels. -/
def envDirectoryAtMirror : Env :=
  constEnv listDirFails { required := true, err := false, cancel := false }
    transferOk transferOk (some true)

/-- Every file needs repair and a directory occupies its local mirror path;
cancellation is signalled during every `RepairRequired` call. -/
def envDirectoryAtMirrorCancelled : Env :=
  constEnv listDirFails { required := true, err := false, cancel := true }
    transferOk transferOk (some true)

/-- A node whose type is neither FILE nor DIRECTORY. -/
def oddNode : ListResult :=
  ListResult.mk (RefType.other "x") "/odd" []

/-- An odd node followed by a file. -/
def oddNodeThenFile : ListResult :=
  dirNode "/" [oddNode, fileNode "/b.txt"]

/-- A request over two files with both callbacks set, not cancelled. -/
def requestWithCompletion : RepairRequest :=
  { freshRequest twoFiles with completedCallback := true }

/-- A request over a tree with a directory whose children are not loaded,
with both callbacks set, not cancelled. -/
def lazyRequestWithCompletion : RepairRequest :=
  { freshRequest lazyDirThenFile with completedCallback := true }

/-- Visiting the children `cs` one after the other, in listing order, each
from the run the previous visit left. -/
def visitInOrder (visit : ListResult → Run → Run) (cs : List ListResult) (s : Run) : Run :=
  cs.foldl (fun acc c => visit c acc) s

/-- The run `result` is what walking over `children` from `s` gives.  The
children are visited in listing order, each from the run the previous visit
left; every child that is visited is reached with the cancellation flag down
and, but for the first one, after a visit that ended normally.  Either all
children are visited, or the walk stops early: after a visit that did not end
normally, or before the next child because the cancellation flag is up, and
then after the cancel check has done its notification. -/
def WalkedOver (visit : ListResult → Run → Run) (children : List ListResult)
    (s result : Run) : Prop :=
  ∃ visited remaining, children = visited ++ remaining ∧
    (∀ before c after, visited = before ++ c :: after →
      (visitInOrder visit before s).r.isRepairCanceled = false ∧
      (before ≠ [] → (visitInOrder visit before s).status = Status.ok)) ∧
    ((remaining = [] ∧ result = visitInOrder visit visited s) ∨
     (remaining ≠ [] ∧ visited ≠ [] ∧
        (visitInOrder visit visited s).status ≠ Status.ok ∧
        result = visitInOrder visit visited s) ∨
     (remaining ≠ [] ∧ (visited ≠ [] → (visitInOrder visit visited s).status = Status.ok) ∧
        (visitInOrder visit visited s).r.isRepairCanceled = true ∧
        result = (checkForCancel (visitInOrder visit visited s)).2))

/-! ## Basic facts about the building blocks -/

@[simp]
theorem emit_trace (s : Run) (e : Event) : (s.emit e).trace = s.trace ++ [e] := rfl
@[simp]
theorem emit_r (s : Run) (e : Event) : (s.emit e).r = s.r := rfl
@[simp]
theorem emit_status (s : Run) (e : Event) : (s.emit e).status = s.status := rfl

@[simp]
theorem call_trace (s : Run) (e : Event) (c : Bool) :
    (s.call e c).trace = s.trace ++ e :: (if c then [Event.cancelSignalled] else []) := by
  cases c <;> simp [Run.call]
@[simp]
theorem call_status (s : Run) (e : Event) (c : Bool) : (s.call e c).status = s.status := by
  cases c <;> rfl
@[simp]
theorem call_flag (s : Run) (e : Event) (c : Bool) :
    (s.call e c).r.isRepairCanceled = (c || s.r.isRepairCanceled) := by
  cases c <;> simp [Run.call]
@[simp]
theorem call_filesRepaired (s : Run) (e : Event) (c : Bool) :
    (s.call e c).r.filesRepaired = s.r.filesRepaired := by
  cases c <;> rfl
@[simp]
theorem call_statusCB (s : Run) (e : Event) (c : Bool) :
    (s.call e c).r.statusCB = s.r.statusCB := by
  cases c <;> rfl
@[simp]
theorem call_localRootPath (s : Run) (e : Event) (c : Bool) :
    (s.call e c).r.localRootPath = s.r.localRootPath := by
  cases c <;> rfl

@[simp]
theorem halt_trace (s : Run) : s.halt.trace = s.trace := rfl
@[simp]
theorem halt_r (s : Run) : s.halt.r = s.r := rfl
@[simp]
theorem halt_status (s : Run) : s.halt.status = Status.halted := rfl

@[simp]
theorem countRepaired_trace (s : Run) : s.countRepaired.trace = s.trace := rfl
@[simp]
theorem countRepaired_status (s : Run) : s.countRepaired.status = s.status := rfl
@[simp]
theorem countRepaired_flag (s : Run) :
    s.countRepaired.r.isRepairCanceled = s.r.isRepairCanceled := rfl
@[simp]
theorem countRepaired_filesRepaired (s : Run) :
    s.countRepaired.r.filesRepaired = s.r.filesRepaired + 1 := rfl
@[simp]
theorem countRepaired_statusCB (s : Run) : s.countRepaired.r.statusCB = s.r.statusCB := rfl

theorem checkForCancel_fst (s : Run) : (checkForCancel s).1 = s.r.isRepairCanceled := by
  unfold checkForCancel; split_ifs <;> simp_all
theorem checkForCancel_running (s : Run) (h : s.r.isRepairCanceled = false) :
    checkForCancel s = (false, s) := by
  simp [checkForCancel, h]
theorem checkForCancel_cancelled (s : Run) (h : s.r.isRepairCanceled = true) :
    checkForCancel s = (true, (checkForCancel s).2) := by
  unfold checkForCancel; split_ifs <;> simp_all
@[simp]
theorem checkForCancel_r (s : Run) : (checkForCancel s).2.r = s.r := by
  unfold checkForCancel; split_ifs <;> rfl
@[simp]
theorem checkForCancel_status (s : Run) : (checkForCancel s).2.status = s.status := by
  unfold checkForCancel; split_ifs <;> rfl
theorem checkForCancel_trace (s : Run) :
    (checkForCancel s).2.trace = s.trace ++
      (if s.r.isRepairCanceled ∧ s.r.statusCB then [Event.RepairCompleted s.r.filesRepaired] else []) := by
  unfold checkForCancel; split_ifs <;> simp_all

/-- Case analysis of `repairFileUpload`: it ends at the cancel check, after a
`RepairFile` call that failed, after the increment, or in the wait that a nil
status callback never releases. -/
theorem repairFileUpload_cases (a : Env) (file : ListResult) (lp : String) (s : Run)
    (P : Run → Prop)
    (hcancel : s.r.isRepairCanceled = true → P (checkForCancel s).2)
    (hfail : s.r.isRepairCanceled = false →
      ((a.RepairFile s.trace lp file.Path).err = true ∨
        (a.RepairFile s.trace lp file.Path).success = false) →
      P (afterRepairFile a file lp s))
    (hdone : s.r.isRepairCanceled = false →
      (a.RepairFile s.trace lp file.Path).err = false →
      (a.RepairFile s.trace lp file.Path).success = true →
      s.r.statusCB = true →
      P (afterRepairFile a file lp s).countRepaired)
    (hhalt : s.r.isRepairCanceled = false →
      (a.RepairFile s.trace lp file.Path).err = false →
      s.r.statusCB = false →
      P (afterRepairFile a file lp s).halt) :
    P (repairFileUpload a file lp s) := by
  unfold repairFileUpload
  cases hf : s.r.isRepairCanceled
  · rw [checkForCancel_running s hf]
    simp only
    cases he : (a.RepairFile s.trace lp file.Path).err
    · cases hcb : s.r.statusCB
      · simpa [afterRepairFile, he, hcb] using hhalt hf he hcb
      · cases hs : (a.RepairFile s.trace lp file.Path).success
        · simpa [afterRepairFile, he, hs, hcb] using hfail hf (Or.inr hs)
        · simpa [afterRepairFile, he, hs, hcb, Run.countRepaired] using hdone hf he hs hcb
    · simpa [afterRepairFile, he] using hfail hf (Or.inl he)
  · rw [checkForCancel_cancelled s hf]
    exact hcancel hf

/-- Case analysis of `repairFile`: it ends in one of seven ways. -/
theorem repairFile_cases (a : Env) (file : ListResult) (s : Run) (P : Run → Prop)
    (hcancel : s.r.isRepairCanceled = true → P (checkForCancel s).2)
    (hskip : s.r.isRepairCanceled = false →
      ((a.RepairRequired s.trace file.Path).err = true ∨
        (a.RepairRequired s.trace file.Path).required = false) →
      P (afterRepairRequired a file s))
    (hcancel2 : s.r.isRepairCanceled = false →
      (a.RepairRequired s.trace file.Path).err = false →
      (a.RepairRequired s.trace file.Path).required = true →
      checkFileExists (a.Stat (afterRepairRequired a file s).trace (getLocalPath s.r file)) = false →
      (afterRepairRequired a file s).r.isRepairCanceled = true →
      P (checkForCancel (afterRepairRequired a file s)).2)
    (hdlfail : s.r.isRepairCanceled = false →
      (a.RepairRequired s.trace file.Path).err = false →
      (a.RepairRequired s.trace file.Path).required = true →
      checkFileExists (a.Stat (afterRepairRequired a file s).trace (getLocalPath s.r file)) = false →
      (afterRepairRequired a file s).r.isRepairCanceled = false →
      ((a.DownloadFile (afterRepairRequired a file s).trace (getLocalPath s.r file) file.Path).err = true ∨
       (a.DownloadFile (afterRepairRequired a file s).trace (getLocalPath s.r file) file.Path).success = false) →
      P (afterDownloadFile a file (getLocalPath s.r file) (afterRepairRequired a file s)))
    (hdl : s.r.isRepairCanceled = false →
      (a.RepairRequired s.trace file.Path).err = false →
      (a.RepairRequired s.trace file.Path).required = true →
      checkFileExists (a.Stat (afterRepairRequired a file s).trace (getLocalPath s.r file)) = false →
      (afterRepairRequired a file s).r.isRepairCanceled = false →
      (a.DownloadFile (afterRepairRequired a file s).trace (getLocalPath s.r file) file.Path).err = false →
      (a.DownloadFile (afterRepairRequired a file s).trace (getLocalPath s.r file) file.Path).success = true →
      s.r.statusCB = true →
      P (repairFileUpload a file (getLocalPath s.r file)
          (afterDownloadFile a file (getLocalPath s.r file) (afterRepairRequired a file s))))
    (hlocal : s.r.isRepairCanceled = false →
      (a.RepairRequired s.trace file.Path).err = false →
      (a.RepairRequired s.trace file.Path).required = true →
      checkFileExists (a.Stat (afterRepairRequired a file s).trace (getLocalPath s.r file)) = true →
      P (repairFileUpload a file (getLocalPath s.r file) (afterRepairRequired a file s)))
    (hdlhalt : s.r.isRepairCanceled = false →
      (a.RepairRequired s.trace file.Path).err = false →
      (a.RepairRequired s.trace file.Path).required = true →
      checkFileExists (a.Stat (afterRepairRequired a file s).trace (getLocalPath s.r file)) = false →
      (afterRepairRequired a file s).r.isRepairCanceled = false →
      (a.DownloadFile (afterRepairRequired a file s).trace (getLocalPath s.r file) file.Path).err = false →
      s.r.statusCB = false →
      P (afterDownloadFile a file (getLocalPath s.r file) (afterRepairRequired a file s)).halt) :
    P (repairFile a file s) := by
  have hlp : getLocalPath (afterRepairRequired a file s).r file = getLocalPath s.r file := by
    simp [getLocalPath, afterRepairRequired]
  unfold repairFile
  cases hf : s.r.isRepairCanceled
  · rw [checkForCancel_running s hf]
    simp only
    change P (if (a.RepairRequired s.trace file.Path).err = true then afterRepairRequired a file s
      else if (a.RepairRequired s.trace file.Path).required = true then
        if (!checkFileExists (a.Stat (afterRepairRequired a file s).trace
              (getLocalPath (afterRepairRequired a file s).r file))) = true then
          match checkForCancel (afterRepairRequired a file s) with
          | (true, s3) => s3
          | (false, s3) =>
            if (a.DownloadFile s3.trace (getLocalPath (afterRepairRequired a file s).r file) file.Path).err = true
            then afterDownloadFile a file (getLocalPath (afterRepairRequired a file s).r file) s3
            else if (!(afterDownloadFile a file (getLocalPath (afterRepairRequired a file s).r file) s3).r.statusCB) = true
            then (afterDownloadFile a file (getLocalPath (afterRepairRequired a file s).r file) s3).halt
            else if (!(a.DownloadFile s3.trace (getLocalPath (afterRepairRequired a file s).r file) file.Path).success) = true
            then afterDownloadFile a file (getLocalPath (afterRepairRequired a file s).r file) s3
            else repairFileUpload a file (getLocalPath (afterRepairRequired a file s).r file)
              (afterDownloadFile a file (getLocalPath (afterRepairRequired a file s).r file) s3)
        else repairFileUpload a file (getLocalPath (afterRepairRequired a file s).r file)
          (afterRepairRequired a file s)
      else afterRepairRequired a file s)
    rw [hlp]
    cases he : (a.RepairRequired s.trace file.Path).err
    · cases hr : (a.RepairRequired s.trace file.Path).required
      · simpa using hskip hf (Or.inr hr)
      · cases hx : checkFileExists (a.Stat (afterRepairRequired a file s).trace (getLocalPath s.r file))
        · cases hf2 : (afterRepairRequired a file s).r.isRepairCanceled
          · rw [checkForCancel_running _ hf2]
            have hcbeq : (afterDownloadFile a file (getLocalPath s.r file)
                (afterRepairRequired a file s)).r.statusCB = s.r.statusCB := by
              simp [afterDownloadFile, afterRepairRequired]
            cases hde : (a.DownloadFile (afterRepairRequired a file s).trace (getLocalPath s.r file) file.Path).err
            · cases hcb : s.r.statusCB
              · simpa [hde, hcb, hcbeq] using hdlhalt hf he hr hx hf2 hde hcb
              · cases hds : (a.DownloadFile (afterRepairRequired a file s).trace (getLocalPath s.r file) file.Path).success
                · simpa [hde, hds, hcb, hcbeq] using hdlfail hf he hr hx hf2 (Or.inr hds)
                · simpa [hde, hds, hcb, hcbeq] using hdl hf he hr hx hf2 hde hds hcb
            · simpa [hde] using hdlfail hf he hr hx hf2 (Or.inl hde)
          · rw [checkForCancel_cancelled _ hf2]
            simpa using hcancel2 hf he hr hx hf2
        · simpa using hlocal hf he hr hx
    · simpa using hskip hf (Or.inl he)
  · rw [checkForCancel_cancelled s hf]
    exact hcancel hf

theorem afterRepairRequired_trace (a : Env) (file : ListResult) (s : Run) :
    (afterRepairRequired a file s).trace = s.trace ++
      (Event.RepairRequired file.Path (a.RepairRequired s.trace file.Path).required
          (a.RepairRequired s.trace file.Path).err ::
        (if (a.RepairRequired s.trace file.Path).cancel then [Event.cancelSignalled] else [])) := by
  simp [afterRepairRequired]

theorem afterDownloadFile_trace (a : Env) (file : ListResult) (lp : String) (s : Run) :
    (afterDownloadFile a file lp s).trace = s.trace ++
      (Event.DownloadFile lp file.Path (a.DownloadFile s.trace lp file.Path).err
          (a.DownloadFile s.trace lp file.Path).success ::
        (if (a.DownloadFile s.trace lp file.Path).cancel then [Event.cancelSignalled] else [])) := by
  simp [afterDownloadFile]

theorem afterRepairFile_trace (a : Env) (file : ListResult) (lp : String) (s : Run) :
    (afterRepairFile a file lp s).trace = s.trace ++
      (Event.RepairFile lp file.Path (a.RepairFile s.trace lp file.Path).err
          (a.RepairFile s.trace lp file.Path).success ::
        (if (a.RepairFile s.trace lp file.Path).cancel then [Event.cancelSignalled] else [])) := by
  simp [afterRepairFile]

@[simp]
theorem afterRepairRequired_filesRepaired (a : Env) (file : ListResult) (s : Run) :
    (afterRepairRequired a file s).r.filesRepaired = s.r.filesRepaired := by
  simp [afterRepairRequired]

@[simp]
theorem afterDownloadFile_filesRepaired (a : Env) (file : ListResult) (lp : String) (s : Run) :
    (afterDownloadFile a file lp s).r.filesRepaired = s.r.filesRepaired := by
  simp [afterDownloadFile]

@[simp]
theorem afterRepairFile_filesRepaired (a : Env) (file : ListResult) (lp : String) (s : Run) :
    (afterRepairFile a file lp s).r.filesRepaired = s.r.filesRepaired := by
  simp [afterRepairFile]

@[simp]
theorem afterRepairRequired_status (a : Env) (file : ListResult) (s : Run) :
    (afterRepairRequired a file s).status = s.status := by
  simp [afterRepairRequired]

@[simp]
theorem afterDownloadFile_status (a : Env) (file : ListResult) (lp : String) (s : Run) :
    (afterDownloadFile a file lp s).status = s.status := by
  simp [afterDownloadFile]

@[simp]
theorem afterRepairFile_status (a : Env) (file : ListResult) (lp : String) (s : Run) :
    (afterRepairFile a file lp s).status = s.status := by
  simp [afterRepairFile]

@[simp]
theorem afterRepairRequired_statusCB (a : Env) (file : ListResult) (s : Run) :
    (afterRepairRequired a file s).r.statusCB = s.r.statusCB := by
  simp [afterRepairRequired]

@[simp]
theorem afterDownloadFile_statusCB (a : Env) (file : ListResult) (lp : String) (s : Run) :
    (afterDownloadFile a file lp s).r.statusCB = s.r.statusCB := by
  simp [afterDownloadFile]

@[simp]
theorem afterRepairFile_statusCB (a : Env) (file : ListResult) (lp : String) (s : Run) :
    (afterRepairFile a file lp s).r.statusCB = s.r.statusCB := by
  simp [afterRepairFile]

@[simp]
theorem afterRepairRequired_flag (a : Env) (file : ListResult) (s : Run) :
    (afterRepairRequired a file s).r.isRepairCanceled =
      ((a.RepairRequired s.trace file.Path).cancel || s.r.isRepairCanceled) := by
  simp [afterRepairRequired]

@[simp]
theorem afterDownloadFile_flag (a : Env) (file : ListResult) (lp : String) (s : Run) :
    (afterDownloadFile a file lp s).r.isRepairCanceled =
      ((a.DownloadFile s.trace lp file.Path).cancel || s.r.isRepairCanceled) := by
  simp [afterDownloadFile]

@[simp]
theorem afterRepairFile_flag (a : Env) (file : ListResult) (lp : String) (s : Run) :
    (afterRepairFile a file lp s).r.isRepairCanceled =
      ((a.RepairFile s.trace lp file.Path).cancel || s.r.isRepairCanceled) := by
  simp [afterRepairFile]

/-- What `repairFileUpload` appends and how it moves the counter. -/
theorem repairFileUpload_summary (a : Env) (file : ListResult) (lp : String) (s : Run) :
    ∃ t, (repairFileUpload a file lp s).trace = s.trace ++ t ∧
      (∀ e ∈ t, e.isDownloadFile = false) ∧
      (((repairFileUpload a file lp s).r.filesRepaired = s.r.filesRepaired ∧
          (s.r.statusCB = true → ∀ e ∈ t, e.isRepaired = false)) ∨
        ((repairFileUpload a file lp s).r.filesRepaired = s.r.filesRepaired + 1 ∧
          Event.RepairFile lp file.Path false true ∈ t ∧ s.r.statusCB = true)) := by
  refine repairFileUpload_cases a file lp s
    (fun s' => ∃ t, s'.trace = s.trace ++ t ∧ (∀ e ∈ t, e.isDownloadFile = false) ∧
      ((s'.r.filesRepaired = s.r.filesRepaired ∧
          (s.r.statusCB = true → ∀ e ∈ t, e.isRepaired = false)) ∨
        (s'.r.filesRepaired = s.r.filesRepaired + 1 ∧
          Event.RepairFile lp file.Path false true ∈ t ∧ s.r.statusCB = true))) ?_ ?_ ?_ ?_
  · intro _
    refine ⟨_, checkForCancel_trace s, ?_, Or.inl ⟨by simp, fun _ => ?_⟩⟩ <;>
    · split_ifs <;> simp [Event.isDownloadFile, Event.isRepaired]
  · intro _ hfail
    refine ⟨_, afterRepairFile_trace a file lp s, ?_, Or.inl ⟨by simp, fun _ => ?_⟩⟩
    · cases hc : (a.RepairFile s.trace lp file.Path).cancel <;> simp [Event.isDownloadFile]
    · cases hc : (a.RepairFile s.trace lp file.Path).cancel <;>
        rcases hfail with h | h <;> simp [h, Event.isRepaired]
  · intro _ he hs hcb
    refine ⟨_, afterRepairFile_trace a file lp s, ?_, Or.inr ⟨by simp, ?_, hcb⟩⟩
    · cases hc : (a.RepairFile s.trace lp file.Path).cancel <;> simp [Event.isDownloadFile]
    · simp [he, hs]
  · intro _ _ hcb
    refine ⟨_, afterRepairFile_trace a file lp s, ?_, Or.inl ⟨by simp, fun h => ?_⟩⟩
    · cases hc : (a.RepairFile s.trace lp file.Path).cancel <;> simp [Event.isDownloadFile]
    · rw [hcb] at h; exact Bool.noConfusion h

/-- Two consecutive extensions of the trace make one. -/
theorem trace_append_trans {s0 s1 s2 : List Event} {t1 t2 : List Event}
    (h1 : s1 = s0 ++ t1) (h2 : s2 = s1 ++ t2) : s2 = s0 ++ (t1 ++ t2) := by
  rw [h2, h1, List.append_assoc]

/-- C4. For every call of `repairFile` the counter `filesRepaired` either
stays as it was or is exactly one greater.  It is one greater only if the
appended events contain the `RepairFile` call for this file (local mirror
path, remote path) with no error and the success flag set, and the status
callback is non-nil, so that the wait could return.  When the counter stays as
it was and the status callback is non-nil, the call appended no `RepairFile`
call that returned no error with the success flag set.  In particular a
successful download alone never increments the counter. -/
theorem repairFile_filesRepaired_step (a : Env) (file : ListResult) (s : Run) :
    ∃ t, (repairFile a file s).trace = s.trace ++ t ∧
      (((repairFile a file s).r.filesRepaired = s.r.filesRepaired ∧
          (s.r.statusCB = true → ∀ e ∈ t, e.isRepaired = false)) ∨
        ((repairFile a file s).r.filesRepaired = s.r.filesRepaired + 1 ∧
          Event.RepairFile (getLocalPath s.r file) file.Path false true ∈ t ∧
          s.r.statusCB = true)) := by
  refine repairFile_cases a file s
    (fun s' => ∃ t, s'.trace = s.trace ++ t ∧
      ((s'.r.filesRepaired = s.r.filesRepaired ∧
          (s.r.statusCB = true → ∀ e ∈ t, e.isRepaired = false)) ∨
        (s'.r.filesRepaired = s.r.filesRepaired + 1 ∧
          Event.RepairFile (getLocalPath s.r file) file.Path false true ∈ t ∧
          s.r.statusCB = true))) ?_ ?_ ?_ ?_ ?_ ?_ ?_
  · intro _
    refine ⟨_, checkForCancel_trace s, Or.inl ⟨by simp, fun _ => ?_⟩⟩
    split_ifs <;> simp [Event.isRepaired]
  · intro _ _
    refine ⟨_, afterRepairRequired_trace a file s, Or.inl ⟨by simp, fun _ => ?_⟩⟩
    cases (a.RepairRequired s.trace file.Path).cancel <;> simp [Event.isRepaired]
  · intro _ _ _ _ _
    refine ⟨_, trace_append_trans (afterRepairRequired_trace a file s) (checkForCancel_trace _),
      Or.inl ⟨by simp, fun _ => ?_⟩⟩
    cases (a.RepairRequired s.trace file.Path).cancel <;> split_ifs <;> simp [Event.isRepaired]
  · intro _ _ _ _ _ _
    refine ⟨_, trace_append_trans (afterRepairRequired_trace a file s)
      (afterDownloadFile_trace a file _ _), Or.inl ⟨by simp, fun _ => ?_⟩⟩
    cases (a.RepairRequired s.trace file.Path).cancel <;>
      cases (a.DownloadFile (afterRepairRequired a file s).trace (getLocalPath s.r file)
        file.Path).cancel <;> simp [Event.isRepaired]
  · intro _ _ _ _ _ _ _ _
    obtain ⟨t, ht, -, hcount⟩ := repairFileUpload_summary a file (getLocalPath s.r file)
      (afterDownloadFile a file (getLocalPath s.r file) (afterRepairRequired a file s))
    refine ⟨_, trace_append_trans (trace_append_trans (afterRepairRequired_trace a file s)
      (afterDownloadFile_trace a file _ _)) ht, ?_⟩
    rcases hcount with ⟨h1, h2⟩ | ⟨h1, h2, h3⟩
    · left
      refine ⟨by simpa using h1, fun hcb => ?_⟩
      have h2 := h2 (by simpa using hcb)
      cases (a.RepairRequired s.trace file.Path).cancel <;>
        cases (a.DownloadFile (afterRepairRequired a file s).trace (getLocalPath s.r file)
          file.Path).cancel <;> simpa [Event.isRepaired] using h2
    · right
      exact ⟨by simpa using h1, by simp [h2], by simpa using h3⟩
  · intro _ _ _ _
    obtain ⟨t, ht, -, hcount⟩ := repairFileUpload_summary a file (getLocalPath s.r file)
      (afterRepairRequired a file s)
    refine ⟨_, trace_append_trans (afterRepairRequired_trace a file s) ht, ?_⟩
    rcases hcount with ⟨h1, h2⟩ | ⟨h1, h2, h3⟩
    · left
      refine ⟨by simpa using h1, fun hcb => ?_⟩
      have h2 := h2 (by simpa using hcb)
      cases (a.RepairRequired s.trace file.Path).cancel <;> simpa [Event.isRepaired] using h2
    · right
      exact ⟨by simpa using h1, by simp [h2], by simpa using h3⟩
  · intro _ _ _ _ _ _ hcb
    refine ⟨_, trace_append_trans (afterRepairRequired_trace a file s)
      (afterDownloadFile_trace a file _ _), Or.inl ⟨by simp, fun h => ?_⟩⟩
    rw [hcb] at h; exact Bool.noConfusion h

/-- C9. If `RepairRequired` returns an error for the file, or reports that
repair is not required, `repairFile` issues no `DownloadFile` and no
`RepairFile` call and leaves `filesRepaired` unchanged. -/
theorem repairFile_not_required (a : Env) (file : ListResult) (s : Run)
    (h : (a.RepairRequired s.trace file.Path).err = true ∨
      (a.RepairRequired s.trace file.Path).required = false) :
    ∃ t, (repairFile a file s).trace = s.trace ++ t ∧
      (∀ e ∈ t, e.isDownloadFile = false ∧ e.isRepairFile = false) ∧
      (repairFile a file s).r.filesRepaired = s.r.filesRepaired := by
  have hcontra : (a.RepairRequired s.trace file.Path).err = false →
      (a.RepairRequired s.trace file.Path).required = true → False := by
    intro h1 h2
    rcases h with h | h
    · rw [h1] at h; exact Bool.noConfusion h
    · rw [h2] at h; exact Bool.noConfusion h
  refine repairFile_cases a file s
    (fun s' => ∃ t, s'.trace = s.trace ++ t ∧
      (∀ e ∈ t, e.isDownloadFile = false ∧ e.isRepairFile = false) ∧
      s'.r.filesRepaired = s.r.filesRepaired) ?_ ?_ ?_ ?_ ?_ ?_ ?_
  · intro _
    refine ⟨_, checkForCancel_trace s, ?_, by simp⟩
    split_ifs <;> simp [Event.isDownloadFile, Event.isRepairFile]
  · intro _ _
    refine ⟨_, afterRepairRequired_trace a file s, ?_, by simp⟩
    cases (a.RepairRequired s.trace file.Path).cancel <;>
      simp [Event.isDownloadFile, Event.isRepairFile]
  · intro _ h1 h2
    exact (hcontra h1 h2).elim
  · intro _ h1 h2
    exact (hcontra h1 h2).elim
  · intro _ h1 h2
    exact (hcontra h1 h2).elim
  · intro _ h1 h2
    exact (hcontra h1 h2).elim
  · intro _ h1 h2
    exact (hcontra h1 h2).elim

/-- Witness for C9: a file whose `RepairRequired` call returns an error. -/
theorem repairFile_not_required_witness :
    ((envCheckErr.RepairRequired (startRun (freshRequest twoFiles)).trace
          (fileNode "/a.txt").Path).err = true ∨
      (envCheckErr.RepairRequired (startRun (freshRequest twoFiles)).trace
          (fileNode "/a.txt").Path).required = false) ∧
    ∃ t, (repairFile envCheckErr (fileNode "/a.txt") (startRun (freshRequest twoFiles))).trace
        = (startRun (freshRequest twoFiles)).trace ++ t ∧
      (∀ e ∈ t, e.isDownloadFile = false ∧ e.isRepairFile = false) ∧
      (repairFile envCheckErr (fileNode "/a.txt") (startRun (freshRequest twoFiles))).r.filesRepaired
        = (startRun (freshRequest twoFiles)).r.filesRepaired :=
  ⟨Or.inl rfl, repairFile_not_required envCheckErr (fileNode "/a.txt")
    (startRun (freshRequest twoFiles)) (Or.inl rfl)⟩

/-- C10, as stated, fails: repair is required and there is no local copy, but
cancellation was signalled while `RepairRequired` was in flight, so the cancel
check before the download returns and no `DownloadFile` call is issued. -/
theorem repairFile_download_skipped_when_cancelled :
    (envRequiredCancelDuringCheck.RepairRequired [] "/a.txt").required = true ∧
    (envRequiredCancelDuringCheck.RepairRequired [] "/a.txt").err = false ∧
    checkFileExists (envRequiredCancelDuringCheck.Stat
      (afterRepairRequired envRequiredCancelDuringCheck (fileNode "/a.txt")
        (startRun (freshRequest twoFiles))).trace "/mirror/a.txt") = false ∧
    (repairFile envRequiredCancelDuringCheck (fileNode "/a.txt")
        (startRun (freshRequest twoFiles))).trace
      = [Event.RepairRequired "/a.txt" true false, Event.cancelSignalled,
         Event.RepairCompleted 0] := by
  decide

/-- C10, amended. When the cancellation flag is not set on entry, repair is
required, cancellation is not signalled during the `RepairRequired` call and no
local copy exists, `repairFile` issues `DownloadFile` for
(localRootPath + file.Path, file.Path) right after `RepairRequired`, hence
before any `RepairFile` call; and if the download returns an error or its wait
ends with the success flag unset, nothing that follows is a `RepairFile` call
and `filesRepaired` is unchanged. -/
theorem repairFile_download_first (a : Env) (file : ListResult) (s : Run)
    (hflag : s.r.isRepairCanceled = false)
    (herr : (a.RepairRequired s.trace file.Path).err = false)
    (hreq : (a.RepairRequired s.trace file.Path).required = true)
    (hquiet : (a.RepairRequired s.trace file.Path).cancel = false)
    (hlocal : checkFileExists
      (a.Stat (afterRepairRequired a file s).trace (s.r.localRootPath ++ file.Path)) = false) :
    ∃ t, (repairFile a file s).trace = s.trace ++
        [Event.RepairRequired file.Path true false,
         Event.DownloadFile (s.r.localRootPath ++ file.Path) file.Path
          (a.DownloadFile (afterRepairRequired a file s).trace
            (s.r.localRootPath ++ file.Path) file.Path).err
          (a.DownloadFile (afterRepairRequired a file s).trace
            (s.r.localRootPath ++ file.Path) file.Path).success] ++ t ∧
      (((a.DownloadFile (afterRepairRequired a file s).trace
            (s.r.localRootPath ++ file.Path) file.Path).err = true ∨
        (a.DownloadFile (afterRepairRequired a file s).trace
            (s.r.localRootPath ++ file.Path) file.Path).success = false) →
        (∀ e ∈ t, e.isRepairFile = false) ∧
        (repairFile a file s).r.filesRepaired = s.r.filesRepaired) := by
  have hrr : (afterRepairRequired a file s).trace
      = s.trace ++ [Event.RepairRequired file.Path true false] := by
    rw [afterRepairRequired_trace, herr, hreq, hquiet]; rfl
  have hf2 : (afterRepairRequired a file s).r.isRepairCanceled = false := by
    simp [hquiet, hflag]
  have hcontra : ∀ x : Bool, x = true → x = false → False := by
    intro x h1 h2; rw [h1] at h2; exact Bool.noConfusion h2
  have hgl : getLocalPath s.r file = s.r.localRootPath ++ file.Path := rfl
  refine repairFile_cases a file s
    (fun s' => ∃ t, s'.trace = s.trace ++
        [Event.RepairRequired file.Path true false,
         Event.DownloadFile (s.r.localRootPath ++ file.Path) file.Path
          (a.DownloadFile (afterRepairRequired a file s).trace
            (s.r.localRootPath ++ file.Path) file.Path).err
          (a.DownloadFile (afterRepairRequired a file s).trace
            (s.r.localRootPath ++ file.Path) file.Path).success] ++ t ∧
      (((a.DownloadFile (afterRepairRequired a file s).trace
            (s.r.localRootPath ++ file.Path) file.Path).err = true ∨
        (a.DownloadFile (afterRepairRequired a file s).trace
            (s.r.localRootPath ++ file.Path) file.Path).success = false) →
        (∀ e ∈ t, e.isRepairFile = false) ∧
        s'.r.filesRepaired = s.r.filesRepaired)) ?_ ?_ ?_ ?_ ?_ ?_ ?_
  · intro h; exact (hcontra _ h hflag).elim
  · intro _ h
    rcases h with h | h
    · exact (hcontra _ h herr).elim
    · exact (hcontra _ hreq h).elim
  · intro _ _ _ _ h; exact (hcontra _ h hf2).elim
  · intro _ _ _ _ _ _
    rw [hgl]
    refine ⟨if (a.DownloadFile (afterRepairRequired a file s).trace
        (s.r.localRootPath ++ file.Path) file.Path).cancel then [Event.cancelSignalled] else [],
      ?_, ?_⟩
    · rw [afterDownloadFile_trace, hrr]; simp
    · intro _
      refine ⟨?_, by simp⟩
      split_ifs <;> simp [Event.isRepairFile]
  · intro _ _ _ _ _ hde hds _
    rw [hgl] at hde hds ⊢
    obtain ⟨t, ht, -, -⟩ := repairFileUpload_summary a file (s.r.localRootPath ++ file.Path)
      (afterDownloadFile a file (s.r.localRootPath ++ file.Path) (afterRepairRequired a file s))
    refine ⟨(if (a.DownloadFile (afterRepairRequired a file s).trace
        (s.r.localRootPath ++ file.Path) file.Path).cancel then [Event.cancelSignalled] else [])
        ++ t, ?_, ?_⟩
    · rw [ht, afterDownloadFile_trace, hrr]; simp
    · intro h
      rcases h with h | h
      · exact (hcontra _ h hde).elim
      · exact (hcontra _ hds h).elim
  · intro _ _ _ h
    rw [hgl] at h
    exact (hcontra _ h hlocal).elim
  · intro _ _ _ _ _ _ _
    rw [hgl]
    refine ⟨if (a.DownloadFile (afterRepairRequired a file s).trace
        (s.r.localRootPath ++ file.Path) file.Path).cancel then [Event.cancelSignalled] else [],
      ?_, ?_⟩
    · rw [halt_trace, afterDownloadFile_trace, hrr]; simp
    · intro _
      refine ⟨?_, by simp⟩
      split_ifs <;> simp [Event.isRepairFile]

/-- Witness for C10 (amended): the download call returns an error. -/
theorem repairFile_download_first_witness :
    ((startRun (freshRequest twoFiles)).r.isRepairCanceled = false ∧
      (envDownloadErr.RepairRequired (startRun (freshRequest twoFiles)).trace
        (fileNode "/a.txt").Path).err = false ∧
      (envDownloadErr.RepairRequired (startRun (freshRequest twoFiles)).trace
        (fileNode "/a.txt").Path).required = true ∧
      (envDownloadErr.RepairRequired (startRun (freshRequest twoFiles)).trace
        (fileNode "/a.txt").Path).cancel = false ∧
      checkFileExists (envDownloadErr.Stat (afterRepairRequired envDownloadErr (fileNode "/a.txt")
          (startRun (freshRequest twoFiles))).trace
        ((startRun (freshRequest twoFiles)).r.localRootPath ++ (fileNode "/a.txt").Path)) = false) ∧
    ∃ t, (repairFile envDownloadErr (fileNode "/a.txt") (startRun (freshRequest twoFiles))).trace
        = (startRun (freshRequest twoFiles)).trace ++
        [Event.RepairRequired (fileNode "/a.txt").Path true false,
         Event.DownloadFile ((startRun (freshRequest twoFiles)).r.localRootPath ++
            (fileNode "/a.txt").Path) (fileNode "/a.txt").Path
          (envDownloadErr.DownloadFile (afterRepairRequired envDownloadErr (fileNode "/a.txt")
              (startRun (freshRequest twoFiles))).trace
            ((startRun (freshRequest twoFiles)).r.localRootPath ++ (fileNode "/a.txt").Path)
            (fileNode "/a.txt").Path).err
          (envDownloadErr.DownloadFile (afterRepairRequired envDownloadErr (fileNode "/a.txt")
              (startRun (freshRequest twoFiles))).trace
            ((startRun (freshRequest twoFiles)).r.localRootPath ++ (fileNode "/a.txt").Path)
            (fileNode "/a.txt").Path).success] ++ t ∧
      (((envDownloadErr.DownloadFile (afterRepairRequired envDownloadErr (fileNode "/a.txt")
              (startRun (freshRequest twoFiles))).trace
            ((startRun (freshRequest twoFiles)).r.localRootPath ++ (fileNode "/a.txt").Path)
            (fileNode "/a.txt").Path).err = true ∨
        (envDownloadErr.DownloadFile (afterRepairRequired envDownloadErr (fileNode "/a.txt")
              (startRun (freshRequest twoFiles))).trace
            ((startRun (freshRequest twoFiles)).r.localRootPath ++ (fileNode "/a.txt").Path)
            (fileNode "/a.txt").Path).success = false) →
        (∀ e ∈ t, e.isRepairFile = false) ∧
        (repairFile envDownloadErr (fileNode "/a.txt")
          (startRun (freshRequest twoFiles))).r.filesRepaired
          = (startRun (freshRequest twoFiles)).r.filesRepaired) :=
  ⟨⟨rfl, rfl, rfl, rfl, rfl⟩,
    repairFile_download_first envDownloadErr (fileNode "/a.txt")
      (startRun (freshRequest twoFiles)) rfl rfl rfl rfl rfl⟩

/-- C1 (defect in the code). Root directory with two files, status callback
set, not cancelled on entry; cancellation is signalled while the
`RepairRequired` call of the first file is in flight.  The cancel check before
the second child notifies `RepairCompleted` and the walk returns, and then
`processRepair` notifies `RepairCompleted` again: two notifications in one
call, not one. -/
theorem processRepair_cancel_midwalk_notifies_twice :
    (processRepair envCancelDuringCheck 3 (freshRequest twoFiles)).trace
        = [Event.RepairRequired "/a.txt" false false, Event.cancelSignalled,
           Event.RepairCompleted 0, Event.RepairCompleted 0] ∧
    ((processRepair envCancelDuringCheck 3 (freshRequest twoFiles)).trace.filter
        Event.isRepairCompleted).length = 2 ∧
    (processRepair envCancelDuringCheck 3 (freshRequest twoFiles)).status = Status.ok := by
  decide

/-- C2, as stated, fails: the request is already cancelled but has no status
callback, and `processRepair` returns without notifying anything. -/
theorem processRepair_cancelled_without_callback :
    cancelledNoCallback.isRepairCanceled = true ∧
    (processRepair envAllRepaired 3 cancelledNoCallback).trace = [] := by
  decide

/-- C2, amended. If `isRepairCanceled` is already true when `processRepair` is
called, the whole call consists of one `RepairCompleted` notification with the
current `filesRepaired` value when the status callback is non-nil (nothing
when it is nil), followed by the completion callback when that is non-nil: no
`ListDir`, `RepairRequired`, `DownloadFile` or `RepairFile` call is issued,
`filesRepaired` is unchanged and the call returns normally. -/
theorem processRepair_already_cancelled (a : Env) (fuel : Nat) (r : RepairRequest)
    (h : r.isRepairCanceled = true) :
    (processRepair a fuel r).trace
        = (if r.statusCB then [Event.RepairCompleted r.filesRepaired] else []) ++
          (if r.completedCallback then [Event.completedCallback] else []) ∧
    (∀ e ∈ (processRepair a fuel r).trace, e.isNetwork = false) ∧
    (processRepair a fuel r).r.filesRepaired = r.filesRepaired ∧
    (processRepair a fuel r).status = Status.ok := by
  have htrace : (processRepair a fuel r).trace
        = (if r.statusCB then [Event.RepairCompleted r.filesRepaired] else []) ++
          (if r.completedCallback then [Event.completedCallback] else []) := by
    cases hcb : r.statusCB <;> cases hcc : r.completedCallback <;>
      simp [processRepair, checkForCancel, h, hcb, hcc]
  refine ⟨htrace, ?_, ?_, ?_⟩
  · rw [htrace]
    cases r.statusCB <;> cases r.completedCallback <;> simp [Event.isNetwork]
  · cases hcb : r.statusCB <;> cases hcc : r.completedCallback <;>
      simp [processRepair, checkForCancel, h, hcb, hcc]
  · cases hcb : r.statusCB <;> cases hcc : r.completedCallback <;>
      simp [processRepair, checkForCancel, h, hcb, hcc]

/-- Witness for C2 (amended): an already cancelled request with both
callbacks set and a counter of three. -/
theorem processRepair_already_cancelled_witness :
    cancelledRequest.isRepairCanceled = true ∧
    ((processRepair envAllRepaired 3 cancelledRequest).trace
        = (if cancelledRequest.statusCB then
            [Event.RepairCompleted cancelledRequest.filesRepaired] else []) ++
          (if cancelledRequest.completedCallback then [Event.completedCallback] else []) ∧
      (∀ e ∈ (processRepair envAllRepaired 3 cancelledRequest).trace, e.isNetwork = false) ∧
      (processRepair envAllRepaired 3 cancelledRequest).r.filesRepaired
        = cancelledRequest.filesRepaired ∧
      (processRepair envAllRepaired 3 cancelledRequest).status = Status.ok) :=
  ⟨rfl, processRepair_already_cancelled envAllRepaired 3 cancelledRequest rfl⟩

/-- C7 (defect in the code). The root lists a directory `/a` whose children
are not loaded, then the file `/b.txt`.  The listing fetch for `/a` fails with
a nil listing: the error branch panics, so the walk does not go on to the
sibling `/b.txt` (no `RepairRequired` call for it) and `processRepair` never
notifies `RepairCompleted`. -/
theorem processRepair_listDir_failure_aborts_walk :
    (processRepair envListDirFails 3 (freshRequest lazyDirThenFile)).trace
        = [Event.ListDir "/a" false true] ∧
    (processRepair envListDirFails 3 (freshRequest lazyDirThenFile)).status
        = Status.panicked ∧
    checkedPaths (processRepair envListDirFails 3 (freshRequest lazyDirThenFile)).trace = [] := by
  decide

/-- C8 (defect in the code). A directory without loaded children whose
`ListDir` call returns an error and a nil listing: `iterateDir` panics in the
error branch. -/
theorem iterateDir_listDir_failure_panics :
    (envListDirFails.ListDir [] "/a").err = true ∧
    (envListDirFails.ListDir [] "/a").listing.isSome = false ∧
    (iterateDir envListDirFails 2 (dirNode "/a" [])
        (startRun (freshRequest lazyDirThenFile))).status = Status.panicked := by
  decide

/-! ## Relations that hold across the walk -/

/-- A relation between runs that is reflexive, transitive and holds across
the cancel check and across each visit of a child holds across the child
loop. -/
theorem forChildren_rel (Q : Run → Run → Prop)
    (hrefl : ∀ s, Q s s) (htrans : ∀ s1 s2 s3, Q s1 s2 → Q s2 s3 → Q s1 s3)
    (hcheck : ∀ s, Q s (checkForCancel s).2)
    (visit : ListResult → Run → Run) (cs : List ListResult)
    (hvisit : ∀ c ∈ cs, ∀ s, s.r.isRepairCanceled = false → Q s (visit c s)) :
    ∀ s, Q s (forChildren visit cs s) := by
  induction cs with
  | nil => intro s; exact hrefl s
  | cons c rest ih =>
    intro s
    unfold forChildren
    cases hf : s.r.isRepairCanceled
    · rw [checkForCancel_running s hf]
      simp only
      have h1 : Q s (visit c s) := hvisit c (List.mem_cons_self c rest) s hf
      split_ifs
      · exact htrans _ _ _ h1
          (ih (fun c' hc' => hvisit c' (List.mem_cons_of_mem c hc')) (visit c s))
      · exact h1
    · rw [checkForCancel_cancelled s hf]
      exact hcheck s

/-- A relation closed under the elementary steps of `repairFile` holds across
`repairFile`. -/
theorem repairFile_rel (a : Env) (Q : Run → Run → Prop)
    (htrans : ∀ s1 s2 s3, Q s1 s2 → Q s2 s3 → Q s1 s3)
    (hcheck : ∀ s, Q s (checkForCancel s).2)
    (hrr : ∀ file s, s.r.isRepairCanceled = false → Q s (afterRepairRequired a file s))
    (hdl : ∀ file lp s, s.r.isRepairCanceled = false → Q s (afterDownloadFile a file lp s))
    (hupfail : ∀ file lp s, s.r.isRepairCanceled = false →
      ((a.RepairFile s.trace lp file.Path).err = true ∨
        (a.RepairFile s.trace lp file.Path).success = false) →
      Q s (afterRepairFile a file lp s))
    (hupdone : ∀ file lp s, s.r.isRepairCanceled = false →
      (a.RepairFile s.trace lp file.Path).err = false →
      (a.RepairFile s.trace lp file.Path).success = true →
      s.r.statusCB = true →
      Q s (afterRepairFile a file lp s).countRepaired)
    (hdlhalt : ∀ file lp s, s.r.isRepairCanceled = false →
      (a.DownloadFile s.trace lp file.Path).err = false →
      s.r.statusCB = false →
      Q s (afterDownloadFile a file lp s).halt)
    (huphalt : ∀ file lp s, s.r.isRepairCanceled = false →
      (a.RepairFile s.trace lp file.Path).err = false →
      s.r.statusCB = false →
      Q s (afterRepairFile a file lp s).halt)
    (file : ListResult) (s : Run) : Q s (repairFile a file s) := by
  have hup : ∀ lp s, Q s (repairFileUpload a file lp s) := by
    intro lp s
    exact repairFileUpload_cases a file lp s (fun s' => Q s s')
      (fun _ => hcheck s) (fun hf h => hupfail file lp s hf h)
      (fun hf he hs hcb => hupdone file lp s hf he hs hcb)
      (fun hf he hcb => huphalt file lp s hf he hcb)
  refine repairFile_cases a file s (fun s' => Q s s') ?_ ?_ ?_ ?_ ?_ ?_ ?_
  · intro _; exact hcheck s
  · intro hf _; exact hrr file s hf
  · intro hf _ _ _ _
    exact htrans _ _ _ (hrr file s hf) (hcheck _)
  · intro hf _ _ _ hf2 _
    exact htrans _ _ _ (hrr file s hf) (hdl file _ _ hf2)
  · intro hf _ _ _ hf2 _ _ _
    exact htrans _ _ _ (htrans _ _ _ (hrr file s hf) (hdl file _ _ hf2)) (hup _ _)
  · intro hf _ _ _
    exact htrans _ _ _ (hrr file s hf) (hup _ _)
  · intro hf _ _ _ hf2 hde hcb
    exact htrans _ _ _ (hrr file s hf)
      (hdlhalt file _ _ hf2 hde (by rw [afterRepairRequired_statusCB]; exact hcb))

/-- A relation closed under the elementary steps of the walk holds across
`iterateDir`, started with the cancellation flag down. -/
theorem iterateDir_rel (a : Env) (Q : Run → Run → Prop)
    (hrefl : ∀ s, Q s s) (htrans : ∀ s1 s2 s3, Q s1 s2 → Q s2 s3 → Q s1 s3)
    (hcheck : ∀ s, Q s (checkForCancel s).2)
    (hfile : ∀ file s, Q s (repairFile a file s))
    (hlist : ∀ p s, s.r.isRepairCanceled = false →
      Q s (s.call (Event.ListDir p (a.ListDir s.trace p).listing.isSome (a.ListDir s.trace p).err)
        (a.ListDir s.trace p).cancel))
    (hstatus : ∀ s st, Q s { s with status := st }) :
    ∀ fuel dir s, s.r.isRepairCanceled = false → Q s (iterateDir a fuel dir s) := by
  intro fuel
  induction fuel with
  | zero => intro dir s _; exact hstatus s _
  | succ fuel ih =>
    intro dir s hf
    have hloop : ∀ cs s, Q s (forChildren (iterateDir a fuel) cs s) := fun cs s =>
      forChildren_rel Q hrefl htrans hcheck (iterateDir a fuel) cs (fun c _ s hs => ih c s hs) s
    unfold iterateDir
    cases dir.Type_ with
    | FILE => exact hfile dir s
    | other tag => exact hrefl s
    | DIRECTORY =>
      simp only
      split_ifs
      · have h1 := hlist dir.Path s hf
        cases hl : (a.ListDir s.trace dir.Path).listing with
        | none =>
          cases he : (a.ListDir s.trace dir.Path).err <;>
          · simp only [hl, he] at h1 ⊢
            exact htrans _ _ _ h1 (hstatus _ _)
        | some fetched =>
          cases he : (a.ListDir s.trace dir.Path).err
          · simp only [hl, he] at h1 ⊢
            exact htrans _ _ _ h1 (hloop _ _)
          · simp only [hl, he] at h1 ⊢
            exact h1
      · exact hloop _ _

/-! ## No call after cancellation -/

theorem flagAfter_nil (f : Bool) : flagAfter f [] = f := by
  simp [flagAfter]

theorem flagAfter_cons (f : Bool) (e : Event) (t : List Event) :
    flagAfter f (e :: t) = flagAfter (f || e == Event.cancelSignalled) t := by
  simp [flagAfter, List.any_cons, Bool.or_assoc]

theorem flagAfter_append (f : Bool) (t1 t2 : List Event) :
    flagAfter f (t1 ++ t2) = flagAfter (flagAfter f t1) t2 := by
  induction t1 generalizing f with
  | nil => simp [flagAfter_nil]
  | cons e t ih => simp only [List.cons_append, flagAfter_cons, ih]

theorem quietFrom_append (f : Bool) (t1 t2 : List Event) :
    quietFrom f (t1 ++ t2) = (quietFrom f t1 && quietFrom (flagAfter f t1) t2) := by
  induction t1 generalizing f with
  | nil => simp [quietFrom, flagAfter_nil]
  | cons e t ih =>
    rw [List.cons_append]
    simp only [quietFrom, flagAfter_cons, ih, Bool.and_assoc]

theorem quietFrom_true (t : List Event) :
    quietFrom true t = true ↔ ∀ e ∈ t, e.isNetwork = false := by
  induction t with
  | nil => simp [quietFrom]
  | cons e t ih => simp [quietFrom, ih]

/-- The relation carried across the walk for the cancellation property: the
appended events are quiet from the flag's value on, and the flag afterwards is
the one the marks in the appended events give. -/
theorem quiet_rel_trans (s1 s2 s3 : Run)
    (h12 : ∃ t, s2.trace = s1.trace ++ t ∧ quietFrom s1.r.isRepairCanceled t = true ∧
      s2.r.isRepairCanceled = flagAfter s1.r.isRepairCanceled t)
    (h23 : ∃ t, s3.trace = s2.trace ++ t ∧ quietFrom s2.r.isRepairCanceled t = true ∧
      s3.r.isRepairCanceled = flagAfter s2.r.isRepairCanceled t) :
    ∃ t, s3.trace = s1.trace ++ t ∧ quietFrom s1.r.isRepairCanceled t = true ∧
      s3.r.isRepairCanceled = flagAfter s1.r.isRepairCanceled t := by
  obtain ⟨t1, ht1, hq1, hf1⟩ := h12
  obtain ⟨t2, ht2, hq2, hf2⟩ := h23
  refine ⟨t1 ++ t2, trace_append_trans ht1 ht2, ?_, ?_⟩
  · rw [quietFrom_append, hq1, ← hf1, hq2]; rfl
  · rw [flagAfter_append, ← hf1, hf2]

theorem quiet_rel_check (s : Run) :
    ∃ t, (checkForCancel s).2.trace = s.trace ++ t ∧ quietFrom s.r.isRepairCanceled t = true ∧
      (checkForCancel s).2.r.isRepairCanceled = flagAfter s.r.isRepairCanceled t := by
  refine ⟨_, checkForCancel_trace s, ?_, ?_⟩
  · split_ifs <;> simp [quietFrom, Event.isNetwork]
  · split_ifs <;> simp [flagAfter]

theorem quiet_rel_call (s : Run) (e : Event) (c : Bool)
    (hf : s.r.isRepairCanceled = false) (he : e ≠ Event.cancelSignalled) :
    ∃ t, (s.call e c).trace = s.trace ++ t ∧ quietFrom s.r.isRepairCanceled t = true ∧
      (s.call e c).r.isRepairCanceled = flagAfter s.r.isRepairCanceled t := by
  refine ⟨_, call_trace s e c, ?_, ?_⟩
  · cases c <;> simp [quietFrom, hf, he, Event.isNetwork]
  · cases c <;> simp [flagAfter, hf, he, Ne.symm he]

/-- Across `iterateDir`, started with the flag down, no call is issued
while the flag is up. -/
theorem iterateDir_quiet (a : Env) (fuel : Nat) (dir : ListResult) (s : Run)
    (hf : s.r.isRepairCanceled = false) :
    ∃ t, (iterateDir a fuel dir s).trace = s.trace ++ t ∧
      quietFrom s.r.isRepairCanceled t = true ∧
      (iterateDir a fuel dir s).r.isRepairCanceled = flagAfter s.r.isRepairCanceled t := by
  refine iterateDir_rel a
    (fun s s' => ∃ t, s'.trace = s.trace ++ t ∧ quietFrom s.r.isRepairCanceled t = true ∧
      s'.r.isRepairCanceled = flagAfter s.r.isRepairCanceled t)
    ?_ quiet_rel_trans quiet_rel_check ?_ ?_ ?_ fuel dir s hf
  · intro s; exact ⟨[], by simp, rfl, by simp [flagAfter_nil]⟩
  · intro file s
    refine repairFile_rel a
      (fun s s' => ∃ t, s'.trace = s.trace ++ t ∧ quietFrom s.r.isRepairCanceled t = true ∧
        s'.r.isRepairCanceled = flagAfter s.r.isRepairCanceled t)
      quiet_rel_trans quiet_rel_check ?_ ?_ ?_ ?_ ?_ ?_ file s
    · intro file s hf; exact quiet_rel_call s _ _ hf (by simp)
    · intro file lp s hf; exact quiet_rel_call s _ _ hf (by simp)
    · intro file lp s hf _; exact quiet_rel_call s _ _ hf (by simp)
    · intro file lp s hf _ _ _
      obtain ⟨t, h1, h2, h3⟩ := quiet_rel_call s
        (Event.RepairFile lp file.Path (a.RepairFile s.trace lp file.Path).err
          (a.RepairFile s.trace lp file.Path).success)
        (a.RepairFile s.trace lp file.Path).cancel hf (by simp)
      exact ⟨t, h1, h2, h3⟩
    · intro file lp s hf _ _
      obtain ⟨t, h1, h2, h3⟩ := quiet_rel_call s
        (Event.DownloadFile lp file.Path (a.DownloadFile s.trace lp file.Path).err
          (a.DownloadFile s.trace lp file.Path).success)
        (a.DownloadFile s.trace lp file.Path).cancel hf (by simp)
      exact ⟨t, h1, h2, h3⟩
    · intro file lp s hf _ _
      obtain ⟨t, h1, h2, h3⟩ := quiet_rel_call s
        (Event.RepairFile lp file.Path (a.RepairFile s.trace lp file.Path).err
          (a.RepairFile s.trace lp file.Path).success)
        (a.RepairFile s.trace lp file.Path).cancel hf (by simp)
      exact ⟨t, h1, h2, h3⟩
  · intro p s hf; exact quiet_rel_call s _ _ hf (by simp)
  · intro s st; exact ⟨[], by simp, rfl, by simp [flagAfter_nil]⟩

/-- The whole trace of `processRepair` is quiet from the initial value of the
flag on. -/
theorem processRepair_quiet (a : Env) (fuel : Nat) (r : RepairRequest) :
    quietFrom r.isRepairCanceled (processRepair a fuel r).trace = true := by
  have hnn : ∀ (f : Bool) (t : List Event) (e : Event), e.isNetwork = false →
      quietFrom f t = true → quietFrom f (t ++ [e]) = true := by
    intro f t e he ht
    rw [quietFrom_append, ht]
    simp [quietFrom, he]
  have hmain : quietFrom r.isRepairCanceled
      (match checkForCancel (startRun r) with
        | (true, s1) => s1
        | (false, s1) =>
          if (iterateDir a fuel s1.r.listDir s1).status = Status.ok then
            if (iterateDir a fuel s1.r.listDir s1).r.statusCB then
              (iterateDir a fuel s1.r.listDir s1).emit
                (Event.RepairCompleted (iterateDir a fuel s1.r.listDir s1).r.filesRepaired)
            else iterateDir a fuel s1.r.listDir s1
          else iterateDir a fuel s1.r.listDir s1).trace = true := by
    cases hf : r.isRepairCanceled
    · rw [checkForCancel_running (startRun r) hf]
      simp only
      obtain ⟨t, ht, hq, -⟩ := iterateDir_quiet a fuel (startRun r).r.listDir (startRun r) hf
      have hq' : quietFrom false (iterateDir a fuel (startRun r).r.listDir (startRun r)).trace
          = true := by
        rw [ht]
        have : (startRun r).r.isRepairCanceled = false := hf
        rw [this] at hq
        simpa [startRun] using hq
      split_ifs
      · exact hnn _ _ _ rfl hq'
      · exact hq'
      · exact hq'
    · rw [checkForCancel_cancelled (startRun r) hf]
      simp only
      rw [checkForCancel_trace]
      split_ifs <;> simp [startRun, quietFrom, Event.isNetwork]
  unfold processRepair
  simp only
  split_ifs
  · exact hnn _ _ _ rfl hmain
  · exact hmain

/-- C3. In every run of `processRepair` (the cancellation flag changes only
while a call on the allocation is in flight), once the flag is true no further
`ListDir`, `RepairRequired`, `DownloadFile` or `RepairFile` call is issued: if
the flag is true on entry the trace contains no such call at all, and nothing
that follows a `cancelSignalled` mark in the trace is such a call. -/
theorem processRepair_no_call_after_cancel (a : Env) (fuel : Nat) (r : RepairRequest) :
    (r.isRepairCanceled = true → ∀ e ∈ (processRepair a fuel r).trace, e.isNetwork = false) ∧
    (∀ before after, (processRepair a fuel r).trace = before ++ Event.cancelSignalled :: after →
      ∀ e ∈ after, e.isNetwork = false) := by
  have hq := processRepair_quiet a fuel r
  constructor
  · intro h
    rw [h] at hq
    exact (quietFrom_true _).mp hq
  · intro before after hsplit
    rw [hsplit, quietFrom_append] at hq
    have h2 : quietFrom (flagAfter r.isRepairCanceled before)
        (Event.cancelSignalled :: after) = true := by
      cases h1 : quietFrom r.isRepairCanceled before <;> simp_all
    have h3 : quietFrom true after = true := by
      simp [quietFrom] at h2
      exact h2.2
    exact (quietFrom_true _).mp h3

/-- Witness for C3: cancellation is signalled while the `RepairFile` call
of the first of two files is in flight; what follows the mark is two
notifications and no call. -/
theorem processRepair_no_call_after_cancel_witness :
    (processRepair envCancelDuringRepair 3 (freshRequest twoFiles)).trace
        = [Event.RepairRequired "/a.txt" true false,
           Event.RepairFile "/mirror/a.txt" "/a.txt" false true] ++
          Event.cancelSignalled :: [Event.RepairCompleted 1, Event.RepairCompleted 1] ∧
    ∀ e ∈ [Event.RepairCompleted 1, Event.RepairCompleted 1], e.isNetwork = false :=
  ⟨by decide,
    (processRepair_no_call_after_cancel envCancelDuringRepair 3 (freshRequest twoFiles)).2
      [Event.RepairRequired "/a.txt" true false,
        Event.RepairFile "/mirror/a.txt" "/a.txt" false true]
      [Event.RepairCompleted 1, Event.RepairCompleted 1] (by decide)⟩

/-! ## The reported count -/

theorem count_rel_refl (s : Run) :
    ∃ t, s.trace = s.trace ++ t ∧
      (s.r.statusCB = true →
        s.r.filesRepaired = s.r.filesRepaired + (t.filter Event.isRepaired).length) ∧
      s.r.statusCB = s.r.statusCB ∧
      (s.r.isRepairCanceled = false →
        s.r.isRepairCanceled = false ∧ ∀ e ∈ t, e.isRepairCompleted = false) :=
  ⟨[], by simp, by simp, rfl, fun h => ⟨h, by simp⟩⟩

theorem count_rel_trans (s1 s2 s3 : Run)
    (h12 : ∃ t, s2.trace = s1.trace ++ t ∧
      (s1.r.statusCB = true →
        s2.r.filesRepaired = s1.r.filesRepaired + (t.filter Event.isRepaired).length) ∧
      s2.r.statusCB = s1.r.statusCB ∧
      (s2.r.isRepairCanceled = false →
        s1.r.isRepairCanceled = false ∧ ∀ e ∈ t, e.isRepairCompleted = false))
    (h23 : ∃ t, s3.trace = s2.trace ++ t ∧
      (s2.r.statusCB = true →
        s3.r.filesRepaired = s2.r.filesRepaired + (t.filter Event.isRepaired).length) ∧
      s3.r.statusCB = s2.r.statusCB ∧
      (s3.r.isRepairCanceled = false →
        s2.r.isRepairCanceled = false ∧ ∀ e ∈ t, e.isRepairCompleted = false)) :
    ∃ t, s3.trace = s1.trace ++ t ∧
      (s1.r.statusCB = true →
        s3.r.filesRepaired = s1.r.filesRepaired + (t.filter Event.isRepaired).length) ∧
      s3.r.statusCB = s1.r.statusCB ∧
      (s3.r.isRepairCanceled = false →
        s1.r.isRepairCanceled = false ∧ ∀ e ∈ t, e.isRepairCompleted = false) := by
  obtain ⟨t1, ht1, hc1, hs1, hf1⟩ := h12
  obtain ⟨t2, ht2, hc2, hs2, hf2⟩ := h23
  refine ⟨t1 ++ t2, trace_append_trans ht1 ht2, ?_, hs2.trans hs1, ?_⟩
  · intro hcb
    rw [hc2 (hs1.trans hcb), hc1 hcb, List.filter_append, List.length_append, Nat.add_assoc]
  · intro h3
    obtain ⟨h2, hn2⟩ := hf2 h3
    obtain ⟨h1, hn1⟩ := hf1 h2
    refine ⟨h1, ?_⟩
    intro e he
    rcases List.mem_append.mp he with he | he
    · exact hn1 e he
    · exact hn2 e he

theorem count_rel_check (s : Run) :
    ∃ t, (checkForCancel s).2.trace = s.trace ++ t ∧
      (s.r.statusCB = true → (checkForCancel s).2.r.filesRepaired
        = s.r.filesRepaired + (t.filter Event.isRepaired).length) ∧
      (checkForCancel s).2.r.statusCB = s.r.statusCB ∧
      ((checkForCancel s).2.r.isRepairCanceled = false →
        s.r.isRepairCanceled = false ∧ ∀ e ∈ t, e.isRepairCompleted = false) := by
  refine ⟨_, checkForCancel_trace s, fun _ => ?_, by simp, ?_⟩
  · split_ifs <;> simp [Event.isRepaired]
  · intro h
    rw [checkForCancel_r] at h
    refine ⟨h, ?_⟩
    simp [h]

theorem count_rel_call (s : Run) (e : Event) (c : Bool)
    (he : e.isRepaired = false) (hrc : e.isRepairCompleted = false) :
    ∃ t, (s.call e c).trace = s.trace ++ t ∧
      (s.r.statusCB = true →
        (s.call e c).r.filesRepaired = s.r.filesRepaired + (t.filter Event.isRepaired).length) ∧
      (s.call e c).r.statusCB = s.r.statusCB ∧
      ((s.call e c).r.isRepairCanceled = false →
        s.r.isRepairCanceled = false ∧ ∀ e ∈ t, e.isRepairCompleted = false) := by
  have hmark : Event.cancelSignalled.isRepaired = false := rfl
  refine ⟨_, call_trace s e c, fun _ => ?_, by simp, ?_⟩
  · cases c <;> simp [he, hmark]
  · intro h
    rw [call_flag] at h
    cases c
    · simp at h
      exact ⟨h, by simp [hrc]⟩
    · simp at h

/-- A call whose run then halts in the wait: with a nil status callback the
relation about the counter asks nothing. -/
theorem count_rel_halt (s : Run) (e : Event) (c : Bool)
    (hcb : s.r.statusCB = false) (hrc : e.isRepairCompleted = false) :
    ∃ t, (s.call e c).halt.trace = s.trace ++ t ∧
      (s.r.statusCB = true →
        (s.call e c).halt.r.filesRepaired
          = s.r.filesRepaired + (t.filter Event.isRepaired).length) ∧
      (s.call e c).halt.r.statusCB = s.r.statusCB ∧
      ((s.call e c).halt.r.isRepairCanceled = false →
        s.r.isRepairCanceled = false ∧ ∀ e ∈ t, e.isRepairCompleted = false) := by
  refine ⟨_, call_trace s e c, fun h => ?_, by simp, ?_⟩
  · rw [hcb] at h; exact Bool.noConfusion h
  · intro h
    rw [halt_r, call_flag] at h
    cases c
    · simp at h
      exact ⟨h, by simp [hrc]⟩
    · simp at h

/-- Across `iterateDir`, with a non-nil status callback, the counter grows by
the number of `RepairFile` calls that returned no error with the success flag
set, and when the flag is still down afterwards no `RepairCompleted`
notification was issued. -/
theorem iterateDir_count (a : Env) (fuel : Nat) (dir : ListResult) (s : Run)
    (hf : s.r.isRepairCanceled = false) :
    ∃ t, (iterateDir a fuel dir s).trace = s.trace ++ t ∧
      (s.r.statusCB = true → (iterateDir a fuel dir s).r.filesRepaired
        = s.r.filesRepaired + (t.filter Event.isRepaired).length) ∧
      (iterateDir a fuel dir s).r.statusCB = s.r.statusCB ∧
      ((iterateDir a fuel dir s).r.isRepairCanceled = false →
        s.r.isRepairCanceled = false ∧ ∀ e ∈ t, e.isRepairCompleted = false) := by
  refine iterateDir_rel a
    (fun s s' => ∃ t, s'.trace = s.trace ++ t ∧
      (s.r.statusCB = true →
        s'.r.filesRepaired = s.r.filesRepaired + (t.filter Event.isRepaired).length) ∧
      s'.r.statusCB = s.r.statusCB ∧
      (s'.r.isRepairCanceled = false →
        s.r.isRepairCanceled = false ∧ ∀ e ∈ t, e.isRepairCompleted = false))
    count_rel_refl count_rel_trans count_rel_check ?_ ?_ ?_ fuel dir s hf
  · intro file s
    refine repairFile_rel a
      (fun s s' => ∃ t, s'.trace = s.trace ++ t ∧
        (s.r.statusCB = true →
          s'.r.filesRepaired = s.r.filesRepaired + (t.filter Event.isRepaired).length) ∧
        s'.r.statusCB = s.r.statusCB ∧
        (s'.r.isRepairCanceled = false →
          s.r.isRepairCanceled = false ∧ ∀ e ∈ t, e.isRepairCompleted = false))
      count_rel_trans count_rel_check ?_ ?_ ?_ ?_ ?_ ?_ file s
    · intro file s _; exact count_rel_call s _ _ rfl rfl
    · intro file lp s _; exact count_rel_call s _ _ rfl rfl
    · intro file lp s _ hfail
      refine count_rel_call s _ _ ?_ rfl
      rcases hfail with h | h <;> simp [Event.isRepaired, h]
    · intro file lp s hf he hs _
      refine ⟨_, afterRepairFile_trace a file lp s, fun _ => ?_, by simp, ?_⟩
      · cases (a.RepairFile s.trace lp file.Path).cancel <;> simp [he, hs, Event.isRepaired]
      · intro h
        simp at h
        refine ⟨h.2, ?_⟩
        simp [h.1, Event.isRepairCompleted]
    · intro file lp s _ _ hcb; exact count_rel_halt s _ _ hcb rfl
    · intro file lp s _ _ hcb; exact count_rel_halt s _ _ hcb rfl
  · intro p s _; exact count_rel_call s _ _ rfl rfl
  · intro s st; exact count_rel_refl s

/-- C6. When `processRepair` runs to completion (it returns normally), the
status callback is non-nil and the cancellation flag is still down at the end
(it is never lowered, so it was never raised), the trace contains exactly one
`RepairCompleted` notification, and its argument is the initial
`filesRepaired` plus the number of `RepairFile` calls of the walk that
returned no error and whose wait ended with the success flag set. -/
theorem processRepair_reports_repaired_count (a : Env) (fuel : Nat) (r : RepairRequest)
    (hcb : r.statusCB = true)
    (hok : (processRepair a fuel r).status = Status.ok)
    (hnc : (processRepair a fuel r).r.isRepairCanceled = false) :
    (processRepair a fuel r).trace.filter Event.isRepairCompleted
      = [Event.RepairCompleted (r.filesRepaired +
          ((processRepair a fuel r).trace.filter Event.isRepaired).length)] := by
  cases hf : r.isRepairCanceled
  · obtain ⟨t, ht, hcount, hscb, hflag⟩ :=
      iterateDir_count a fuel (startRun r).r.listDir (startRun r) hf
    have hpr : processRepair a fuel r =
        (if r.completedCallback = true ∧
            ((if (iterateDir a fuel (startRun r).r.listDir (startRun r)).status = Status.ok then
              if (iterateDir a fuel (startRun r).r.listDir (startRun r)).r.statusCB = true then
                (iterateDir a fuel (startRun r).r.listDir (startRun r)).emit
                  (Event.RepairCompleted
                    (iterateDir a fuel (startRun r).r.listDir (startRun r)).r.filesRepaired)
              else iterateDir a fuel (startRun r).r.listDir (startRun r)
            else iterateDir a fuel (startRun r).r.listDir (startRun r)).status
              = Status.ok ∨
            (if (iterateDir a fuel (startRun r).r.listDir (startRun r)).status = Status.ok then
              if (iterateDir a fuel (startRun r).r.listDir (startRun r)).r.statusCB = true then
                (iterateDir a fuel (startRun r).r.listDir (startRun r)).emit
                  (Event.RepairCompleted
                    (iterateDir a fuel (startRun r).r.listDir (startRun r)).r.filesRepaired)
              else iterateDir a fuel (startRun r).r.listDir (startRun r)
            else iterateDir a fuel (startRun r).r.listDir (startRun r)).status
              = Status.panicked) then
          (if (iterateDir a fuel (startRun r).r.listDir (startRun r)).status = Status.ok then
              if (iterateDir a fuel (startRun r).r.listDir (startRun r)).r.statusCB = true then
                (iterateDir a fuel (startRun r).r.listDir (startRun r)).emit
                  (Event.RepairCompleted
                    (iterateDir a fuel (startRun r).r.listDir (startRun r)).r.filesRepaired)
              else iterateDir a fuel (startRun r).r.listDir (startRun r)
            else iterateDir a fuel (startRun r).r.listDir (startRun r)).emit
              Event.completedCallback
        else
          (if (iterateDir a fuel (startRun r).r.listDir (startRun r)).status = Status.ok then
              if (iterateDir a fuel (startRun r).r.listDir (startRun r)).r.statusCB = true then
                (iterateDir a fuel (startRun r).r.listDir (startRun r)).emit
                  (Event.RepairCompleted
                    (iterateDir a fuel (startRun r).r.listDir (startRun r)).r.filesRepaired)
              else iterateDir a fuel (startRun r).r.listDir (startRun r)
            else iterateDir a fuel (startRun r).r.listDir (startRun r))) := by
      unfold processRepair
      simp only
      rw [show checkForCancel { r := r, trace := [], status := Status.ok }
        = (false, startRun r) from checkForCancel_running (startRun r) hf]
    have hscb' : (iterateDir a fuel (startRun r).r.listDir (startRun r)).r.statusCB = true := by
      rw [hscb]; exact hcb
    rw [hpr] at hok hnc ⊢
    have hemit : ∀ (c : Prop) [Decidable c] (s : Run) (e : Event),
        (if c then s.emit e else s).status = s.status ∧
        (if c then s.emit e else s).r = s.r := by
      intro c _ s e
      split_ifs <;> exact ⟨rfl, rfl⟩
    have hst : (iterateDir a fuel (startRun r).r.listDir (startRun r)).status = Status.ok := by
      by_contra hne
      rw [(hemit _ _ _).1] at hok
      simp only [hne, if_false] at hok
    simp only [hst, hscb', if_true] at hnc ⊢
    have hflag2 : (iterateDir a fuel (startRun r).r.listDir (startRun r)).r.isRepairCanceled
        = false := by
      rw [(hemit _ _ _).2] at hnc
      exact hnc
    obtain ⟨-, hnone⟩ := hflag hflag2
    have hfilter : t.filter Event.isRepairCompleted = [] := by
      rw [List.filter_eq_nil_iff]
      intro e he
      simp [hnone e he]
    have htr : (iterateDir a fuel (startRun r).r.listDir (startRun r)).trace = t := by
      rw [ht]; simp [startRun]
    have hc : (iterateDir a fuel (startRun r).r.listDir (startRun r)).r.filesRepaired
        = r.filesRepaired + (t.filter Event.isRepaired).length := hcount hcb
    split_ifs <;>
      simp [htr, hc, List.filter_append, hfilter, Event.isRepairCompleted, Event.isRepaired]
  · have hflag : (processRepair a fuel r).r.isRepairCanceled = true := by
      cases hcc : r.completedCallback <;>
        simp [processRepair, checkForCancel, hf, hcb, hcc]
    rw [hflag] at hnc
    exact Bool.noConfusion hnc

/-- Witness for C6: two files, both repaired after a download. -/
theorem processRepair_reports_repaired_count_witness :
    ((freshRequest twoFiles).statusCB = true ∧
      (processRepair envAllRepaired 3 (freshRequest twoFiles)).status = Status.ok ∧
      (processRepair envAllRepaired 3 (freshRequest twoFiles)).r.isRepairCanceled = false) ∧
    (processRepair envAllRepaired 3 (freshRequest twoFiles)).trace.filter Event.isRepairCompleted
      = [Event.RepairCompleted ((freshRequest twoFiles).filesRepaired +
          ((processRepair envAllRepaired 3 (freshRequest twoFiles)).trace.filter
            Event.isRepaired).length)] :=
  ⟨⟨rfl, by decide, by decide⟩,
    processRepair_reports_repaired_count envAllRepaired 3 (freshRequest twoFiles) rfl
      (by decide) (by decide)⟩

/-! ## Every file is visited -/

theorem checkedPaths_append (t1 t2 : List Event) :
    checkedPaths (t1 ++ t2) = checkedPaths t1 ++ checkedPaths t2 := by
  induction t1 with
  | nil => rfl
  | cons e t ih => cases e <;> simp [checkedPaths, ih]

theorem childrenKnown_of_mem (cs : List ListResult) (h : childrenKnownList cs = true) :
    ∀ c ∈ cs, c.childrenKnown = true := by
  induction cs with
  | nil => intro c hc; simp at hc
  | cons d rest ih =>
    intro c hc
    simp only [childrenKnownList, Bool.and_eq_true] at h
    rcases List.mem_cons.mp hc with rfl | hc
    · exact h.1
    · exact ih h.2 c hc

theorem height_le_of_mem (cs : List ListResult) :
    ∀ c ∈ cs, c.height ≤ heightOfList cs := by
  induction cs with
  | nil => intro c hc; simp at hc
  | cons d rest ih =>
    intro c hc
    simp only [heightOfList]
    rcases List.mem_cons.mp hc with rfl | hc
    · exact Nat.le_max_left _ _
    · exact Nat.le_trans (ih c hc) (Nat.le_max_right _ _)

/-- With nobody cancelling and a non-nil status callback, the upload step
keeps the flag down and the status as it was, and issues no `RepairRequired`
call. -/
theorem repairFileUpload_checked (a : Env) (hquiet : a.neverCancels) (file : ListResult)
    (lp : String) (s : Run) (hf : s.r.isRepairCanceled = false) (hcb : s.r.statusCB = true) :
    (repairFileUpload a file lp s).r.isRepairCanceled = false ∧
    (repairFileUpload a file lp s).r.statusCB = true ∧
    (repairFileUpload a file lp s).status = s.status ∧
    ∃ t, (repairFileUpload a file lp s).trace = s.trace ++ t ∧ checkedPaths t = [] := by
  have hc : (a.RepairFile s.trace lp file.Path).cancel = false := hquiet.2.2.2 _ _ _
  refine repairFileUpload_cases a file lp s
    (fun s' => s'.r.isRepairCanceled = false ∧ s'.r.statusCB = true ∧ s'.status = s.status ∧
      ∃ t, s'.trace = s.trace ++ t ∧ checkedPaths t = []) ?_ ?_ ?_ ?_
  · intro h; rw [hf] at h; exact Bool.noConfusion h
  · intro _ _
    exact ⟨by simp [hc, hf], by simp [hcb], by simp, _, afterRepairFile_trace a file lp s,
      by simp [hc, checkedPaths]⟩
  · intro _ _ _ _
    exact ⟨by simp [hc, hf], by simp [hcb], by simp, _, afterRepairFile_trace a file lp s,
      by simp [hc, checkedPaths]⟩
  · intro _ _ h; rw [hcb] at h; exact Bool.noConfusion h

/-- With nobody cancelling and a non-nil status callback, `repairFile` keeps
the flag down and the status as it was, and issues exactly one
`RepairRequired` call, for this file. -/
theorem repairFile_checked (a : Env) (hquiet : a.neverCancels) (file : ListResult)
    (s : Run) (hf : s.r.isRepairCanceled = false) (hcb : s.r.statusCB = true) :
    (repairFile a file s).r.isRepairCanceled = false ∧
    (repairFile a file s).r.statusCB = true ∧
    (repairFile a file s).status = s.status ∧
    ∃ t, (repairFile a file s).trace = s.trace ++ t ∧ checkedPaths t = [file.Path] := by
  have hc : (a.RepairRequired s.trace file.Path).cancel = false := hquiet.2.1 _ _
  have hf2 : (afterRepairRequired a file s).r.isRepairCanceled = false := by simp [hc, hf]
  have hcb2 : (afterRepairRequired a file s).r.statusCB = true := by simp [hcb]
  have hrr : checkedPaths (Event.RepairRequired file.Path
      (a.RepairRequired s.trace file.Path).required (a.RepairRequired s.trace file.Path).err ::
      (if (a.RepairRequired s.trace file.Path).cancel then [Event.cancelSignalled] else []))
      = [file.Path] := by
    simp [hc, checkedPaths]
  have hdc : (a.DownloadFile (afterRepairRequired a file s).trace (getLocalPath s.r file)
      file.Path).cancel = false := hquiet.2.2.1 _ _ _
  have hf3 : (afterDownloadFile a file (getLocalPath s.r file)
      (afterRepairRequired a file s)).r.isRepairCanceled = false := by
    rw [afterDownloadFile_flag, hdc, hf2]; rfl
  have hcb3 : (afterDownloadFile a file (getLocalPath s.r file)
      (afterRepairRequired a file s)).r.statusCB = true := by simp [hcb]
  have hdl : checkedPaths (Event.DownloadFile (getLocalPath s.r file) file.Path
      (a.DownloadFile (afterRepairRequired a file s).trace (getLocalPath s.r file) file.Path).err
      (a.DownloadFile (afterRepairRequired a file s).trace (getLocalPath s.r file)
        file.Path).success ::
      (if (a.DownloadFile (afterRepairRequired a file s).trace (getLocalPath s.r file)
        file.Path).cancel then [Event.cancelSignalled] else [])) = [] := by
    simp [hdc, checkedPaths]
  refine repairFile_cases a file s
    (fun s' => s'.r.isRepairCanceled = false ∧ s'.r.statusCB = true ∧ s'.status = s.status ∧
      ∃ t, s'.trace = s.trace ++ t ∧ checkedPaths t = [file.Path]) ?_ ?_ ?_ ?_ ?_ ?_ ?_
  · intro h; rw [hf] at h; exact Bool.noConfusion h
  · intro _ _
    exact ⟨hf2, hcb2, by simp, _, afterRepairRequired_trace a file s, hrr⟩
  · intro _ _ _ _ h; rw [hf2] at h; exact Bool.noConfusion h
  · intro _ _ _ _ _ _
    refine ⟨hf3, hcb3, by simp, _, trace_append_trans (afterRepairRequired_trace a file s)
      (afterDownloadFile_trace a file _ _), ?_⟩
    rw [checkedPaths_append, hrr, hdl]; rfl
  · intro _ _ _ _ _ _ _ _
    obtain ⟨h1, h1b, h2, t, ht, hcp⟩ := repairFileUpload_checked a hquiet file
      (getLocalPath s.r file)
      (afterDownloadFile a file (getLocalPath s.r file) (afterRepairRequired a file s)) hf3 hcb3
    refine ⟨h1, h1b, by simp [h2], _, trace_append_trans (trace_append_trans
      (afterRepairRequired_trace a file s) (afterDownloadFile_trace a file _ _)) ht, ?_⟩
    rw [checkedPaths_append, checkedPaths_append, hrr, hdl, hcp]; rfl
  · intro _ _ _ _
    obtain ⟨h1, h1b, h2, t, ht, hcp⟩ := repairFileUpload_checked a hquiet file
      (getLocalPath s.r file) (afterRepairRequired a file s) hf2 hcb2
    refine ⟨h1, h1b, by simp [h2], _,
      trace_append_trans (afterRepairRequired_trace a file s) ht, ?_⟩
    rw [checkedPaths_append, hrr, hcp]; rfl
  · intro _ _ _ _ _ _ h; rw [hcb] at h; exact Bool.noConfusion h

/-- Running `repairFile` on a list of files one after the other, with nobody
cancelling and a non-nil status callback: the flag stays down, the status
stays as it was, and the `RepairRequired` calls are the files of the list in
order. -/
theorem foldl_repairFile_checked (a : Env) (hquiet : a.neverCancels) (fs : List ListResult) :
    ∀ s : Run, s.r.isRepairCanceled = false → s.r.statusCB = true →
      (fs.foldl (fun acc file => repairFile a file acc) s).r.isRepairCanceled = false ∧
      (fs.foldl (fun acc file => repairFile a file acc) s).r.statusCB = true ∧
      (fs.foldl (fun acc file => repairFile a file acc) s).status = s.status ∧
      ∃ t, (fs.foldl (fun acc file => repairFile a file acc) s).trace = s.trace ++ t ∧
        checkedPaths t = fs.map ListResult.Path := by
  induction fs with
  | nil => intro s hf hcb; exact ⟨hf, hcb, rfl, [], by simp, rfl⟩
  | cons f rest ih =>
    intro s hf hcb
    obtain ⟨h1, h1b, h2, t1, ht1, hcp1⟩ := repairFile_checked a hquiet f s hf hcb
    obtain ⟨h3, h3b, h4, t2, ht2, hcp2⟩ := ih (repairFile a f s) h1 h1b
    refine ⟨h3, h3b, h4.trans h2, t1 ++ t2, trace_append_trans ht1 ht2, ?_⟩
    rw [checkedPaths_append, hcp1, hcp2]; rfl

/-- The child loop amounts to running `repairFile` on the FILE nodes of all
children, left to right, when each visit does so for its child. -/
theorem forChildren_fold (a : Env) (hquiet : a.neverCancels)
    (visit : ListResult → Run → Run) (cs : List ListResult)
    (hvisit : ∀ c ∈ cs, ∀ s, s.r.isRepairCanceled = false → s.r.statusCB = true →
      s.status = Status.ok →
      visit c s = c.fileNodes.foldl (fun acc file => repairFile a file acc) s) :
    ∀ s, s.r.isRepairCanceled = false → s.r.statusCB = true → s.status = Status.ok →
      forChildren visit cs s
        = (fileNodesOfList cs).foldl (fun acc file => repairFile a file acc) s := by
  induction cs with
  | nil => intro s _ _ _; rfl
  | cons c rest ih =>
    intro s hf hcb hs
    have hv := hvisit c (List.mem_cons_self c rest) s hf hcb hs
    obtain ⟨h1, h1b, h2, -⟩ := foldl_repairFile_checked a hquiet c.fileNodes s hf hcb
    rw [← hv] at h1 h1b h2
    have hstep : forChildren visit (c :: rest) s = forChildren visit rest (visit c s) := by
      rw [forChildren, checkForCancel_running s hf]
      simp only [h2, hs, if_true]
    rw [hstep, ih (fun c' hc' => hvisit c' (List.mem_cons_of_mem c hc')) (visit c s) h1 h1b
      (h2.trans hs), hv, fileNodesOfList, List.foldl_append]

/-- With known children, enough fuel, a non-nil status callback and nobody
cancelling, `iterateDir` is `repairFile` run on each FILE node of the tree in
depth-first order. -/
theorem iterateDir_fold (a : Env) (hquiet : a.neverCancels) :
    ∀ (fuel : Nat) (dir : ListResult) (s : Run), dir.childrenKnown = true → dir.height ≤ fuel →
      s.r.isRepairCanceled = false → s.r.statusCB = true → s.status = Status.ok →
      iterateDir a fuel dir s = dir.fileNodes.foldl (fun acc file => repairFile a file acc) s := by
  intro fuel
  induction fuel with
  | zero =>
    intro dir s _ hh _ _ _
    cases dir with
    | mk ty p cs => simp [ListResult.height] at hh
  | succ fuel ih =>
    intro dir s hk hh hf hcb hs
    cases dir with
    | mk ty p cs =>
      cases ty with
      | FILE => rfl
      | other tag => rfl
      | DIRECTORY =>
        simp only [ListResult.childrenKnown, Bool.and_eq_true, Bool.not_eq_true',
          List.isEmpty_eq_false] at hk
        have hne : ¬ cs.length = 0 := by
          intro h0
          exact hk.1 (List.length_eq_zero.mp h0)
        have hstep : iterateDir a (fuel + 1) (ListResult.mk RefType.DIRECTORY p cs) s
            = forChildren (iterateDir a fuel) cs s := by
          simp [iterateDir, ListResult.Type_, ListResult.Children, hne]
        simp only [ListResult.height, Nat.add_le_add_iff_right] at hh
        rw [hstep, ListResult.fileNodes]
        exact forChildren_fold a hquiet (iterateDir a fuel) cs
          (fun c hc s' hf' hcb' hs' => ih c s' (childrenKnown_of_mem cs hk.2 c hc)
            (Nat.le_trans (height_le_of_mem cs c hc) hh) hf' hcb' hs') s hf hcb hs

/-- With a non-nil status callback the walk reaches every file: for a tree
whose DIRECTORY nodes all have a non-empty `Children` list, with nobody
cancelling, and whatever `RepairRequired`, `DownloadFile` and `RepairFile`
answer on the individual files, `iterateDir` (given fuel for the height of the
tree) returns normally and is exactly `repairFile` invoked on each FILE node of
the tree, one after the other, in depth-first order with children in listing
order; the `RepairRequired` calls it issues are the paths of those nodes in
that order. -/
theorem iterateDir_with_callback_visits_every_file (a : Env) (fuel : Nat) (dir : ListResult)
    (s : Run) (hknown : dir.childrenKnown = true) (hfuel : dir.height ≤ fuel)
    (hquiet : a.neverCancels) (hcb : s.r.statusCB = true)
    (hflag : s.r.isRepairCanceled = false) (hstatus : s.status = Status.ok) :
    iterateDir a fuel dir s = dir.fileNodes.foldl (fun acc file => repairFile a file acc) s ∧
    (iterateDir a fuel dir s).status = Status.ok ∧
    ∃ t, (iterateDir a fuel dir s).trace = s.trace ++ t ∧
      checkedPaths t = dir.fileNodes.map ListResult.Path := by
  have heq := iterateDir_fold a hquiet fuel dir s hknown hfuel hflag hcb hstatus
  obtain ⟨-, -, h2, t, ht, hcp⟩ := foldl_repairFile_checked a hquiet dir.fileNodes s hflag hcb
  rw [← heq] at h2 ht
  exact ⟨heq, h2.trans hstatus, t, ht, hcp⟩

/-- C5 (defect in the code). A root directory with two files, known children,
nobody cancelling, no status callback on the request (the guards of
`processRepair` and `checkForCancel` admit that).  Both files need repair,
have no local copy, and their transfers would complete.  The download of the
first file is accepted, but the wrapper built around the nil callback can
never release the wait, so the walk stops inside `repairFile` for `/a.txt`:
`/b.txt` is never handed to `repairFile` (no `RepairRequired` call for it). -/
theorem iterateDir_nil_callback_stops_walk :
    twoFiles.childrenKnown = true ∧
    envAllRepaired.neverCancels ∧
    (startRun requestNoCallback).r.isRepairCanceled = false ∧
    (startRun requestNoCallback).r.statusCB = false ∧
    twoFiles.fileNodes.map ListResult.Path = ["/a.txt", "/b.txt"] ∧
    (iterateDir envAllRepaired 2 twoFiles (startRun requestNoCallback)).trace
        = [Event.RepairRequired "/a.txt" true false,
           Event.DownloadFile "/mirror/a.txt" "/a.txt" false true] ∧
    (iterateDir envAllRepaired 2 twoFiles (startRun requestNoCallback)).status
        = Status.halted ∧
    checkedPaths (iterateDir envAllRepaired 2 twoFiles (startRun requestNoCallback)).trace
        = ["/a.txt"] :=
  ⟨by decide, ⟨fun _ _ => rfl, fun _ _ => rfl, fun _ _ _ => rfl, fun _ _ _ => rfl⟩,
    rfl, rfl, by decide, by decide, by decide, by decide⟩

/-! ## Repair from an existing local copy -/

/-- C11. When the cancellation flag is not set (neither on entry nor raised
while `RepairRequired` is in flight), repair is required and a local copy
exists at localRootPath + file.Path, `repairFile` issues, right after
`RepairRequired`, one `RepairFile` call with that local path and the file's
remote path; nothing else it does is a `RepairFile` or a `DownloadFile`
call. -/
theorem repairFile_local_copy (a : Env) (file : ListResult) (s : Run)
    (hflag : s.r.isRepairCanceled = false)
    (herr : (a.RepairRequired s.trace file.Path).err = false)
    (hreq : (a.RepairRequired s.trace file.Path).required = true)
    (hquiet : (a.RepairRequired s.trace file.Path).cancel = false)
    (hlocal : checkFileExists
      (a.Stat (afterRepairRequired a file s).trace (s.r.localRootPath ++ file.Path)) = true) :
    ∃ t, (repairFile a file s).trace = s.trace ++
        [Event.RepairRequired file.Path true false,
         Event.RepairFile (s.r.localRootPath ++ file.Path) file.Path
          (a.RepairFile (afterRepairRequired a file s).trace
            (s.r.localRootPath ++ file.Path) file.Path).err
          (a.RepairFile (afterRepairRequired a file s).trace
            (s.r.localRootPath ++ file.Path) file.Path).success] ++ t ∧
      ∀ e ∈ t, e.isRepairFile = false ∧ e.isDownloadFile = false := by
  have hrr : (afterRepairRequired a file s).trace
      = s.trace ++ [Event.RepairRequired file.Path true false] := by
    rw [afterRepairRequired_trace, herr, hreq, hquiet]; rfl
  have hf2 : (afterRepairRequired a file s).r.isRepairCanceled = false := by
    simp [hquiet, hflag]
  have hcontra : ∀ x : Bool, x = true → x = false → False := by
    intro x h1 h2; rw [h1] at h2; exact Bool.noConfusion h2
  have hgl : getLocalPath s.r file = s.r.localRootPath ++ file.Path := rfl
  have hup : ∃ t, (repairFileUpload a file (s.r.localRootPath ++ file.Path)
        (afterRepairRequired a file s)).trace = s.trace ++
        [Event.RepairRequired file.Path true false,
         Event.RepairFile (s.r.localRootPath ++ file.Path) file.Path
          (a.RepairFile (afterRepairRequired a file s).trace
            (s.r.localRootPath ++ file.Path) file.Path).err
          (a.RepairFile (afterRepairRequired a file s).trace
            (s.r.localRootPath ++ file.Path) file.Path).success] ++ t ∧
      ∀ e ∈ t, e.isRepairFile = false ∧ e.isDownloadFile = false := by
    have hshape : ∃ t, (afterRepairFile a file (s.r.localRootPath ++ file.Path)
          (afterRepairRequired a file s)).trace = s.trace ++
          [Event.RepairRequired file.Path true false,
           Event.RepairFile (s.r.localRootPath ++ file.Path) file.Path
            (a.RepairFile (afterRepairRequired a file s).trace
              (s.r.localRootPath ++ file.Path) file.Path).err
            (a.RepairFile (afterRepairRequired a file s).trace
              (s.r.localRootPath ++ file.Path) file.Path).success] ++ t ∧
        ∀ e ∈ t, e.isRepairFile = false ∧ e.isDownloadFile = false := by
      refine ⟨if (a.RepairFile (afterRepairRequired a file s).trace
          (s.r.localRootPath ++ file.Path) file.Path).cancel then [Event.cancelSignalled]
          else [], ?_, ?_⟩
      · rw [afterRepairFile_trace, hrr]; simp
      · split_ifs <;> simp [Event.isRepairFile, Event.isDownloadFile]
    refine repairFileUpload_cases a file (s.r.localRootPath ++ file.Path)
      (afterRepairRequired a file s)
      (fun s' => ∃ t, s'.trace = s.trace ++
        [Event.RepairRequired file.Path true false,
         Event.RepairFile (s.r.localRootPath ++ file.Path) file.Path
          (a.RepairFile (afterRepairRequired a file s).trace
            (s.r.localRootPath ++ file.Path) file.Path).err
          (a.RepairFile (afterRepairRequired a file s).trace
            (s.r.localRootPath ++ file.Path) file.Path).success] ++ t ∧
        ∀ e ∈ t, e.isRepairFile = false ∧ e.isDownloadFile = false) ?_ ?_ ?_ ?_
    · intro h; exact (hcontra _ h hf2).elim
    · intro _ _; exact hshape
    · intro _ _ _ _
      obtain ⟨t, ht, hq⟩ := hshape
      exact ⟨t, by rw [countRepaired_trace]; exact ht, hq⟩
    · intro _ _ _
      obtain ⟨t, ht, hq⟩ := hshape
      exact ⟨t, by rw [halt_trace]; exact ht, hq⟩
  refine repairFile_cases a file s
    (fun s' => ∃ t, s'.trace = s.trace ++
        [Event.RepairRequired file.Path true false,
         Event.RepairFile (s.r.localRootPath ++ file.Path) file.Path
          (a.RepairFile (afterRepairRequired a file s).trace
            (s.r.localRootPath ++ file.Path) file.Path).err
          (a.RepairFile (afterRepairRequired a file s).trace
            (s.r.localRootPath ++ file.Path) file.Path).success] ++ t ∧
      ∀ e ∈ t, e.isRepairFile = false ∧ e.isDownloadFile = false) ?_ ?_ ?_ ?_ ?_ ?_ ?_
  · intro h; exact (hcontra _ h hflag).elim
  · intro _ h
    rcases h with h | h
    · exact (hcontra _ h herr).elim
    · exact (hcontra _ hreq h).elim
  · intro _ _ _ h; rw [hgl] at h; exact (hcontra _ hlocal h).elim
  · intro _ _ _ h; rw [hgl] at h; exact (hcontra _ hlocal h).elim
  · intro _ _ _ h; rw [hgl] at h; exact (hcontra _ hlocal h).elim
  · intro _ _ _ _
    rw [hgl]; exact hup
  · intro _ _ _ h; rw [hgl] at h; exact (hcontra _ hlocal h).elim

/-- Witness for C11: a file that needs repair and has a local copy. -/
theorem repairFile_local_copy_witness :
    ((startRun (freshRequest twoFiles)).r.isRepairCanceled = false ∧
      (envLocalCopies.RepairRequired (startRun (freshRequest twoFiles)).trace
        (fileNode "/a.txt").Path).err = false ∧
      (envLocalCopies.RepairRequired (startRun (freshRequest twoFiles)).trace
        (fileNode "/a.txt").Path).required = true ∧
      (envLocalCopies.RepairRequired (startRun (freshRequest twoFiles)).trace
        (fileNode "/a.txt").Path).cancel = false ∧
      checkFileExists (envLocalCopies.Stat (afterRepairRequired envLocalCopies (fileNode "/a.txt")
          (startRun (freshRequest twoFiles))).trace
        ((startRun (freshRequest twoFiles)).r.localRootPath ++ (fileNode "/a.txt").Path)) = true) ∧
    ∃ t, (repairFile envLocalCopies (fileNode "/a.txt") (startRun (freshRequest twoFiles))).trace
        = (startRun (freshRequest twoFiles)).trace ++
        [Event.RepairRequired (fileNode "/a.txt").Path true false,
         Event.RepairFile ((startRun (freshRequest twoFiles)).r.localRootPath ++
            (fileNode "/a.txt").Path) (fileNode "/a.txt").Path
          (envLocalCopies.RepairFile (afterRepairRequired envLocalCopies (fileNode "/a.txt")
              (startRun (freshRequest twoFiles))).trace
            ((startRun (freshRequest twoFiles)).r.localRootPath ++ (fileNode "/a.txt").Path)
            (fileNode "/a.txt").Path).err
          (envLocalCopies.RepairFile (afterRepairRequired envLocalCopies (fileNode "/a.txt")
              (startRun (freshRequest twoFiles))).trace
            ((startRun (freshRequest twoFiles)).r.localRootPath ++ (fileNode "/a.txt").Path)
            (fileNode "/a.txt").Path).success] ++ t ∧
      ∀ e ∈ t, e.isRepairFile = false ∧ e.isDownloadFile = false :=
  ⟨⟨rfl, rfl, rfl, rfl, rfl⟩,
    repairFile_local_copy envLocalCopies (fileNode "/a.txt")
      (startRun (freshRequest twoFiles)) rfl rfl rfl rfl rfl⟩

/-! ## Cancellation while a transfer is in flight -/

/-- C12, as stated, fails for `RepairFile`: the file needs repair and has a
local copy, cancellation is signalled while its `RepairFile` call is in
flight, the call completes with success, and `filesRepaired` is incremented
all the same (there is no cancel check between the wait and the increment). -/
theorem repairFile_counts_repair_finished_during_cancel :
    (envCancelDuringRepair.RepairFile [Event.RepairRequired "/a.txt" true false]
        "/mirror/a.txt" "/a.txt").cancel = true ∧
    (repairFile envCancelDuringRepair (fileNode "/a.txt")
        (startRun (freshRequest twoFiles))).trace
      = [Event.RepairRequired "/a.txt" true false,
         Event.RepairFile "/mirror/a.txt" "/a.txt" false true, Event.cancelSignalled] ∧
    (startRun (freshRequest twoFiles)).r.filesRepaired = 0 ∧
    (repairFile envCancelDuringRepair (fileNode "/a.txt")
        (startRun (freshRequest twoFiles))).r.filesRepaired = 1 := by
  decide

/-- C12, amended. With the flag down on entry: if the flag is raised while
the file's `DownloadFile` call is in flight, the result of that call is
discarded when it completes, `repairFile` issues no further call on the
allocation (in particular no `RepairFile`) and `filesRepaired` is not
incremented.  If the flag is raised while the `RepairFile` call (lines 153-171,
entered with the flag down) is in flight, the result of that call is still
used: `filesRepaired` is incremented exactly when the call returned no error
and the wait ended with the success flag set (a wait ends only when the
status callback is non-nil). -/
theorem repairFile_cancel_in_flight (a : Env) (file : ListResult) (s : Run)
    (hflag : s.r.isRepairCanceled = false) :
    ((a.RepairRequired s.trace file.Path).err = false →
      (a.RepairRequired s.trace file.Path).required = true →
      (a.RepairRequired s.trace file.Path).cancel = false →
      checkFileExists
        (a.Stat (afterRepairRequired a file s).trace (s.r.localRootPath ++ file.Path)) = false →
      (a.DownloadFile (afterRepairRequired a file s).trace
        (s.r.localRootPath ++ file.Path) file.Path).cancel = true →
      (∃ t, (repairFile a file s).trace = s.trace ++
          [Event.RepairRequired file.Path true false,
           Event.DownloadFile (s.r.localRootPath ++ file.Path) file.Path
            (a.DownloadFile (afterRepairRequired a file s).trace
              (s.r.localRootPath ++ file.Path) file.Path).err
            (a.DownloadFile (afterRepairRequired a file s).trace
              (s.r.localRootPath ++ file.Path) file.Path).success,
           Event.cancelSignalled] ++ t ∧
          ∀ e ∈ t, e.isNetwork = false) ∧
        (repairFile a file s).r.filesRepaired = s.r.filesRepaired) ∧
    (∀ lp, (a.RepairFile s.trace lp file.Path).cancel = true →
      (repairFileUpload a file lp s).r.isRepairCanceled = true ∧
      (repairFileUpload a file lp s).r.filesRepaired = s.r.filesRepaired +
        (if (a.RepairFile s.trace lp file.Path).err = false ∧
            (a.RepairFile s.trace lp file.Path).success = true ∧
            s.r.statusCB = true then 1 else 0)) := by
  have hcontra : ∀ x : Bool, x = true → x = false → False := by
    intro x h1 h2; rw [h1] at h2; exact Bool.noConfusion h2
  have hgl : getLocalPath s.r file = s.r.localRootPath ++ file.Path := rfl
  constructor
  · intro herr hreq hquiet hlocal hcancel
    have hrr : (afterRepairRequired a file s).trace
        = s.trace ++ [Event.RepairRequired file.Path true false] := by
      rw [afterRepairRequired_trace, herr, hreq, hquiet]; rfl
    have hf2 : (afterRepairRequired a file s).r.isRepairCanceled = false := by
      simp [hquiet, hflag]
    have hdl : (afterDownloadFile a file (s.r.localRootPath ++ file.Path)
        (afterRepairRequired a file s)).trace = s.trace ++
          [Event.RepairRequired file.Path true false,
           Event.DownloadFile (s.r.localRootPath ++ file.Path) file.Path
            (a.DownloadFile (afterRepairRequired a file s).trace
              (s.r.localRootPath ++ file.Path) file.Path).err
            (a.DownloadFile (afterRepairRequired a file s).trace
              (s.r.localRootPath ++ file.Path) file.Path).success,
           Event.cancelSignalled] := by
      rw [afterDownloadFile_trace, hcancel, hrr]; simp
    have hf3 : (afterDownloadFile a file (s.r.localRootPath ++ file.Path)
        (afterRepairRequired a file s)).r.isRepairCanceled = true := by
      rw [afterDownloadFile_flag, hcancel]; rfl
    refine repairFile_cases a file s
      (fun s' => (∃ t, s'.trace = s.trace ++
          [Event.RepairRequired file.Path true false,
           Event.DownloadFile (s.r.localRootPath ++ file.Path) file.Path
            (a.DownloadFile (afterRepairRequired a file s).trace
              (s.r.localRootPath ++ file.Path) file.Path).err
            (a.DownloadFile (afterRepairRequired a file s).trace
              (s.r.localRootPath ++ file.Path) file.Path).success,
           Event.cancelSignalled] ++ t ∧
          ∀ e ∈ t, e.isNetwork = false) ∧
        s'.r.filesRepaired = s.r.filesRepaired) ?_ ?_ ?_ ?_ ?_ ?_ ?_
    · intro h; exact (hcontra _ h hflag).elim
    · intro _ h
      rcases h with h | h
      · exact (hcontra _ h herr).elim
      · exact (hcontra _ hreq h).elim
    · intro _ _ _ _ h; exact (hcontra _ h hf2).elim
    · intro _ _ _ _ _ _
      rw [hgl]
      exact ⟨⟨[], by rw [hdl]; simp, by simp⟩, by simp⟩
    · intro _ _ _ _ _ _ _ _
      rw [hgl]
      refine repairFileUpload_cases a file (s.r.localRootPath ++ file.Path)
        (afterDownloadFile a file (s.r.localRootPath ++ file.Path) (afterRepairRequired a file s))
        (fun s' => (∃ t, s'.trace = s.trace ++
          [Event.RepairRequired file.Path true false,
           Event.DownloadFile (s.r.localRootPath ++ file.Path) file.Path
            (a.DownloadFile (afterRepairRequired a file s).trace
              (s.r.localRootPath ++ file.Path) file.Path).err
            (a.DownloadFile (afterRepairRequired a file s).trace
              (s.r.localRootPath ++ file.Path) file.Path).success,
           Event.cancelSignalled] ++ t ∧
          ∀ e ∈ t, e.isNetwork = false) ∧
          s'.r.filesRepaired = s.r.filesRepaired) ?_ ?_ ?_ ?_
      · intro _
        refine ⟨⟨_, by rw [checkForCancel_trace, hdl], ?_⟩, by simp⟩
        split_ifs <;> simp [Event.isNetwork]
      · intro h; exact (hcontra _ hf3 h).elim
      · intro h; exact (hcontra _ hf3 h).elim
      · intro h; exact (hcontra _ hf3 h).elim
    · intro _ _ _ h
      rw [hgl] at h
      exact (hcontra _ h hlocal).elim
    · intro _ _ _ _ _ _ _
      rw [hgl]
      exact ⟨⟨[], by rw [halt_trace, hdl]; simp, by simp⟩, by simp⟩
  · intro lp hcancel
    refine repairFileUpload_cases a file lp s
      (fun s' => s'.r.isRepairCanceled = true ∧
        s'.r.filesRepaired = s.r.filesRepaired +
          (if (a.RepairFile s.trace lp file.Path).err = false ∧
              (a.RepairFile s.trace lp file.Path).success = true ∧
              s.r.statusCB = true then 1 else 0)) ?_ ?_ ?_ ?_
    · intro h; exact (hcontra _ h hflag).elim
    · intro _ hfail
      refine ⟨by simp [hcancel], ?_⟩
      rcases hfail with h | h <;> simp [h]
    · intro _ he hs hcb
      exact ⟨by simp [hcancel], by simp [he, hs, hcb]⟩
    · intro _ _ hcb
      exact ⟨by simp [hcancel], by simp [hcb]⟩

/-- Witness for C12 (amended): cancellation is signalled while the download
of a file without a local copy is in flight; the download succeeds, its
result is dropped and nothing is counted. -/
theorem repairFile_cancel_in_flight_witness :
    ((startRun (freshRequest twoFiles)).r.isRepairCanceled = false ∧
      (envCancelDuringDownload.RepairRequired (startRun (freshRequest twoFiles)).trace
        (fileNode "/a.txt").Path).err = false ∧
      (envCancelDuringDownload.RepairRequired (startRun (freshRequest twoFiles)).trace
        (fileNode "/a.txt").Path).required = true ∧
      (envCancelDuringDownload.RepairRequired (startRun (freshRequest twoFiles)).trace
        (fileNode "/a.txt").Path).cancel = false ∧
      checkFileExists (envCancelDuringDownload.Stat
        (afterRepairRequired envCancelDuringDownload (fileNode "/a.txt")
          (startRun (freshRequest twoFiles))).trace
        ((startRun (freshRequest twoFiles)).r.localRootPath ++ (fileNode "/a.txt").Path)) = false ∧
      (envCancelDuringDownload.DownloadFile
        (afterRepairRequired envCancelDuringDownload (fileNode "/a.txt")
          (startRun (freshRequest twoFiles))).trace
        ((startRun (freshRequest twoFiles)).r.localRootPath ++ (fileNode "/a.txt").Path)
        (fileNode "/a.txt").Path).cancel = true) ∧
    ((∃ t, (repairFile envCancelDuringDownload (fileNode "/a.txt")
          (startRun (freshRequest twoFiles))).trace
          = (startRun (freshRequest twoFiles)).trace ++
          [Event.RepairRequired (fileNode "/a.txt").Path true false,
           Event.DownloadFile ((startRun (freshRequest twoFiles)).r.localRootPath ++
              (fileNode "/a.txt").Path) (fileNode "/a.txt").Path
            (envCancelDuringDownload.DownloadFile
              (afterRepairRequired envCancelDuringDownload (fileNode "/a.txt")
                (startRun (freshRequest twoFiles))).trace
              ((startRun (freshRequest twoFiles)).r.localRootPath ++ (fileNode "/a.txt").Path)
              (fileNode "/a.txt").Path).err
            (envCancelDuringDownload.DownloadFile
              (afterRepairRequired envCancelDuringDownload (fileNode "/a.txt")
                (startRun (freshRequest twoFiles))).trace
              ((startRun (freshRequest twoFiles)).r.localRootPath ++ (fileNode "/a.txt").Path)
              (fileNode "/a.txt").Path).success,
           Event.cancelSignalled] ++ t ∧
          ∀ e ∈ t, e.isNetwork = false) ∧
      (repairFile envCancelDuringDownload (fileNode "/a.txt")
        (startRun (freshRequest twoFiles))).r.filesRepaired
        = (startRun (freshRequest twoFiles)).r.filesRepaired) :=
  ⟨⟨rfl, rfl, rfl, rfl, rfl, rfl⟩,
    (repairFile_cancel_in_flight envCancelDuringDownload (fileNode "/a.txt")
      (startRun (freshRequest twoFiles)) rfl).1 rfl rfl rfl rfl rfl⟩

/-! ## The shape of a `processRepair` run -/

/-- A relation closed under the elementary steps of the walk, with no
condition on the flag at the listing fetch, holds across `iterateDir` from
any state. -/
theorem iterateDir_rel_any (a : Env) (Q : Run → Run → Prop)
    (hrefl : ∀ s, Q s s) (htrans : ∀ s1 s2 s3, Q s1 s2 → Q s2 s3 → Q s1 s3)
    (hcheck : ∀ s, Q s (checkForCancel s).2)
    (hfile : ∀ file s, Q s (repairFile a file s))
    (hlist : ∀ p s,
      Q s (s.call (Event.ListDir p (a.ListDir s.trace p).listing.isSome (a.ListDir s.trace p).err)
        (a.ListDir s.trace p).cancel))
    (hstatus : ∀ s st, Q s { s with status := st }) :
    ∀ fuel dir s, Q s (iterateDir a fuel dir s) := by
  intro fuel
  induction fuel with
  | zero => intro dir s; exact hstatus s _
  | succ fuel ih =>
    intro dir s
    have hloop : ∀ cs s, Q s (forChildren (iterateDir a fuel) cs s) := fun cs s =>
      forChildren_rel Q hrefl htrans hcheck (iterateDir a fuel) cs (fun c _ s _ => ih c s) s
    unfold iterateDir
    cases dir.Type_ with
    | FILE => exact hfile dir s
    | other tag => exact hrefl s
    | DIRECTORY =>
      simp only
      split_ifs
      · have h1 := hlist dir.Path s
        cases hl : (a.ListDir s.trace dir.Path).listing with
        | none =>
          cases he : (a.ListDir s.trace dir.Path).err <;>
          · simp only [hl, he] at h1 ⊢
            exact htrans _ _ _ h1 (hstatus _ _)
        | some fetched =>
          cases he : (a.ListDir s.trace dir.Path).err
          · simp only [hl, he] at h1 ⊢
            exact htrans _ _ _ h1 (hloop _ _)
          · simp only [hl, he] at h1 ⊢
            exact h1
      · exact hloop _ _

/-- The run of `processRepair` on an already cancelled request. -/
theorem processRepair_of_cancelled (a : Env) (fuel : Nat) (r : RepairRequest)
    (hf : r.isRepairCanceled = true) :
    processRepair a fuel r =
      if r.completedCallback = true then
        (checkForCancel (startRun r)).2.emit Event.completedCallback
      else (checkForCancel (startRun r)).2 := by
  unfold processRepair
  simp only
  rw [show checkForCancel { r := r, trace := [], status := Status.ok }
    = (true, (checkForCancel (startRun r)).2) from checkForCancel_cancelled (startRun r) hf]
  simp [startRun]

theorem afterWalk_r (a : Env) (fuel : Nat) (r : RepairRequest) :
    (afterWalk a fuel r).r = (iterateDir a fuel r.listDir (startRun r)).r := by
  unfold afterWalk; split_ifs <;> rfl

theorem afterWalk_status (a : Env) (fuel : Nat) (r : RepairRequest) :
    (afterWalk a fuel r).status = (iterateDir a fuel r.listDir (startRun r)).status := by
  unfold afterWalk; split_ifs <;> rfl

theorem afterWalk_trace (a : Env) (fuel : Nat) (r : RepairRequest) :
    ∃ t, (afterWalk a fuel r).trace = (iterateDir a fuel r.listDir (startRun r)).trace ++ t ∧
      ∀ e ∈ t, e.isRepairCompleted = true := by
  unfold afterWalk
  split_ifs
  · exact ⟨[_], rfl, by simp [Event.isRepairCompleted]⟩
  · exact ⟨[], by simp, by simp⟩
  · exact ⟨[], by simp, by simp⟩

/-- The run of `processRepair` on a request that is not cancelled on entry. -/
theorem processRepair_of_running (a : Env) (fuel : Nat) (r : RepairRequest)
    (hf : r.isRepairCanceled = false) :
    processRepair a fuel r =
      if r.completedCallback = true ∧
          ((afterWalk a fuel r).status = Status.ok ∨
            (afterWalk a fuel r).status = Status.panicked) then
        (afterWalk a fuel r).emit Event.completedCallback
      else afterWalk a fuel r := by
  unfold processRepair
  simp only
  rw [show checkForCancel { r := r, trace := [], status := Status.ok }
    = (false, startRun r) from checkForCancel_running (startRun r) hf]
  rfl

/-! ## The flag is never lowered -/

theorem flag_rel_call (a : Env) (s : Run) (e : Event) (c : Bool)
    (hc : a.neverCancels → c = false) :
    ((s.r.isRepairCanceled = true → (s.call e c).r.isRepairCanceled = true) ∧
      (a.neverCancels → (s.call e c).r.isRepairCanceled = s.r.isRepairCanceled)) := by
  refine ⟨fun h => by simp [h], fun h => by simp [hc h]⟩

/-- Across `repairFile` the flag is not lowered, and it changes only through
a cancellation signalled by the caller. -/
theorem repairFile_flag (a : Env) (file : ListResult) (s : Run) :
    (s.r.isRepairCanceled = true → (repairFile a file s).r.isRepairCanceled = true) ∧
    (a.neverCancels → (repairFile a file s).r.isRepairCanceled = s.r.isRepairCanceled) := by
  refine repairFile_rel a
    (fun s s' => (s.r.isRepairCanceled = true → s'.r.isRepairCanceled = true) ∧
      (a.neverCancels → s'.r.isRepairCanceled = s.r.isRepairCanceled))
    ?_ ?_ ?_ ?_ ?_ ?_ ?_ ?_ file s
  · intro s1 s2 s3 h12 h23
    exact ⟨fun h => h23.1 (h12.1 h), fun h => (h23.2 h).trans (h12.2 h)⟩
  · intro s; simp
  · intro file s _; exact flag_rel_call a s _ _ (fun h => h.2.1 _ _)
  · intro file lp s _; exact flag_rel_call a s _ _ (fun h => h.2.2.1 _ _ _)
  · intro file lp s _ _; exact flag_rel_call a s _ _ (fun h => h.2.2.2 _ _ _)
  · intro file lp s _ _ _ _
    have := flag_rel_call a s (Event.RepairFile lp file.Path
      (a.RepairFile s.trace lp file.Path).err (a.RepairFile s.trace lp file.Path).success)
      (a.RepairFile s.trace lp file.Path).cancel (fun h => h.2.2.2 _ _ _)
    exact this
  · intro file lp s _ _ _
    have := flag_rel_call a s (Event.DownloadFile lp file.Path
      (a.DownloadFile s.trace lp file.Path).err (a.DownloadFile s.trace lp file.Path).success)
      (a.DownloadFile s.trace lp file.Path).cancel (fun h => h.2.2.1 _ _ _)
    exact this
  · intro file lp s _ _ _
    have := flag_rel_call a s (Event.RepairFile lp file.Path
      (a.RepairFile s.trace lp file.Path).err (a.RepairFile s.trace lp file.Path).success)
      (a.RepairFile s.trace lp file.Path).cancel (fun h => h.2.2.2 _ _ _)
    exact this

/-- Across `iterateDir` the flag is not lowered, and it changes only through
a cancellation signalled by the caller. -/
theorem iterateDir_flag (a : Env) (fuel : Nat) (dir : ListResult) (s : Run) :
    (s.r.isRepairCanceled = true → (iterateDir a fuel dir s).r.isRepairCanceled = true) ∧
    (a.neverCancels → (iterateDir a fuel dir s).r.isRepairCanceled = s.r.isRepairCanceled) := by
  refine iterateDir_rel_any a
    (fun s s' => (s.r.isRepairCanceled = true → s'.r.isRepairCanceled = true) ∧
      (a.neverCancels → s'.r.isRepairCanceled = s.r.isRepairCanceled))
    ?_ ?_ ?_ (repairFile_flag a) ?_ ?_ fuel dir s
  · intro s; exact ⟨id, fun _ => rfl⟩
  · intro s1 s2 s3 h12 h23
    exact ⟨fun h => h23.1 (h12.1 h), fun h => (h23.2 h).trans (h12.2 h)⟩
  · intro s; simp
  · intro p s; exact flag_rel_call a s _ _ (fun h => h.1 _ _)
  · intro s st; exact ⟨id, fun _ => rfl⟩

/-- The request record at the end of `processRepair` is the one the walk
left, or the original one when the request was cancelled on entry. -/
theorem processRepair_r (a : Env) (fuel : Nat) (r : RepairRequest) :
    (processRepair a fuel r).r =
      if r.isRepairCanceled = true then r else (iterateDir a fuel r.listDir (startRun r)).r := by
  cases hf : r.isRepairCanceled
  · rw [processRepair_of_running a fuel r hf]
    simp only [Bool.false_eq_true, if_false]
    split_ifs
    · rw [emit_r, afterWalk_r]
    · rw [afterWalk_r]
  · rw [processRepair_of_cancelled a fuel r hf]
    simp only [if_true]
    split_ifs
    · rw [emit_r, checkForCancel_r]; rfl
    · rw [checkForCancel_r]; rfl

/-- C13. None of `checkForCancel`, `repairFile`, `iterateDir` and
`processRepair` resets `isRepairCanceled`: if it is true before the operation
it is true afterwards; and none of them writes the field: `checkForCancel`
leaves it as it is, and in a world where the caller never signals
cancellation the other three leave it as it is too. -/
theorem engine_never_resets_cancel_flag (a : Env) (fuel : Nat) (dir file : ListResult)
    (s : Run) (r : RepairRequest) :
    (checkForCancel s).2.r.isRepairCanceled = s.r.isRepairCanceled ∧
    ((s.r.isRepairCanceled = true → (repairFile a file s).r.isRepairCanceled = true) ∧
      (a.neverCancels → (repairFile a file s).r.isRepairCanceled = s.r.isRepairCanceled)) ∧
    ((s.r.isRepairCanceled = true → (iterateDir a fuel dir s).r.isRepairCanceled = true) ∧
      (a.neverCancels → (iterateDir a fuel dir s).r.isRepairCanceled = s.r.isRepairCanceled)) ∧
    ((r.isRepairCanceled = true → (processRepair a fuel r).r.isRepairCanceled = true) ∧
      (a.neverCancels → (processRepair a fuel r).r.isRepairCanceled = r.isRepairCanceled)) := by
  refine ⟨by simp, repairFile_flag a file s, iterateDir_flag a fuel dir s, ?_, ?_⟩
  · intro h
    rw [processRepair_r, if_pos h]; exact h
  · intro hq
    rw [processRepair_r]
    split_ifs
    · rfl
    · exact (iterateDir_flag a fuel r.listDir (startRun r)).2 hq

/-- Witness for C13: a request that is cancelled while the first `RepairFile`
call is in flight keeps the flag up to the end of `processRepair`, and an
already cancelled request stays cancelled. -/
theorem engine_never_resets_cancel_flag_witness :
    (processRepair envCancelDuringRepair 3 (freshRequest twoFiles)).r.isRepairCanceled = true ∧
    (cancelledRequest.isRepairCanceled = true →
      (processRepair envAllRepaired 3 cancelledRequest).r.isRepairCanceled = true) :=
  ⟨by decide,
    (engine_never_resets_cancel_flag envAllRepaired 3 twoFiles (fileNode "/a.txt")
      (startRun cancelledRequest) cancelledRequest).2.2.2.1⟩

/-! ## What the walk appends -/

theorem walk_rel_trans (s1 s2 s3 : Run)
    (h12 : ∃ t, s2.trace = s1.trace ++ t ∧ ∀ e ∈ t, e ≠ Event.completedCallback)
    (h23 : ∃ t, s3.trace = s2.trace ++ t ∧ ∀ e ∈ t, e ≠ Event.completedCallback) :
    ∃ t, s3.trace = s1.trace ++ t ∧ ∀ e ∈ t, e ≠ Event.completedCallback := by
  obtain ⟨t1, ht1, h1⟩ := h12
  obtain ⟨t2, ht2, h2⟩ := h23
  refine ⟨t1 ++ t2, trace_append_trans ht1 ht2, ?_⟩
  intro e he
  rcases List.mem_append.mp he with he | he
  · exact h1 e he
  · exact h2 e he

theorem walk_rel_check (s : Run) :
    ∃ t, (checkForCancel s).2.trace = s.trace ++ t ∧ ∀ e ∈ t, e ≠ Event.completedCallback := by
  refine ⟨_, checkForCancel_trace s, ?_⟩
  split_ifs <;> simp

theorem walk_rel_call (s : Run) (e : Event) (c : Bool) (he : e ≠ Event.completedCallback) :
    ∃ t, (s.call e c).trace = s.trace ++ t ∧ ∀ e ∈ t, e ≠ Event.completedCallback := by
  refine ⟨_, call_trace s e c, ?_⟩
  cases c <;> simp [he]

/-- The walk only appends to the trace, and never the completion callback. -/
theorem iterateDir_appends (a : Env) (fuel : Nat) (dir : ListResult) (s : Run) :
    ∃ t, (iterateDir a fuel dir s).trace = s.trace ++ t ∧
      ∀ e ∈ t, e ≠ Event.completedCallback := by
  refine iterateDir_rel_any a
    (fun s s' => ∃ t, s'.trace = s.trace ++ t ∧ ∀ e ∈ t, e ≠ Event.completedCallback)
    ?_ walk_rel_trans walk_rel_check ?_ ?_ ?_ fuel dir s
  · intro s; exact ⟨[], by simp, by simp⟩
  · intro file s
    refine repairFile_rel a
      (fun s s' => ∃ t, s'.trace = s.trace ++ t ∧ ∀ e ∈ t, e ≠ Event.completedCallback)
      walk_rel_trans walk_rel_check ?_ ?_ ?_ ?_ ?_ ?_ file s
    · intro file s _; exact walk_rel_call s _ _ (by simp)
    · intro file lp s _; exact walk_rel_call s _ _ (by simp)
    · intro file lp s _ _; exact walk_rel_call s _ _ (by simp)
    · intro file lp s _ _ _ _
      obtain ⟨t, h1, h2⟩ := walk_rel_call s
        (Event.RepairFile lp file.Path (a.RepairFile s.trace lp file.Path).err
          (a.RepairFile s.trace lp file.Path).success)
        (a.RepairFile s.trace lp file.Path).cancel (by simp)
      exact ⟨t, h1, h2⟩
    · intro file lp s _ _ _
      obtain ⟨t, h1, h2⟩ := walk_rel_call s
        (Event.DownloadFile lp file.Path (a.DownloadFile s.trace lp file.Path).err
          (a.DownloadFile s.trace lp file.Path).success)
        (a.DownloadFile s.trace lp file.Path).cancel (by simp)
      exact ⟨t, h1, h2⟩
    · intro file lp s _ _ _
      obtain ⟨t, h1, h2⟩ := walk_rel_call s
        (Event.RepairFile lp file.Path (a.RepairFile s.trace lp file.Path).err
          (a.RepairFile s.trace lp file.Path).success)
        (a.RepairFile s.trace lp file.Path).cancel (by simp)
      exact ⟨t, h1, h2⟩
  · intro p s; exact walk_rel_call s _ _ (by simp)
  · intro s st; exact ⟨[], by simp, by simp⟩

/-- The child loop only appends to the trace. -/
theorem forChildren_appends (a : Env) (fuel : Nat) (cs : List ListResult) (s : Run) :
    ∃ t, (forChildren (iterateDir a fuel) cs s).trace = s.trace ++ t ∧
      ∀ e ∈ t, e ≠ Event.completedCallback :=
  forChildren_rel
    (fun s s' => ∃ t, s'.trace = s.trace ++ t ∧ ∀ e ∈ t, e ≠ Event.completedCallback)
    (fun s => ⟨[], by simp, by simp⟩) walk_rel_trans walk_rel_check (iterateDir a fuel) cs
    (fun c _ s _ => iterateDir_appends a fuel c s) s

/-! ## When the listing is fetched -/

/-- The child loop visits the children in order until the list ends, a visit
ends abnormally, or the cancellation flag is up. -/
theorem forChildren_walkedOver (visit : ListResult → Run → Run) (cs : List ListResult) :
    ∀ s, WalkedOver visit cs s (forChildren visit cs s) := by
  induction cs with
  | nil =>
    intro s
    refine ⟨[], [], rfl, ?_, Or.inl ⟨rfl, rfl⟩⟩
    intro before c after h
    exact (List.cons_ne_nil c after (List.append_eq_nil.mp h.symm).2).elim
  | cons c rest ih =>
    intro s
    cases hf : s.r.isRepairCanceled
    · have hstep : forChildren visit (c :: rest) s
          = if (visit c s).status = Status.ok then forChildren visit rest (visit c s)
            else visit c s := by
        rw [forChildren, checkForCancel_running s hf]
      rw [hstep]
      by_cases hok : (visit c s).status = Status.ok
      · rw [if_pos hok]
        obtain ⟨visited, remaining, hsplit, hreach, hend⟩ := ih (visit c s)
        refine ⟨c :: visited, remaining, by rw [hsplit]; rfl, ?_, ?_⟩
        · intro before x after h
          cases before with
          | nil => exact ⟨hf, fun hne => (hne rfl).elim⟩
          | cons b bs =>
            rw [List.cons_append] at h
            obtain ⟨hb, hrest⟩ := List.cons.inj h
            subst hb
            obtain ⟨h1, h2⟩ := hreach bs x after hrest
            refine ⟨h1, fun _ => ?_⟩
            cases bs with
            | nil => exact hok
            | cons b2 bs2 => exact h2 (List.cons_ne_nil b2 bs2)
        · rcases hend with ⟨h1, h2⟩ | ⟨h1, h2, h3, h4⟩ | ⟨h1, h2, h3, h4⟩
          · exact Or.inl ⟨h1, h2⟩
          · exact Or.inr (Or.inl ⟨h1, List.cons_ne_nil c visited, h3, h4⟩)
          · refine Or.inr (Or.inr ⟨h1, fun _ => ?_, h3, h4⟩)
            cases visited with
            | nil => exact hok
            | cons v vs => exact h2 (List.cons_ne_nil v vs)
      · rw [if_neg hok]
        refine ⟨[c], rest, rfl, ?_, ?_⟩
        · intro before x after h
          cases before with
          | nil => exact ⟨hf, fun hne => (hne rfl).elim⟩
          | cons b bs =>
            rw [List.cons_append] at h
            obtain ⟨-, hrest⟩ := List.cons.inj h
            exact (List.cons_ne_nil x after (List.append_eq_nil.mp hrest.symm).2).elim
        · cases rest with
          | nil => exact Or.inl ⟨rfl, rfl⟩
          | cons d ds =>
            exact Or.inr (Or.inl ⟨List.cons_ne_nil d ds, List.cons_ne_nil c [], hok, rfl⟩)
    · have hstep : forChildren visit (c :: rest) s = (checkForCancel s).2 := by
        rw [forChildren, checkForCancel_cancelled s hf]
      rw [hstep]
      refine ⟨[], c :: rest, rfl, ?_, Or.inr (Or.inr
        ⟨List.cons_ne_nil c rest, fun hne => (hne rfl).elim, hf, rfl⟩)⟩
      intro before x after h
      exact (List.cons_ne_nil x after (List.append_eq_nil.mp h.symm).2).elim

/-- C17. On a DIRECTORY node (with fuel left): when the `Children` list is
non-empty, `iterateDir` walks over those children, starting from the run as it
was, so it issues no `ListDir` call for the node; when the list is empty, the
first thing it does is the `ListDir` call for the node's path, and when that
call returns a listing without error it walks over the children of the fetched
listing.  Walking over a list of children means visiting them with
`iterateDir` in listing order, each from the run the previous visit left, up
to the end of the list unless a visit ends abnormally or the cancellation flag
is found up before a child. -/
theorem iterateDir_listDir_iff_no_children (a : Env) (fuel : Nat) (dir : ListResult) (s : Run)
    (hdir : dir.Type_ = RefType.DIRECTORY) :
    (dir.Children ≠ [] →
      WalkedOver (iterateDir a fuel) dir.Children s (iterateDir a (fuel + 1) dir s)) ∧
    (dir.Children = [] →
      (∃ t, (iterateDir a (fuel + 1) dir s).trace = s.trace ++
        Event.ListDir dir.Path (a.ListDir s.trace dir.Path).listing.isSome
          (a.ListDir s.trace dir.Path).err :: t) ∧
      ∀ fetched, (a.ListDir s.trace dir.Path).listing = some fetched →
        (a.ListDir s.trace dir.Path).err = false →
        WalkedOver (iterateDir a fuel) fetched.Children
          (s.call (Event.ListDir dir.Path (a.ListDir s.trace dir.Path).listing.isSome
            (a.ListDir s.trace dir.Path).err) (a.ListDir s.trace dir.Path).cancel)
          (iterateDir a (fuel + 1) dir s)) := by
  constructor
  · intro hne
    have hlen : ¬ dir.Children.length = 0 := fun h => hne (List.length_eq_zero.mp h)
    have hstep : iterateDir a (fuel + 1) dir s
        = forChildren (iterateDir a fuel) dir.Children s := by
      simp [iterateDir, hdir, hlen]
    rw [hstep]
    exact forChildren_walkedOver (iterateDir a fuel) dir.Children s
  · intro hnil
    have hlen : dir.Children.length = 0 := by rw [hnil]; rfl
    have hstep : iterateDir a (fuel + 1) dir s =
        match (a.ListDir s.trace dir.Path).listing, (a.ListDir s.trace dir.Path).err with
        | none, true =>
          { s.call (Event.ListDir dir.Path (a.ListDir s.trace dir.Path).listing.isSome
              (a.ListDir s.trace dir.Path).err) (a.ListDir s.trace dir.Path).cancel with
            status := Status.panicked }
        | some _, true =>
          s.call (Event.ListDir dir.Path (a.ListDir s.trace dir.Path).listing.isSome
            (a.ListDir s.trace dir.Path).err) (a.ListDir s.trace dir.Path).cancel
        | none, false =>
          { s.call (Event.ListDir dir.Path (a.ListDir s.trace dir.Path).listing.isSome
              (a.ListDir s.trace dir.Path).err) (a.ListDir s.trace dir.Path).cancel with
            status := Status.panicked }
        | some fetched, false =>
          forChildren (iterateDir a fuel) fetched.Children
            (s.call (Event.ListDir dir.Path (a.ListDir s.trace dir.Path).listing.isSome
              (a.ListDir s.trace dir.Path).err) (a.ListDir s.trace dir.Path).cancel) := by
      simp [iterateDir, hdir, hlen]
    have hcall : ∃ t, (s.call (Event.ListDir dir.Path (a.ListDir s.trace dir.Path).listing.isSome
        (a.ListDir s.trace dir.Path).err) (a.ListDir s.trace dir.Path).cancel).trace
        = s.trace ++ Event.ListDir dir.Path (a.ListDir s.trace dir.Path).listing.isSome
          (a.ListDir s.trace dir.Path).err :: t := ⟨_, call_trace _ _ _⟩
    constructor
    · rw [hstep]
      cases hl : (a.ListDir s.trace dir.Path).listing with
      | none =>
        cases he : (a.ListDir s.trace dir.Path).err <;>
        · simp only [hl, he] at hcall ⊢
          exact hcall
      | some fetched =>
        cases he : (a.ListDir s.trace dir.Path).err
        · simp only [hl, he] at hcall ⊢
          obtain ⟨t1, ht1⟩ := hcall
          obtain ⟨t2, ht2, -⟩ := forChildren_appends a fuel fetched.Children
            (s.call (Event.ListDir dir.Path (some fetched).isSome false)
              (a.ListDir s.trace dir.Path).cancel)
          exact ⟨t1 ++ t2, by rw [ht2, ht1]; simp⟩
        · simp only [hl, he] at hcall ⊢
          exact hcall
    · intro fetched hl he
      have hloop : iterateDir a (fuel + 1) dir s
          = forChildren (iterateDir a fuel) fetched.Children
            (s.call (Event.ListDir dir.Path (a.ListDir s.trace dir.Path).listing.isSome
              (a.ListDir s.trace dir.Path).err) (a.ListDir s.trace dir.Path).cancel) := by
        rw [hstep]
        simp only [hl, he]
      rw [hloop]
      exact forChildren_walkedOver (iterateDir a fuel) fetched.Children _

/-- Witness for C17: the directory `/a` has no loaded children, so its
listing is fetched, and the file `/a/x.txt` of the fetched listing is
visited. -/
theorem iterateDir_listDir_iff_no_children_witness :
    (dirNode "/a" []).Type_ = RefType.DIRECTORY ∧
    (dirNode "/a" []).Children = [] ∧
    (iterateDir envListsOneFile 2 (dirNode "/a" [])
        (startRun (freshRequest lazyDirThenFile))).trace
      = [Event.ListDir "/a" true false, Event.RepairRequired "/a/x.txt" false false] ∧
    (iterateDir envListsOneFile 2 (dirNode "/a" [])
        (startRun (freshRequest lazyDirThenFile))).status = Status.ok ∧
    WalkedOver (iterateDir envListsOneFile 1) [fileNode "/a/x.txt"]
      ((startRun (freshRequest lazyDirThenFile)).call (Event.ListDir "/a" true false) false)
      (iterateDir envListsOneFile 2 (dirNode "/a" [])
        (startRun (freshRequest lazyDirThenFile))) :=
  ⟨rfl, rfl, by decide, by decide,
    ((iterateDir_listDir_iff_no_children envListsOneFile 1 (dirNode "/a" [])
      (startRun (freshRequest lazyDirThenFile)) rfl).2 rfl).2
      (dirNode "/a" [fileNode "/a/x.txt"]) rfl rfl⟩

/-! ## The completion callback -/

/-- Before the deferred callback runs, the trace of `processRepair` holds no
completion callback. -/
theorem afterWalk_no_completedCallback (a : Env) (fuel : Nat) (r : RepairRequest) :
    Event.completedCallback ∉ (afterWalk a fuel r).trace := by
  obtain ⟨t1, ht1, h1⟩ := iterateDir_appends a fuel r.listDir (startRun r)
  obtain ⟨t2, ht2, h2⟩ := afterWalk_trace a fuel r
  rw [ht2, ht1]
  intro hmem
  simp only [startRun, List.nil_append, List.mem_append] at hmem
  rcases hmem with hmem | hmem
  · exact h1 _ hmem rfl
  · have := h2 _ hmem
    simp [Event.isRepairCompleted] at this

theorem checkForCancel_no_completedCallback (r : RepairRequest) :
    Event.completedCallback ∉ (checkForCancel (startRun r)).2.trace := by
  rw [checkForCancel_trace]
  split_ifs <;> simp [startRun]

/-- The status `processRepair` ends with is the one the walk ended with. -/
theorem processRepair_status_of_running (a : Env) (fuel : Nat) (r : RepairRequest)
    (hf : r.isRepairCanceled = false) :
    (processRepair a fuel r).status = (iterateDir a fuel r.listDir (startRun r)).status := by
  rw [processRepair_of_running a fuel r hf]
  split_ifs
  · rw [emit_status, afterWalk_status]
  · rw [afterWalk_status]

/-- A child loop whose visits ran with enough fuel is the same loop with
visits that have more fuel. -/
theorem forChildren_more_fuel (f g : ListResult → Run → Run)
    (h : ∀ c s, (f c s).status ≠ Status.outOfFuel → g c s = f c s) :
    ∀ cs s, (forChildren f cs s).status ≠ Status.outOfFuel →
      forChildren g cs s = forChildren f cs s := by
  intro cs
  induction cs with
  | nil => intro s _; rfl
  | cons c rest ih =>
    intro s hs
    cases hf : s.r.isRepairCanceled
    · have e1 : ∀ v : ListResult → Run → Run, forChildren v (c :: rest) s
          = if (v c s).status = Status.ok then forChildren v rest (v c s) else v c s := by
        intro v
        rw [forChildren, checkForCancel_running s hf]
      rw [e1 f] at hs ⊢
      rw [e1 g]
      by_cases hok : (f c s).status = Status.ok
      · rw [if_pos hok] at hs ⊢
        have hg : g c s = f c s := h c s (by rw [hok]; decide)
        rw [hg, if_pos hok]
        exact ih _ hs
      · rw [if_neg hok] at hs ⊢
        rw [h c s hs, if_neg hok]
    · have e2 : ∀ v : ListResult → Run → Run,
          forChildren v (c :: rest) s = (checkForCancel s).2 := by
        intro v
        rw [forChildren, checkForCancel_cancelled s hf]
      rw [e2 f, e2 g]

/-- A walk that did not run out of fuel is the same walk with one more unit
of fuel. -/
theorem iterateDir_succ_fuel (a : Env) :
    ∀ fuel dir s, (iterateDir a fuel dir s).status ≠ Status.outOfFuel →
      iterateDir a (fuel + 1) dir s = iterateDir a fuel dir s := by
  intro fuel
  induction fuel with
  | zero => intro dir s h; exact (h rfl).elim
  | succ fuel ih =>
    intro dir s h
    have hloop := forChildren_more_fuel (iterateDir a fuel) (iterateDir a (fuel + 1))
      (fun c s hc => ih c s hc)
    cases hty : dir.Type_ with
    | FILE =>
      have e : ∀ n, iterateDir a (n + 1) dir s = repairFile a dir s := by
        intro n; simp [iterateDir, hty]
      rw [e (fuel + 1), e fuel]
    | other tag =>
      have e : ∀ n, iterateDir a (n + 1) dir s = s := by
        intro n; simp [iterateDir, hty]
      rw [e (fuel + 1), e fuel]
    | DIRECTORY =>
      by_cases hlen : dir.Children.length = 0
      · have e : ∀ n, iterateDir a (n + 1) dir s =
            match (a.ListDir s.trace dir.Path).listing, (a.ListDir s.trace dir.Path).err with
            | none, true =>
              { s.call (Event.ListDir dir.Path (a.ListDir s.trace dir.Path).listing.isSome
                  (a.ListDir s.trace dir.Path).err) (a.ListDir s.trace dir.Path).cancel with
                status := Status.panicked }
            | some _, true =>
              s.call (Event.ListDir dir.Path (a.ListDir s.trace dir.Path).listing.isSome
                (a.ListDir s.trace dir.Path).err) (a.ListDir s.trace dir.Path).cancel
            | none, false =>
              { s.call (Event.ListDir dir.Path (a.ListDir s.trace dir.Path).listing.isSome
                  (a.ListDir s.trace dir.Path).err) (a.ListDir s.trace dir.Path).cancel with
                status := Status.panicked }
            | some fetched, false =>
              forChildren (iterateDir a n) fetched.Children
                (s.call (Event.ListDir dir.Path (a.ListDir s.trace dir.Path).listing.isSome
                  (a.ListDir s.trace dir.Path).err) (a.ListDir s.trace dir.Path).cancel) := by
          intro n; simp [iterateDir, hty, hlen]
        rw [e fuel] at h
        rw [e (fuel + 1), e fuel]
        cases hl : (a.ListDir s.trace dir.Path).listing with
        | none =>
          cases he : (a.ListDir s.trace dir.Path).err <;> simp only [hl, he]
        | some fetched =>
          cases he : (a.ListDir s.trace dir.Path).err
          · simp only [hl, he] at h ⊢
            exact hloop _ _ h
          · simp only [hl, he]
      · have e : ∀ n, iterateDir a (n + 1) dir s
            = forChildren (iterateDir a n) dir.Children s := by
          intro n; simp [iterateDir, hty, hlen]
        rw [e fuel] at h
        rw [e (fuel + 1), e fuel]
        exact hloop _ _ h

/-- A walk that did not run out of fuel is the same walk with any larger
amount of fuel. -/
theorem iterateDir_more_fuel (a : Env) (fuel : Nat) (dir : ListResult) (s : Run)
    (h : (iterateDir a fuel dir s).status ≠ Status.outOfFuel) :
    ∀ more, iterateDir a (fuel + more) dir s = iterateDir a fuel dir s := by
  intro more
  induction more with
  | zero => rfl
  | succ more ih =>
    have h2 : (iterateDir a (fuel + more) dir s).status ≠ Status.outOfFuel := by rw [ih]; exact h
    rw [← Nat.add_assoc, iterateDir_succ_fuel a (fuel + more) dir s h2, ih]

/-- A run of `processRepair` that did not run out of fuel is the same run
with any larger amount of fuel. -/
theorem processRepair_more_fuel (a : Env) (fuel : Nat) (r : RepairRequest)
    (h : (processRepair a fuel r).status ≠ Status.outOfFuel) :
    ∀ more, processRepair a (fuel + more) r = processRepair a fuel r := by
  intro more
  cases hf : r.isRepairCanceled
  · rw [processRepair_status_of_running a fuel r hf] at h
    have heq := iterateDir_more_fuel a fuel r.listDir (startRun r) h more
    rw [processRepair_of_running a (fuel + more) r hf, processRepair_of_running a fuel r hf]
    have haw : afterWalk a (fuel + more) r = afterWalk a fuel r := by
      unfold afterWalk; rw [heq]
    rw [haw]
  · rw [processRepair_of_cancelled a (fuel + more) r hf, processRepair_of_cancelled a fuel r hf]

/-- Across `repairFile` the status callback stays as it is, and the status
changes only when the run gets stuck in a wait, which takes a nil status
callback. -/
theorem repairFile_status (a : Env) (file : ListResult) (s : Run) :
    (repairFile a file s).r.statusCB = s.r.statusCB ∧
    ((repairFile a file s).status = s.status ∨
      ((repairFile a file s).status = Status.halted ∧ s.r.statusCB = false)) := by
  refine repairFile_rel a
    (fun s s' => s'.r.statusCB = s.r.statusCB ∧
      (s'.status = s.status ∨ (s'.status = Status.halted ∧ s.r.statusCB = false)))
    ?_ ?_ ?_ ?_ ?_ ?_ ?_ ?_ file s
  · intro s1 s2 s3 h12 h23
    refine ⟨h23.1.trans h12.1, ?_⟩
    rcases h23.2 with h | ⟨h, hcb⟩
    · rcases h12.2 with h' | ⟨h', hcb'⟩
      · exact Or.inl (h.trans h')
      · exact Or.inr ⟨h.trans h', hcb'⟩
    · exact Or.inr ⟨h, h12.1.symm.trans hcb⟩
  · intro s; exact ⟨by simp, Or.inl (by simp)⟩
  · intro file s _; exact ⟨by simp, Or.inl (by simp)⟩
  · intro file lp s _; exact ⟨by simp, Or.inl (by simp)⟩
  · intro file lp s _ _; exact ⟨by simp, Or.inl (by simp)⟩
  · intro file lp s _ _ _ _; exact ⟨by simp, Or.inl (by simp)⟩
  · intro file lp s _ _ hcb; exact ⟨by simp, Or.inr ⟨rfl, hcb⟩⟩
  · intro file lp s _ _ hcb; exact ⟨by simp, Or.inr ⟨rfl, hcb⟩⟩

/-- On a tree with known children, given fuel for its height, the walk never
runs out of fuel and never panics: the status stays as it was, unless the run
gets stuck in a wait, which takes a nil status callback. -/
theorem iterateDir_known_status (a : Env) :
    ∀ (fuel : Nat) (dir : ListResult) (s : Run), dir.childrenKnown = true → dir.height ≤ fuel →
      (iterateDir a fuel dir s).r.statusCB = s.r.statusCB ∧
      ((iterateDir a fuel dir s).status = s.status ∨
        ((iterateDir a fuel dir s).status = Status.halted ∧ s.r.statusCB = false)) := by
  intro fuel
  induction fuel with
  | zero =>
    intro dir s _ hh
    cases dir with
    | mk ty p cs => simp [ListResult.height] at hh
  | succ fuel ih =>
    intro dir s hk hh
    cases dir with
    | mk ty p cs =>
      cases ty with
      | FILE => exact repairFile_status a _ s
      | other tag => exact ⟨rfl, Or.inl rfl⟩
      | DIRECTORY =>
        simp only [ListResult.childrenKnown, Bool.and_eq_true, Bool.not_eq_true',
          List.isEmpty_eq_false] at hk
        have hne : ¬ cs.length = 0 := by
          intro h0
          exact hk.1 (List.length_eq_zero.mp h0)
        have hstep : iterateDir a (fuel + 1) (ListResult.mk RefType.DIRECTORY p cs) s
            = forChildren (iterateDir a fuel) cs s := by
          simp [iterateDir, ListResult.Type_, ListResult.Children, hne]
        simp only [ListResult.height, Nat.add_le_add_iff_right] at hh
        rw [hstep]
        refine forChildren_rel
          (fun s s' => s'.r.statusCB = s.r.statusCB ∧
            (s'.status = s.status ∨ (s'.status = Status.halted ∧ s.r.statusCB = false)))
          (fun s => ⟨rfl, Or.inl rfl⟩) ?_ (fun s => ⟨by simp, Or.inl (by simp)⟩)
          (iterateDir a fuel) cs
          (fun c hc s' _ => ih c s' (childrenKnown_of_mem cs hk.2 c hc)
            (Nat.le_trans (height_le_of_mem cs c hc) hh)) s
        intro s1 s2 s3 h12 h23
        refine ⟨h23.1.trans h12.1, ?_⟩
        rcases h23.2 with h | ⟨h, hcb⟩
        · rcases h12.2 with h' | ⟨h', hcb'⟩
          · exact Or.inl (h.trans h')
          · exact Or.inr ⟨h.trans h', hcb'⟩
        · exact Or.inr ⟨h, h12.1.symm.trans hcb⟩

/-- C20. With a nil `completedCallback` no completion callback is invoked at
all.  With a non-nil one, a call of `processRepair` invokes it exactly once,
as the last thing of the call, hence after the walk and after every
`RepairCompleted` notification: when the request is already cancelled on
entry; when the tree has known children (fuel for its height given) and the
status callback is non-nil; and in general whenever the call comes to an end,
by returning or by a panic of the walk.  The call does come to an end: always
when the request is already cancelled on entry; and for a tree with known
children, given fuel for its height, it returns normally unless the status
callback is nil and the run is stuck in a wait.  A run that did not run out of
fuel is the same run for any larger amount of fuel. -/
theorem processRepair_completedCallback_once (a : Env) (fuel : Nat) (r : RepairRequest) :
    (r.completedCallback = false →
      Event.completedCallback ∉ (processRepair a fuel r).trace) ∧
    (r.completedCallback = true →
      (r.isRepairCanceled = true ∨
          (r.listDir.childrenKnown = true ∧ r.listDir.height ≤ fuel ∧ r.statusCB = true) →
        ∃ t, (processRepair a fuel r).trace = t ++ [Event.completedCallback] ∧
          Event.completedCallback ∉ t) ∧
      ((processRepair a fuel r).status = Status.ok ∨
          (processRepair a fuel r).status = Status.panicked →
        ∃ t, (processRepair a fuel r).trace = t ++ [Event.completedCallback] ∧
          Event.completedCallback ∉ t)) ∧
    (r.isRepairCanceled = true → (processRepair a fuel r).status = Status.ok) ∧
    (r.listDir.childrenKnown = true → r.listDir.height ≤ fuel →
      (processRepair a fuel r).status = Status.ok ∨
      ((processRepair a fuel r).status = Status.halted ∧ r.statusCB = false)) ∧
    (∀ more, (processRepair a fuel r).status ≠ Status.outOfFuel →
      processRepair a (fuel + more) r = processRepair a fuel r) := by
  have hcancelled : r.isRepairCanceled = true → (processRepair a fuel r).status = Status.ok := by
    intro hf
    rw [processRepair_of_cancelled a fuel r hf]
    split_ifs
    · rw [emit_status, checkForCancel_status]; rfl
    · rw [checkForCancel_status]; rfl
  have hknown : r.listDir.childrenKnown = true → r.listDir.height ≤ fuel →
      (processRepair a fuel r).status = Status.ok ∨
      ((processRepair a fuel r).status = Status.halted ∧ r.statusCB = false) := by
    intro hk hh
    cases hf : r.isRepairCanceled
    · rw [processRepair_status_of_running a fuel r hf]
      exact (iterateDir_known_status a fuel r.listDir (startRun r) hk hh).2
    · exact Or.inl (hcancelled hf)
  have hend : r.completedCallback = true →
      (processRepair a fuel r).status = Status.ok ∨
        (processRepair a fuel r).status = Status.panicked →
      ∃ t, (processRepair a fuel r).trace = t ++ [Event.completedCallback] ∧
        Event.completedCallback ∉ t := by
    intro hcc hst
    cases hf : r.isRepairCanceled
    · have hst2 : (afterWalk a fuel r).status = Status.ok ∨
          (afterWalk a fuel r).status = Status.panicked := by
        rw [processRepair_status_of_running a fuel r hf] at hst
        rw [afterWalk_status]
        exact hst
      rw [processRepair_of_running a fuel r hf, if_pos ⟨hcc, hst2⟩]
      exact ⟨_, rfl, afterWalk_no_completedCallback a fuel r⟩
    · rw [processRepair_of_cancelled a fuel r hf, if_pos hcc]
      exact ⟨_, rfl, checkForCancel_no_completedCallback r⟩
  refine ⟨?_, fun hcc => ⟨?_, hend hcc⟩, hcancelled, hknown,
    fun more h => processRepair_more_fuel a fuel r h more⟩
  · intro hcc
    cases hf : r.isRepairCanceled
    · have hn : ¬ (r.completedCallback = true ∧
          ((afterWalk a fuel r).status = Status.ok ∨
            (afterWalk a fuel r).status = Status.panicked)) := by
        intro h; rw [hcc] at h; exact Bool.noConfusion h.1
      rw [processRepair_of_running a fuel r hf, if_neg hn]
      exact afterWalk_no_completedCallback a fuel r
    · have hn : ¬ r.completedCallback = true := by
        intro h; rw [hcc] at h; exact Bool.noConfusion h
      rw [processRepair_of_cancelled a fuel r hf, if_neg hn]
      exact checkForCancel_no_completedCallback r
  · intro hin
    rcases hin with hf | ⟨hk, hh, hcb⟩
    · exact hend hcc (Or.inl (hcancelled hf))
    · rcases hknown hk hh with hok | ⟨-, hnil⟩
      · exact hend hcc (Or.inl hok)
      · rw [hcb] at hnil; exact Bool.noConfusion hnil

/-- Witness for C20: two files are repaired, the final count is notified,
and the completion callback comes last, once; and in a run whose listing
fetch panics the completion callback still runs, last. -/
theorem processRepair_completedCallback_once_witness :
    requestWithCompletion.completedCallback = true ∧
    requestWithCompletion.isRepairCanceled = false ∧
    (requestWithCompletion.listDir.childrenKnown = true ∧
      requestWithCompletion.listDir.height ≤ 3 ∧ requestWithCompletion.statusCB = true) ∧
    (processRepair envAllRepaired 3 requestWithCompletion).trace
      = [Event.RepairRequired "/a.txt" true false,
         Event.DownloadFile "/mirror/a.txt" "/a.txt" false true,
         Event.RepairFile "/mirror/a.txt" "/a.txt" false true,
         Event.RepairRequired "/b.txt" true false,
         Event.DownloadFile "/mirror/b.txt" "/b.txt" false true,
         Event.RepairFile "/mirror/b.txt" "/b.txt" false true,
         Event.RepairCompleted 2, Event.completedCallback] ∧
    (processRepair envListDirFails 3 lazyRequestWithCompletion).trace
      = [Event.ListDir "/a" false true, Event.completedCallback] ∧
    (processRepair envListDirFails 3 lazyRequestWithCompletion).status = Status.panicked ∧
    ∃ t, (processRepair envAllRepaired 3 requestWithCompletion).trace
        = t ++ [Event.completedCallback] ∧
      Event.completedCallback ∉ t :=
  ⟨rfl, rfl, ⟨by decide, by decide, rfl⟩, by decide, by decide, by decide,
    ((processRepair_completedCallback_once envAllRepaired 3 requestWithCompletion).2.1 rfl).1
      (Or.inr ⟨by decide, by decide, rfl⟩)⟩

/-! ## The status wrapper -/

theorem forward_of_callback (cb : RepairStatusCB) (e : StatusEvent) (h : cb.statusCB = true) :
    cb.forward e = { cb := cb, effects := [Effect.forward e], panicked := false } := by
  simp [RepairStatusCB.forward, h]

/-- C18. For a wrapper around a non-nil status callback: an `Error` event is
forwarded and then releases the wait group once; a `Completed` event whose op
is `OpDownload` or `OpCommit` is forwarded and then releases the wait group
once; a `Completed` event with any other op is forwarded and releases
nothing; every other event is forwarded and releases nothing.  Each event is
forwarded exactly once, with the arguments it came with, and no method
panics. -/
theorem wrapper_forwards_and_releases (ops : OpCodes) (cb : RepairStatusCB)
    (hcb : cb.statusCB = true) :
    (∀ allocationID filePath op err,
      (cb.Error allocationID filePath op err).effects
        = [Effect.forward (StatusEvent.Error allocationID filePath op err), Effect.wgDone]) ∧
    (∀ allocationId filePath filename mimetype size op,
      op = ops.OpDownload ∨ op = ops.OpCommit →
      (cb.Completed ops allocationId filePath filename mimetype size op).effects
        = [Effect.forward
            (StatusEvent.Completed allocationId filePath filename mimetype size op),
           Effect.wgDone]) ∧
    (∀ allocationId filePath filename mimetype size op,
      op ≠ ops.OpDownload → op ≠ ops.OpCommit →
      (cb.Completed ops allocationId filePath filename mimetype size op).effects
        = [Effect.forward
            (StatusEvent.Completed allocationId filePath filename mimetype size op)]) ∧
    (∀ e, (∀ allocationID filePath op err, e ≠ StatusEvent.Error allocationID filePath op err) →
      (∀ allocationId filePath filename mimetype size op,
        e ≠ StatusEvent.Completed allocationId filePath filename mimetype size op) →
      (cb.deliver ops e).effects = [Effect.forward e]) ∧
    (∀ e, (cb.deliver ops e).panicked = false ∧
      (cb.deliver ops e).effects.filter (fun x => x ≠ Effect.wgDone) = [Effect.forward e]) := by
  have hE : ∀ allocationID filePath op err,
      cb.Error allocationID filePath op err =
        { cb := { cb with success := false, err := err },
          effects := [Effect.forward (StatusEvent.Error allocationID filePath op err),
            Effect.wgDone],
          panicked := false } := by
    intro allocationID filePath op err
    simp [RepairStatusCB.Error, RepairStatusCB.forward, hcb]
  have hC1 : ∀ allocationId filePath filename mimetype size op,
      op = ops.OpDownload ∨ op = ops.OpCommit →
      cb.Completed ops allocationId filePath filename mimetype size op =
        { cb := { cb with success := true },
          effects := [Effect.forward
            (StatusEvent.Completed allocationId filePath filename mimetype size op),
            Effect.wgDone],
          panicked := false } := by
    intro allocationId filePath filename mimetype size op hop
    simp [RepairStatusCB.Completed, RepairStatusCB.forward, hcb, hop]
  have hC2 : ∀ allocationId filePath filename mimetype size op,
      op ≠ ops.OpDownload → op ≠ ops.OpCommit →
      cb.Completed ops allocationId filePath filename mimetype size op =
        { cb := { cb with success := true },
          effects := [Effect.forward
            (StatusEvent.Completed allocationId filePath filename mimetype size op)],
          panicked := false } := by
    intro allocationId filePath filename mimetype size op h1 h2
    simp [RepairStatusCB.Completed, RepairStatusCB.forward, hcb, h1, h2]
  refine ⟨fun _ _ _ _ => by rw [hE], fun _ _ _ _ _ _ hop => by rw [hC1 _ _ _ _ _ _ hop],
    fun _ _ _ _ _ _ h1 h2 => by rw [hC2 _ _ _ _ _ _ h1 h2], ?_, ?_⟩
  · intro e h1 h2
    cases e with
    | Error allocationID filePath op err => exact (h1 _ _ _ _ rfl).elim
    | Completed allocationId filePath filename mimetype size op =>
      exact (h2 _ _ _ _ _ _ rfl).elim
    | CommitMetaCompleted request response err =>
      simp [RepairStatusCB.deliver, RepairStatusCB.CommitMetaCompleted, forward_of_callback, hcb]
    | Started allocationId filePath op totalBytes =>
      simp [RepairStatusCB.deliver, RepairStatusCB.Started, forward_of_callback, hcb]
    | InProgress allocationId filePath op completedBytes =>
      simp [RepairStatusCB.deliver, RepairStatusCB.InProgress, forward_of_callback, hcb]
    | RepairCompleted filesRepaired =>
      simp [RepairStatusCB.deliver, RepairStatusCB.RepairCompleted, forward_of_callback, hcb]
    | RepairCancelled =>
      simp [RepairStatusCB.deliver, RepairStatusCB.RepairCancelled, forward_of_callback, hcb]
  · intro e
    cases e with
    | Error allocationID filePath op err =>
      simp [RepairStatusCB.deliver, hE]
    | Completed allocationId filePath filename mimetype size op =>
      by_cases hop : op = ops.OpDownload ∨ op = ops.OpCommit
      · simp [RepairStatusCB.deliver, hC1 _ _ _ _ _ _ hop]
      · have h1 : op ≠ ops.OpDownload := fun h => hop (Or.inl h)
        have h2 : op ≠ ops.OpCommit := fun h => hop (Or.inr h)
        simp [RepairStatusCB.deliver, hC2 _ _ _ _ _ _ h1 h2]
    | CommitMetaCompleted request response err =>
      simp [RepairStatusCB.deliver, RepairStatusCB.CommitMetaCompleted, forward_of_callback, hcb]
    | Started allocationId filePath op totalBytes =>
      simp [RepairStatusCB.deliver, RepairStatusCB.Started, forward_of_callback, hcb]
    | InProgress allocationId filePath op completedBytes =>
      simp [RepairStatusCB.deliver, RepairStatusCB.InProgress, forward_of_callback, hcb]
    | RepairCompleted filesRepaired =>
      simp [RepairStatusCB.deliver, RepairStatusCB.RepairCompleted, forward_of_callback, hcb]
    | RepairCancelled =>
      simp [RepairStatusCB.deliver, RepairStatusCB.RepairCancelled, forward_of_callback, hcb]

/-- Witness for C18: a completed download releases the wait group, a
completed upload (op 0) does not. -/
theorem wrapper_forwards_and_releases_witness :
    sampleWrapper.statusCB = true ∧
    (sampleWrapper.Completed sampleOps "alloc" "/a.txt" "a.txt" "text/plain" 8 1).effects
      = [Effect.forward (StatusEvent.Completed "alloc" "/a.txt" "a.txt" "text/plain" 8 1),
         Effect.wgDone] ∧
    (sampleWrapper.Completed sampleOps "alloc" "/a.txt" "a.txt" "text/plain" 8 0).effects
      = [Effect.forward (StatusEvent.Completed "alloc" "/a.txt" "a.txt" "text/plain" 8 0)] :=
  ⟨rfl,
    (wrapper_forwards_and_releases sampleOps sampleWrapper rfl).2.1
      "alloc" "/a.txt" "a.txt" "text/plain" 8 1 (Or.inl rfl),
    (wrapper_forwards_and_releases sampleOps sampleWrapper rfl).2.2.1
      "alloc" "/a.txt" "a.txt" "text/plain" 8 0 (by decide) (by decide)⟩

theorem deliverAll_append (ops : OpCodes) (cb : RepairStatusCB) (es : List StatusEvent)
    (e : StatusEvent) :
    cb.deliverAll ops (es ++ [e]) = ((cb.deliverAll ops es).deliver ops e).cb := by
  simp [RepairStatusCB.deliverAll, List.foldl_append]

/-- C19. After any sequence of events delivered to a wrapper (whatever its
fields were before and whatever it wraps): if the most recent event was
`Completed`, for any op, the success flag is true; if the most recent event
was `Error`, the success flag is false and `err` holds that event's error.
Before any event, the flag of the wrapper that `repairFile` builds is
false. -/
theorem wrapper_success_reflects_last_event (ops : OpCodes) (cb : RepairStatusCB)
    (earlier : List StatusEvent) :
    (∀ allocationId filePath filename mimetype size op,
      (cb.deliverAll ops (earlier ++
        [StatusEvent.Completed allocationId filePath filename mimetype size op])).success
        = true) ∧
    (∀ allocationID filePath op err,
      (cb.deliverAll ops (earlier ++
        [StatusEvent.Error allocationID filePath op err])).success = false ∧
      (cb.deliverAll ops (earlier ++
        [StatusEvent.Error allocationID filePath op err])).err = err) ∧
    (∀ r : RepairRequest, ((newRepairStatusCB r).deliverAll ops []).success = false) := by
  refine ⟨?_, ?_, fun _ => rfl⟩
  · intro allocationId filePath filename mimetype size op
    rw [deliverAll_append]
    simp only [RepairStatusCB.deliver, RepairStatusCB.Completed, RepairStatusCB.forward]
    split_ifs <;> rfl
  · intro allocationID filePath op err
    rw [deliverAll_append]
    simp only [RepairStatusCB.deliver, RepairStatusCB.Error, RepairStatusCB.forward]
    split_ifs <;> exact ⟨rfl, rfl⟩

/-! ## A request without a status callback -/

/-- Whatever event is delivered to a wrapper, `cb.wg.Done()` is reached only
when the wrapped status callback is non-nil: this is why the waits of
`repairFile` are never released for a request without a status callback. -/
theorem deliver_releases_only_with_callback (ops : OpCodes) (cb : RepairStatusCB)
    (e : StatusEvent) (h : Effect.wgDone ∈ (cb.deliver ops e).effects) :
    cb.statusCB = true := by
  cases hcb : cb.statusCB
  · exfalso
    cases e <;>
      simp [RepairStatusCB.deliver, RepairStatusCB.CommitMetaCompleted, RepairStatusCB.Started,
        RepairStatusCB.InProgress, RepairStatusCB.RepairCompleted, RepairStatusCB.RepairCancelled,
        RepairStatusCB.Completed, RepairStatusCB.Error, RepairStatusCB.forward, hcb] at h
  · rfl

/-- C21 (defect in the code). The request has no status callback and its
files need repair.  `processRepair` and `checkForCancel` do skip the
notification (the already cancelled run notifies nothing), but the wrapper
that `repairFile` builds around the nil callback dereferences it: each of
`Started`, `InProgress`, `Completed` and `Error` panics at the forwarding
call, and `Completed` / `Error` panic before releasing the wait group. -/
theorem wrapper_of_nil_callback_panics :
    requestNoCallback.statusCB = false ∧
    (checkForCancel (startRun cancelledNoCallback)).2.trace = [] ∧
    ((newRepairStatusCB requestNoCallback).Started "alloc" "/a.txt" 1 8).panicked = true ∧
    ((newRepairStatusCB requestNoCallback).InProgress "alloc" "/a.txt" 1 4).panicked = true ∧
    ((newRepairStatusCB requestNoCallback).Completed sampleOps
        "alloc" "/a.txt" "a.txt" "text/plain" 8 1).panicked = true ∧
    ((newRepairStatusCB requestNoCallback).Completed sampleOps
        "alloc" "/a.txt" "a.txt" "text/plain" 8 1).effects = [] ∧
    ((newRepairStatusCB requestNoCallback).Error "alloc" "/a.txt" 1
        (some "download failed")).panicked = true ∧
    ((newRepairStatusCB requestNoCallback).Error "alloc" "/a.txt" 1
        (some "download failed")).effects = [] := by
  decide

/-! ## A directory at the local mirror path -/

/-- C22, as stated, fails: the file needs repair and a directory occupies its
local mirror path, but cancellation was signalled while `RepairRequired` was in
flight, so the cancel check before the download returns and no `DownloadFile`
call is issued. -/
theorem repairFile_directory_at_mirror_cancelled :
    (envDirectoryAtMirrorCancelled.RepairRequired [] "/a.txt").required = true ∧
    (envDirectoryAtMirrorCancelled.RepairRequired [] "/a.txt").err = false ∧
    envDirectoryAtMirrorCancelled.Stat
      (afterRepairRequired envDirectoryAtMirrorCancelled (fileNode "/a.txt")
        (startRun (freshRequest twoFiles))).trace "/mirror/a.txt" = some true ∧
    (repairFile envDirectoryAtMirrorCancelled (fileNode "/a.txt")
        (startRun (freshRequest twoFiles))).trace
      = [Event.RepairRequired "/a.txt" true false, Event.cancelSignalled,
         Event.RepairCompleted 0] := by
  decide

/-- C22, amended. `checkFileExists` returns true if and only if `os.Stat`
succeeded and the path is not a directory; consequently, when a directory
occupies the local mirror path of a file that needs repair and cancellation is
not set (the flag is down on entry and is not raised while `RepairRequired` is
in flight), `repairFile` treats the local copy as missing: right after
`RepairRequired` it issues `DownloadFile` for that path. -/
theorem repairFile_directory_at_mirror (a : Env) (file : ListResult) (s : Run)
    (hflag : s.r.isRepairCanceled = false)
    (herr : (a.RepairRequired s.trace file.Path).err = false)
    (hreq : (a.RepairRequired s.trace file.Path).required = true)
    (hquiet : (a.RepairRequired s.trace file.Path).cancel = false)
    (hdir : a.Stat (afterRepairRequired a file s).trace (s.r.localRootPath ++ file.Path)
      = some true) :
    (∀ stat : Option Bool, checkFileExists stat = true ↔ stat = some false) ∧
    checkFileExists
      (a.Stat (afterRepairRequired a file s).trace (s.r.localRootPath ++ file.Path)) = false ∧
    ∃ t, (repairFile a file s).trace = s.trace ++
        [Event.RepairRequired file.Path true false,
         Event.DownloadFile (s.r.localRootPath ++ file.Path) file.Path
          (a.DownloadFile (afterRepairRequired a file s).trace
            (s.r.localRootPath ++ file.Path) file.Path).err
          (a.DownloadFile (afterRepairRequired a file s).trace
            (s.r.localRootPath ++ file.Path) file.Path).success] ++ t := by
  have hiff : ∀ stat : Option Bool, checkFileExists stat = true ↔ stat = some false := by
    intro stat
    cases stat with
    | none => simp [checkFileExists]
    | some isDir => cases isDir <;> simp [checkFileExists]
  have hlocal : checkFileExists
      (a.Stat (afterRepairRequired a file s).trace (s.r.localRootPath ++ file.Path)) = false := by
    rw [hdir]; rfl
  refine ⟨hiff, hlocal, ?_⟩
  have hrr : (afterRepairRequired a file s).trace
      = s.trace ++ [Event.RepairRequired file.Path true false] := by
    rw [afterRepairRequired_trace, herr, hreq, hquiet]; rfl
  have hf2 : (afterRepairRequired a file s).r.isRepairCanceled = false := by
    simp [hquiet, hflag]
  have hcontra : ∀ x : Bool, x = true → x = false → False := by
    intro x h1 h2; rw [h1] at h2; exact Bool.noConfusion h2
  have hgl : getLocalPath s.r file = s.r.localRootPath ++ file.Path := rfl
  have hdl : ∃ t, (afterDownloadFile a file (s.r.localRootPath ++ file.Path)
      (afterRepairRequired a file s)).trace = s.trace ++
        [Event.RepairRequired file.Path true false,
         Event.DownloadFile (s.r.localRootPath ++ file.Path) file.Path
          (a.DownloadFile (afterRepairRequired a file s).trace
            (s.r.localRootPath ++ file.Path) file.Path).err
          (a.DownloadFile (afterRepairRequired a file s).trace
            (s.r.localRootPath ++ file.Path) file.Path).success] ++ t := by
    refine ⟨if (a.DownloadFile (afterRepairRequired a file s).trace
        (s.r.localRootPath ++ file.Path) file.Path).cancel then [Event.cancelSignalled] else [],
      ?_⟩
    rw [afterDownloadFile_trace, hrr]; simp
  refine repairFile_cases a file s
    (fun s' => ∃ t, s'.trace = s.trace ++
        [Event.RepairRequired file.Path true false,
         Event.DownloadFile (s.r.localRootPath ++ file.Path) file.Path
          (a.DownloadFile (afterRepairRequired a file s).trace
            (s.r.localRootPath ++ file.Path) file.Path).err
          (a.DownloadFile (afterRepairRequired a file s).trace
            (s.r.localRootPath ++ file.Path) file.Path).success] ++ t) ?_ ?_ ?_ ?_ ?_ ?_ ?_
  · intro h; exact (hcontra _ h hflag).elim
  · intro _ h
    rcases h with h | h
    · exact (hcontra _ h herr).elim
    · exact (hcontra _ hreq h).elim
  · intro _ _ _ _ h; exact (hcontra _ h hf2).elim
  · intro _ _ _ _ _ _
    rw [hgl]; exact hdl
  · intro _ _ _ _ _ _ _ _
    rw [hgl]
    obtain ⟨t1, ht1⟩ := hdl
    obtain ⟨t2, ht2, -, -⟩ := repairFileUpload_summary a file (s.r.localRootPath ++ file.Path)
      (afterDownloadFile a file (s.r.localRootPath ++ file.Path) (afterRepairRequired a file s))
    exact ⟨t1 ++ t2, by rw [ht2, ht1]; simp⟩
  · intro _ _ _ h
    rw [hgl] at h
    exact (hcontra _ h hlocal).elim
  · intro _ _ _ _ _ _ _
    rw [hgl, halt_trace]; exact hdl

/-- Witness for C22 (amended): a directory sits at `/mirror/a.txt`; the
file is downloaded to that path. -/
theorem repairFile_directory_at_mirror_witness :
    ((startRun (freshRequest twoFiles)).r.isRepairCanceled = false ∧
      (envDirectoryAtMirror.RepairRequired (startRun (freshRequest twoFiles)).trace
        (fileNode "/a.txt").Path).err = false ∧
      (envDirectoryAtMirror.RepairRequired (startRun (freshRequest twoFiles)).trace
        (fileNode "/a.txt").Path).required = true ∧
      (envDirectoryAtMirror.RepairRequired (startRun (freshRequest twoFiles)).trace
        (fileNode "/a.txt").Path).cancel = false ∧
      envDirectoryAtMirror.Stat (afterRepairRequired envDirectoryAtMirror (fileNode "/a.txt")
          (startRun (freshRequest twoFiles))).trace
        ((startRun (freshRequest twoFiles)).r.localRootPath ++ (fileNode "/a.txt").Path)
        = some true) ∧
    ((∀ stat : Option Bool, checkFileExists stat = true ↔ stat = some false) ∧
      checkFileExists
        (envDirectoryAtMirror.Stat (afterRepairRequired envDirectoryAtMirror (fileNode "/a.txt")
            (startRun (freshRequest twoFiles))).trace
          ((startRun (freshRequest twoFiles)).r.localRootPath ++ (fileNode "/a.txt").Path))
        = false ∧
      ∃ t, (repairFile envDirectoryAtMirror (fileNode "/a.txt")
          (startRun (freshRequest twoFiles))).trace
        = (startRun (freshRequest twoFiles)).trace ++
          [Event.RepairRequired (fileNode "/a.txt").Path true false,
           Event.DownloadFile ((startRun (freshRequest twoFiles)).r.localRootPath ++
              (fileNode "/a.txt").Path) (fileNode "/a.txt").Path
            (envDirectoryAtMirror.DownloadFile
              (afterRepairRequired envDirectoryAtMirror (fileNode "/a.txt")
                (startRun (freshRequest twoFiles))).trace
              ((startRun (freshRequest twoFiles)).r.localRootPath ++ (fileNode "/a.txt").Path)
              (fileNode "/a.txt").Path).err
            (envDirectoryAtMirror.DownloadFile
              (afterRepairRequired envDirectoryAtMirror (fileNode "/a.txt")
                (startRun (freshRequest twoFiles))).trace
              ((startRun (freshRequest twoFiles)).r.localRootPath ++ (fileNode "/a.txt").Path)
              (fileNode "/a.txt").Path).success] ++ t) :=
  ⟨⟨rfl, rfl, rfl, rfl, rfl⟩,
    repairFile_directory_at_mirror envDirectoryAtMirror (fileNode "/a.txt")
      (startRun (freshRequest twoFiles)) rfl rfl rfl rfl rfl⟩

/-! ## A node of another type -/

/-- C23. For a node whose type is neither FILE nor DIRECTORY, `iterateDir`
(with fuel left) returns the run exactly as it was: no `ListDir`,
`RepairRequired`, `DownloadFile` or `RepairFile` call, no callback, and
`filesRepaired` unchanged; and in the child loop that visits the node (flag
down, running normally) the walk goes on with the node's siblings. -/
theorem iterateDir_other_type (a : Env) (fuel : Nat) (node : ListResult) (s : Run)
    (hfile : node.Type_ ≠ RefType.FILE) (hdir : node.Type_ ≠ RefType.DIRECTORY) :
    iterateDir a (fuel + 1) node s = s ∧
    (iterateDir a (fuel + 1) node s).trace = s.trace ∧
    (iterateDir a (fuel + 1) node s).r.filesRepaired = s.r.filesRepaired ∧
    (∀ rest, s.r.isRepairCanceled = false → s.status = Status.ok →
      forChildren (iterateDir a (fuel + 1)) (node :: rest) s
        = forChildren (iterateDir a (fuel + 1)) rest s) := by
  have hstep : iterateDir a (fuel + 1) node s = s := by
    unfold iterateDir
    cases ht : node.Type_ with
    | FILE => exact (hfile ht).elim
    | DIRECTORY => exact (hdir ht).elim
    | other tag => rfl
  refine ⟨hstep, by rw [hstep], by rw [hstep], ?_⟩
  intro rest hf hs
  rw [forChildren, checkForCancel_running s hf]
  simp only [hstep, hs, if_true]

/-- Witness for C23: an odd node followed by a file; the file is visited. -/
theorem iterateDir_other_type_witness :
    (oddNode.Type_ ≠ RefType.FILE ∧ oddNode.Type_ ≠ RefType.DIRECTORY) ∧
    iterateDir envAllRepaired 2 oddNode (startRun (freshRequest oddNodeThenFile))
      = startRun (freshRequest oddNodeThenFile) ∧
    forChildren (iterateDir envAllRepaired 2) (oddNode :: [fileNode "/b.txt"])
        (startRun (freshRequest oddNodeThenFile))
      = forChildren (iterateDir envAllRepaired 2) [fileNode "/b.txt"]
        (startRun (freshRequest oddNodeThenFile)) ∧
    checkedPaths (iterateDir envAllRepaired 3 oddNodeThenFile
      (startRun (freshRequest oddNodeThenFile))).trace = ["/b.txt"] :=
  ⟨⟨by decide, by decide⟩,
    (iterateDir_other_type envAllRepaired 1 oddNode (startRun (freshRequest oddNodeThenFile))
      (by decide) (by decide)).1,
    (iterateDir_other_type envAllRepaired 1 oddNode (startRun (freshRequest oddNodeThenFile))
      (by decide) (by decide)).2.2.2 [fileNode "/b.txt"] rfl rfl,
    by decide⟩

end Repair

namespace Sync

/-- C14. `GetAllocationDiff` returns an error and no diff list whenever the
local root does not exist, whenever the snapshot path is a directory, and
whenever the content of the snapshot file does not parse. -/
theorem GetAllocationDiff_fatal_inputs (parse : String → Option (List (String × String)))
    (keepLocal keepRemote : String → Bool) (remote : List (String × RemoteEntry)) :
    (∀ snapshotPath, ∃ e, GetAllocationDiff parse keepLocal keepRemote snapshotPath
        LocalRoot.missing remote = Except.error e) ∧
    (∀ localRoot, ∃ e, GetAllocationDiff parse keepLocal keepRemote SnapshotPath.directory
        localRoot remote = Except.error e) ∧
    (∀ localRoot content, parse content = none →
      ∃ e, GetAllocationDiff parse keepLocal keepRemote (SnapshotPath.regular content)
        localRoot remote = Except.error e) := by
  refine ⟨?_, ?_, ?_⟩
  · intro snapshotPath
    cases snapshotPath with
    | directory => exact ⟨_, rfl⟩
    | unreadable => exact ⟨_, rfl⟩
    | regular content =>
      cases h : parse content with
      | none => exact ⟨DiffError.CacheFormatError, by simp [GetAllocationDiff, h]⟩
      | some cache => exact ⟨DiffError.PathError, by simp [GetAllocationDiff, h]⟩
  · intro localRoot
    exact ⟨_, rfl⟩
  · intro localRoot content h
    exact ⟨DiffError.CacheFormatError, by simp [GetAllocationDiff, h]⟩

/-- Witness for C14: a snapshot file whose content is not in the format. -/
theorem GetAllocationDiff_fatal_inputs_witness :
    sampleParse "not json" = none ∧
    ∃ e, GetAllocationDiff sampleParse (fun _ => true) (fun _ => true)
      (SnapshotPath.regular "not json") sampleLocal sampleRemote = Except.error e :=
  ⟨by decide,
    (GetAllocationDiff_fatal_inputs sampleParse (fun _ => true) (fun _ => true) sampleRemote).2.2
      sampleLocal "not json" (by decide)⟩

theorem mem_keys_of_lookup {β : Type} (l : List (String × β)) (p : String) (b : β)
    (h : l.lookup p = some b) : p ∈ l.map Prod.fst := by
  induction l with
  | nil => simp [List.lookup] at h
  | cons e rest ih =>
    obtain ⟨k, v⟩ := e
    by_cases hk : p = k
    · simp [hk]
    · have hb : (p == k) = false := by simpa using hk
      rw [List.lookup, hb] at h
      simp only [List.map_cons, List.mem_cons]
      exact Or.inr (ih h)

theorem entryFor_path (cache localMap : List (String × String))
    (remoteMap : List (String × RemoteEntry)) (p : String) (d : FileDiff)
    (h : entryFor cache localMap remoteMap p = some d) : d.Path = p := by
  unfold entryFor at h
  split at h
  · exact Option.noConfusion h
  · cases h; rfl

theorem filter_path_filterMap (cache localMap : List (String × String))
    (remoteMap : List (String × RemoteEntry)) (p : String) (l : List String) :
    (l.filterMap (entryFor cache localMap remoteMap)).filter (fun d => d.Path = p)
      = (l.filter (fun q => q = p)).filterMap (entryFor cache localMap remoteMap) := by
  induction l with
  | nil => rfl
  | cons q rest ih =>
    rw [List.filterMap_cons]
    cases hq : entryFor cache localMap remoteMap q with
    | none =>
      simp only []
      by_cases hqp : q = p
      · rw [List.filter_cons_of_pos (by simpa using hqp), List.filterMap_cons, hq]
        exact ih
      · rw [List.filter_cons_of_neg (by simpa using hqp)]
        exact ih
    | some d =>
      simp only []
      have hd := entryFor_path cache localMap remoteMap q d hq
      by_cases hqp : q = p
      · rw [List.filter_cons_of_pos (by simpa using hd.trans hqp),
          List.filter_cons_of_pos (by simpa using hqp), List.filterMap_cons, hq, ih]
      · rw [List.filter_cons_of_neg (by simpa using fun h => hqp (hd.symm.trans h)),
          List.filter_cons_of_neg (by simpa using hqp)]
        exact ih

theorem allPaths_filter_eq (cache localMap : List (String × String))
    (remoteMap : List (String × RemoteEntry)) (p : String)
    (hmem : p ∈ cache.map Prod.fst ++ localMap.map Prod.fst ++ remoteMap.map Prod.fst) :
    (allPaths cache localMap remoteMap).filter (fun q => q = p) = [p] := by
  have hcount : List.count p (allPaths cache localMap remoteMap) = 1 := by
    unfold allPaths
    rw [(List.mergeSort_perm _ _).count_eq]
    exact List.count_eq_one_of_mem (List.nodup_dedup _) (List.mem_dedup.mpr hmem)
  rw [List.filter_eq, hcount]
  rfl

/-- C15. For a path that is present in the cached snapshot, in the local tree
and in the consensus remote tree (as compared, that is after the local
filters and the remote excludes), `GetAllocationDiff` succeeds and: when the
local, remote and cached hashes are all equal it emits no entry for the path;
when the local hash differs from the cached one and the remote hash equals
the cached one it emits exactly one entry for the path, with `Op` `Update`. -/
theorem GetAllocationDiff_unchanged_and_update
    (parse : String → Option (List (String × String)))
    (keepLocal keepRemote : String → Bool) (content : String)
    (cache files : List (String × String)) (remote : List (String × RemoteEntry))
    (path hL hR hC : String)
    (hparse : parse content = some cache)
    (hc : cache.lookup path = some hC)
    (hl : (files.filter (fun e => keepLocal e.1)).lookup path = some hL)
    (hr : (remote.filter (fun e => keepRemote e.1)).lookup path = some (RemoteEntry.agreed hR)) :
    ∃ diffs, GetAllocationDiff parse keepLocal keepRemote (SnapshotPath.regular content)
        (LocalRoot.directory files) remote = Except.ok diffs ∧
      (hL = hC → hR = hC → diffs.filter (fun d => d.Path = path) = []) ∧
      (hL ≠ hC → hR = hC →
        diffs.filter (fun d => d.Path = path) = [{ Path := path, Op := Op.Update }]) := by
  refine ⟨(allPaths cache (files.filter (fun e => keepLocal e.1))
      (remote.filter (fun e => keepRemote e.1))).filterMap
    (entryFor cache (files.filter (fun e => keepLocal e.1))
      (remote.filter (fun e => keepRemote e.1))), by simp only [GetAllocationDiff, hparse], ?_, ?_⟩
  · intro h1 h2
    rw [filter_path_filterMap, allPaths_filter_eq _ _ _ _
      (List.mem_append_left _ (List.mem_append_left _ (mem_keys_of_lookup _ _ _ hc)))]
    simp [entryFor, hc, hl, hr, categorize, changedSince, h1, h2]
  · intro h1 h2
    rw [filter_path_filterMap, allPaths_filter_eq _ _ _ _
      (List.mem_append_left _ (List.mem_append_left _ (mem_keys_of_lookup _ _ _ hc)))]
    simp [entryFor, hc, hl, hr, categorize, changedSince, h1, h2]

/-- Witness for C15: the scenario of section 8; `/3.txt` was modified locally
and is cached and stored remotely with hash `H3`. -/
theorem GetAllocationDiff_unchanged_and_update_witness :
    (sampleParse "ok" = some [("/1.txt", "H"), ("/3.txt", "H3")] ∧
      List.lookup "/3.txt" [("/1.txt", "H"), ("/3.txt", "H3")] = some "H3" ∧
      List.lookup "/3.txt" (List.filter (fun e => (fun _ => true) e.1)
        [("/1.txt", "H"), ("/3.txt", "H3x")]) = some "H3x" ∧
      List.lookup "/3.txt" (List.filter (fun e => (fun _ => true) e.1) sampleRemote)
        = some (RemoteEntry.agreed "H3")) ∧
    ∃ diffs, GetAllocationDiff sampleParse (fun _ => true) (fun _ => true)
        (SnapshotPath.regular "ok")
        (LocalRoot.directory [("/1.txt", "H"), ("/3.txt", "H3x")]) sampleRemote
        = Except.ok diffs ∧
      ("H3x" = "H3" → "H3" = "H3" → diffs.filter (fun d => d.Path = "/3.txt") = []) ∧
      ("H3x" ≠ "H3" → "H3" = "H3" →
        diffs.filter (fun d => d.Path = "/3.txt") = [{ Path := "/3.txt", Op := Op.Update }]) :=
  ⟨⟨by decide, by decide, by decide, by decide⟩,
    GetAllocationDiff_unchanged_and_update sampleParse (fun _ => true) (fun _ => true) "ok"
      [("/1.txt", "H"), ("/3.txt", "H3")] [("/1.txt", "H"), ("/3.txt", "H3x")] sampleRemote
      "/3.txt" "H3x" "H3" "H3" (by decide) (by decide) (by decide) (by decide)⟩

end Sync

namespace Collaborator

theorem aggregate_iff (call : String → Bool) (blobbers arrival : List String)
    (hperm : arrival.Perm blobbers) :
    aggregate call arrival = true ↔ ∀ b ∈ blobbers, call b = true := by
  simp only [aggregate, List.all_eq_true, List.mem_map, forall_exists_index, and_imp]
  constructor
  · intro h b hb
    exact h (call b) b (hperm.mem_iff.mpr hb) rfl
  · intro h ok b hb hok
    rw [← hok]
    exact h b (hperm.mem_iff.mp hb)

/-- C16. Whatever the order in which the per-blobber calls report (`arrival`
is the blobbers of the allocation in any order), `UpdateCollaboratorToBlobbers`
and `RemoveCollaboratorFromBlobbers` return true if and only if the
per-blobber call succeeded on every blobber of the allocation; hence a failure
on any single blobber makes the result false. -/
theorem collaborator_fanout_all_or_nothing (update remove : String → Bool)
    (blobbers arrival : List String) (hperm : arrival.Perm blobbers) :
    (UpdateCollaboratorToBlobbers update arrival = true ↔ ∀ b ∈ blobbers, update b = true) ∧
    (RemoveCollaboratorFromBlobbers remove arrival = true ↔ ∀ b ∈ blobbers, remove b = true) ∧
    (∀ b ∈ blobbers, update b = false → UpdateCollaboratorToBlobbers update arrival = false) ∧
    (∀ b ∈ blobbers, remove b = false → RemoveCollaboratorFromBlobbers remove arrival = false) := by
  have hfail : ∀ call : String → Bool, ∀ b ∈ blobbers, call b = false →
      aggregate call arrival = false := by
    intro call b hb hcall
    cases h : aggregate call arrival with
    | false => rfl
    | true =>
      have := (aggregate_iff call blobbers arrival hperm).mp h b hb
      rw [hcall] at this
      exact Bool.noConfusion this
  exact ⟨aggregate_iff update blobbers arrival hperm, aggregate_iff remove blobbers arrival hperm,
    hfail update, hfail remove⟩

/-- Witness for C16: the scenario of section 8, four blobbers of which
one answers 500, reporting in the order b2, b4, b1, b3. -/
theorem collaborator_fanout_all_or_nothing_witness :
    ["b2", "b4", "b1", "b3"].Perm fourBlobbers ∧
    UpdateCollaboratorToBlobbers oneUnconfigured ["b2", "b4", "b1", "b3"] = false ∧
    UpdateCollaboratorToBlobbers (fun _ => true) ["b2", "b4", "b1", "b3"] = true :=
  ⟨by decide,
    (collaborator_fanout_all_or_nothing oneUnconfigured oneUnconfigured fourBlobbers
      ["b2", "b4", "b1", "b3"] (by decide)).2.2.1 "b3" (by decide) (by decide),
    (collaborator_fanout_all_or_nothing (fun _ => true) (fun _ => true) fourBlobbers
      ["b2", "b4", "b1", "b3"] (by decide)).1.mpr (fun _ _ => rfl)⟩

end Collaborator
